import Mathlib

/-!
# Availability sync of the calendar plugin

A shallow embedding of `calendar/engine/availability.go`: the event-window
merger (`getMergedEvents`, `areEventsMergeable`), the pre-filter
(`filterBusyAndAttendeeEvents`), the event fingerprint, the status decision
engine (`setStatusFromCalendarView`, `setStatusOrAskUser`), the custom-status
engine, the batch sync orchestrator with its log, and the upcoming-event
notifier; of the notification queue and the webhook change detector of
`calendar/engine/notification.go` and `notification_format.go`; and of the
confirmation view of `calendar/engine/views/status_change_notification.go`;
followed by the properties proved about them.

Conventions of the embedding

* A Go `time.Time` is an instant counted in nanoseconds since the Unix epoch,
  together with the offset of its location; `time.Duration` is a count of
  nanoseconds. `Time.Sub` saturates as in Go.
* A Go slice `[]*remote.Event` is a `List Event`. The slice holds pointers to
  distinct event objects (one per decoded calendar item), so an assignment to
  `events[idx].End` changes the current merged event only.
* Calls to the store, the chat API and the poster are recorded in a trace; the
  error each call returns, if any, is fixed by the `Env` of the pass.
-/

namespace Calendar

/-! ## Time -/

/-- Go `time.Minute`, a `time.Duration`: durations are signed counts of
nanoseconds. -/
def Minute : Int := 60 * 1000000000

/-- Smallest `time.Duration` (`-1 << 63`). -/
def minDuration : Int := -9223372036854775808

/-- Largest `time.Duration` (`1<<63 - 1`). -/
def maxDuration : Int := 9223372036854775807

/-- Go `time.Time` without a monotonic clock reading: the instant in nanoseconds
since the Unix epoch and the offset (seconds east of UTC) of its location. -/
structure Time where
  unixNano : Int
  offset : Int
  deriving DecidableEq, Repr

/-- Go `Time.UnixMicro`: microseconds since the Unix epoch, rounded down. The
instants that `remote.DateTime.Time()` parses have a four-digit year, for which
the count fits an `int64`; the wrap-around of far-away years is left out. -/
def Time.UnixMicro (t : Time) : Int := t.unixNano / 1000

/-- Go `Time.Unix`: seconds since the Unix epoch, rounded down. -/
def Time.Unix (t : Time) : Int := t.unixNano / 1000000000

/-- Go `Time.Sub`: the duration `t - u`, saturated at the smallest and largest
duration. -/
def Time.Sub (t u : Time) : Int :=
  let d := t.unixNano - u.unixNano
  if d < minDuration then minDuration
  else if maxDuration < d then maxDuration
  else d

/-- Go `Time.UTC`: the same instant, location set to UTC. -/
def Time.UTC (t : Time) : Time := { t with offset := 0 }

/-! ### `Time.Format(time.RFC3339)`

The layout `2006-01-02T15:04:05Z07:00` prints the civil date and the time of
day of the instant in the location of the time, at second precision, followed
by `Z` for offset zero and by `±hh:mm` otherwise. -/

/-- Decimal digit character of `n % 10`. -/
def digitChar (n : Nat) : Char := Char.ofNat (48 + n % 10)

/-- Decimal digits of `n`, most significant first, in front of `acc`; `fuel`
bounds the number of digits. -/
def natDigitsAux : Nat → Nat → List Char → List Char
  | 0, _, acc => acc
  | fuel + 1, n, acc =>
    if n < 10 then digitChar n :: acc
    else natDigitsAux fuel (n / 10) (digitChar (n % 10) :: acc)

/-- Decimal form of a natural number. -/
def natDigits (n : Nat) : List Char := natDigitsAux (n + 1) n []

/-- The decimal form of `n`, padded with leading zeros to `width` digits. -/
def paddedDigits (n width : Nat) : List Char :=
  List.replicate (width - (natDigits n).length) '0' ++ natDigits n

/-- Go `appendInt` of package `time`: the decimal form of `x`, padded with
leading zeros to `width` digits, after a `-` when `x` is negative. -/
def appendInt (x : Int) (width : Nat) : List Char :=
  (if x < 0 then ['-'] else []) ++ paddedDigits x.natAbs width

/-- The number read from a list of decimal digit characters, continuing from
`v`. -/
def digitsValueFrom (v : Nat) (cs : List Char) : Nat :=
  cs.foldl (fun v c => 10 * v + (c.toNat - 48)) v

/-- A decimal digit character. -/
def IsDigitChar (c : Char) : Prop := ∃ k, c = digitChar k

/-- Year, month and day of the proleptic Gregorian calendar for a count of days
since 1970-01-01. The count is taken from 0000-03-01, so that the leap day is
the last day of a 4-year, 100-year and 400-year cycle. -/
def civilFromDays (z : Int) : Int × Int × Int :=
  let n := z + 719468
  let era := n / 146097
  let doe := n % 146097
  let c := if doe / 36524 < 3 then doe / 36524 else 3
  let r1 := doe - 36524 * c
  let q := r1 / 1461
  let r2 := r1 % 1461
  let a := if r2 / 365 < 3 then r2 / 365 else 3
  let doy := r2 - 365 * a
  let mp := (5 * doy + 2) / 153
  let d := doy - (153 * mp + 2) / 5 + 1
  let m := if mp < 10 then mp + 3 else mp - 9
  let y := 400 * era + 100 * c + 4 * q + a
  (if m ≤ 2 then y + 1 else y, m, d)

/-- Count of days since 1970-01-01 of a date of the proleptic Gregorian calendar,
the inverse of `civilFromDays`. -/
def daysFromCivil (p : Int × Int × Int) : Int :=
  let y := if p.2.1 ≤ 2 then p.1 - 1 else p.1
  let mp := if p.2.1 > 2 then p.2.1 - 3 else p.2.1 + 9
  146097 * (y / 400) + 365 * (y % 400) + y % 400 / 4 - y % 400 / 100
    + (153 * mp + 2) / 5 + p.2.2 - 1 - 719468

/-- The zone suffix of the layout element `Z07:00` for an offset in seconds. -/
def formatZone (offset : Int) : List Char :=
  if offset = 0 then ['Z']
  else
    let zone := Int.tdiv offset 60
    (if zone < 0 then ['-'] else ['+']) ++
      appendInt (Int.natAbs zone / 60 : Nat) 2 ++ [':'] ++ appendInt (Int.natAbs zone % 60 : Nat) 2

/-- The characters of `t.Format(time.RFC3339)`. -/
def Time.rfc3339Chars (t : Time) : List Char :=
  let abs := t.Unix + t.offset
  let date := civilFromDays (abs / 86400)
  let secs := abs % 86400
  appendInt date.1 4 ++
    ('-' :: appendInt date.2.1 2 ++
      ('-' :: appendInt date.2.2 2 ++
        ('T' :: appendInt (secs / 3600) 2 ++
          (':' :: appendInt (secs % 3600 / 60) 2 ++
            (':' :: appendInt (secs % 60) 2 ++ formatZone t.offset)))))

/-- Go `t.Format(time.RFC3339)`. -/
def Time.FormatRFC3339 (t : Time) : String := String.mk t.rfc3339Chars

/-! ## Constants of `availability.go` -/

/-- Constant `StatusSyncJobInterval = 5 * time.Minute`. -/
def StatusSyncJobInterval : Int := 5 * Minute

/-! ## Events -/

/-- Modelled from the spec: `remote.Attendee`; package `remote` is not among the
sources. Only the number of attendees of an event is read here. -/
structure Attendee where
  Name : String
  Address : String
  deriving DecidableEq, Repr

/-- Modelled from the spec: `remote.Event`; package `remote` is not among the
sources. The fields are the ones `availability.go`, `notification_format.go`
and `views/status_change_notification.go` read. `Start` and `End` hold the
`time.Time` that `Start.Time()` and `End.Time()` return; `Organizer` is
`Organizer.EmailAddress`, `Location` is `Location.DisplayName`,
`ResponseStatus` is `ResponseStatus.Response`. -/
structure Event where
  ID : String
  ICalUID : String
  Subject : String
  ShowAs : String
  Weblink : String
  IsCancelled : Bool
  Attendees : List Attendee
  Start : Time
  End : Time
  BodyPreview : String := ""
  Importance : String := ""
  Location : String := ""
  Organizer : Attendee := ⟨"", ""⟩
  ResponseStatus : String := ""
  ResponseRequested : Bool := false
  IsOrganizer : Bool := false
  IsAllDay : Bool := false
  deriving DecidableEq, Repr

/-- Function `areEventsMergeable`: the events overlap (compared in whole microseconds),
or the first lasts at most one sync interval and the gap to the second is at
most one sync interval. -/
def areEventsMergeable (event1 event2 : Event) : Bool :=
  decide (event1.End.UnixMicro ≥ event2.Start.UnixMicro) ||
    (decide (event1.End.Sub event1.Start ≤ StatusSyncJobInterval) &&
      decide (event2.Start.Sub event1.End ≤ StatusSyncJobInterval))

/-- The loop of `getMergedEvents`. `done` is `events[0:idx]`, `cur` is
`events[idx]`, the third argument is `events[i:]`. -/
def mergeLoop (done : List Event) (cur : Event) : List Event → List Event
  | [] => done ++ [cur]
  | e :: rest =>
    if areEventsMergeable cur e then
      mergeLoop done { cur with End := e.End } rest
    else
      mergeLoop (done ++ [cur]) e rest

/-- Function `getMergedEvents`: sweep over a list of events sorted by start time, merging
each event into the current one when `areEventsMergeable` allows it. -/
def getMergedEvents (events : List Event) : List Event :=
  if events.length ≤ 1 then events
  else
    match events with
    | [] => []
    | e :: rest => mergeLoop [] e rest

/-- Function `filterBusyAndAttendeeEvents`: the loop appends every event that is shown as
busy, is not cancelled and has at least one attendee. -/
def filterBusyAndAttendeeEvents (events : List Event) : List Event :=
  events.foldl
    (fun result e =>
      if e.ShowAs == "busy" && !e.IsCancelled && decide (e.Attendees.length ≥ 1) then
        result ++ [e]
      else result)
    []

/-- A list of events is sorted by start time (the order `retrieveUsersToSync`
establishes with `sort.Slice` on `Start.Time().UnixMicro()`). -/
def SortedByStart (events : List Event) : Prop :=
  events.Pairwise (fun a b => a.Start.UnixMicro ≤ b.Start.UnixMicro)

/-- Two consecutive events that `areEventsMergeable` keeps apart. -/
def NotMergeable (a b : Event) : Prop := areEventsMergeable a b = false

/-! ## Users, statuses and the calls made on collaborators -/

/-- Mattermost `model.StatusOnline`. -/
def StatusOnline : String := "online"

/-- Mattermost `model.StatusAway`. -/
def StatusAway : String := "away"

/-- Mattermost `model.StatusDnd`. -/
def StatusDnd : String := "dnd"

/-- Mattermost `model.StatusOffline`. -/
def StatusOffline : String := "offline"

/-- Modelled from the spec: `store.AwayStatusOption`, the status-update mode that
targets away; package `store` is not among the sources. -/
def AwayStatusOption : String := "away"

/-- Modelled from the spec: `store.DNDStatusOption`, the status-update mode that
targets do-not-disturb; package `store` is not among the sources. -/
def DNDStatusOption : String := "dnd"

/-- Modelled from the spec: `store.NotSetStatusOption`, the default mode of the
settings panel (no status updates); package `store` is not among the sources. -/
def NotSetStatusOption : String := "notset"

/-- Mattermost `model.Status`: the fields read here. -/
structure Status where
  Status : String
  Manual : Bool
  deriving DecidableEq, Repr

/-- Modelled from the spec: `store.Settings`, the persisted settings of a user;
package `store` is not among the sources. -/
structure Settings where
  UpdateStatusFromOptions : String
  GetConfirmation : Bool
  SetCustomStatus : Bool
  ReceiveReminders : Bool
  EventSubscriptionID : String := ""
  deriving DecidableEq, Repr

/-- Modelled from the spec: `store.User`, the persisted user record; package
`store` is not among the sources. `RemoteID` is `Remote.ID`. -/
structure User where
  MattermostUserID : String
  RemoteID : String
  Settings : Settings
  ActiveEvents : List String
  LastStatus : String
  IsCustomStatusSet : Bool
  deriving DecidableEq, Repr

/-- Modelled from the spec: `User.IsConfiguredForStatusUpdates` of package
`store`, not among the sources: the status-update mode is away or
do-not-disturb. -/
def User.IsConfiguredForStatusUpdates (user : User) : Bool :=
  user.Settings.UpdateStatusFromOptions == AwayStatusOption ||
    user.Settings.UpdateStatusFromOptions == DNDStatusOption

/-- One call on a collaborator, with its arguments: the store (`StoreUser`,
`StoreUserActiveEvents`), the chat API (`UpdateMattermostUserStatus`) and the
poster (`DMWithAttachments`, whose attachment is
`views.RenderStatusChangeNotificationView(events, status, url)`). -/
inductive Call where
  | StoreUser (user : User)
  | StoreUserActiveEvents (mattermostUserID : String) (events : List String)
  | UpdateMattermostUserStatus (mattermostUserID : String) (status : String)
  | DMWithAttachments (mattermostUserID : String) (events : List Event) (status : String)
      (url : String)
  deriving DecidableEq, Repr

/-- The environment of one pass: the configured URL path, the path constants of
package `config`, and for each collaborator call the error it returns (`none`
when the call succeeds). An error is represented by its message. -/
structure Env where
  PluginURLPath : String
  PathPostAction : String
  PathConfirmStatusChange : String
  StoreUserErr : Option String
  StoreUserActiveEventsErr : Option String
  UpdateMattermostUserStatusErr : Option String
  DMWithAttachmentsErr : Option String
  deriving DecidableEq, Repr

/-- What `setStatusFromCalendarView` returns: `(string, bool, error)`. -/
structure Result where
  message : String
  isStatusChanged : Bool
  err : Option String
  deriving DecidableEq, Repr

/-- What a pass leaves behind: the returned values, the user object (the
functions assign to `user.LastStatus` through the pointer) and the calls made,
in order. -/
structure Outcome (α : Type) where
  ret : α
  user : User
  calls : List Call

/-- Go `errors.Wrapf(err, message)`: the message of the wrapped error. -/
def wrapf (err : String) (message : String) : String := message ++ ": " ++ err

/-! ## The status decision engine -/

/-- Function `setStatusOrAskUser`: pick the status to set, update `user.LastStatus`,
store the user, then either update the status or ask the user by DM. Returns
the error, if any. -/
def setStatusOrAskUser (m : Env) (user : User) (currentStatus : Status)
    (events : List Event) (isFree : Bool) : Outcome (Option String) :=
  let toSet := StatusOnline
  let restore := isFree && user.LastStatus != ""
  let toSet := if restore then user.LastStatus else toSet
  let user := if restore then { user with LastStatus := "" } else user
  let toSet :=
    if !isFree then
      (if user.Settings.UpdateStatusFromOptions == AwayStatusOption then StatusAway
      else StatusDnd)
    else toSet
  let user :=
    if !isFree && !user.Settings.GetConfirmation then
      { user with LastStatus := if currentStatus.Manual then currentStatus.Status else "" }
    else user
  match m.StoreUserErr with
  | some err => ⟨some err, user, [Call.StoreUser user]⟩
  | none =>
    if !user.Settings.GetConfirmation then
      ⟨m.UpdateMattermostUserStatusErr, user,
        [Call.StoreUser user, Call.UpdateMattermostUserStatus user.MattermostUserID toSet]⟩
    else
      let url := m.PluginURLPath ++ m.PathPostAction ++ m.PathConfirmStatusChange
      ⟨m.DMWithAttachmentsErr, user,
        [Call.StoreUser user, Call.DMWithAttachments user.MattermostUserID events toSet url]⟩

/-- The fingerprint of an event:
`fmt.Sprintf("%s %s", e.ICalUID, e.Start.Time().UTC().Format(time.RFC3339))`. -/
def fingerprint (e : Event) : String :=
  e.ICalUID ++ " " ++ e.Start.UTC.FormatRFC3339

/-- The loop of `setStatusFromCalendarView` that builds `remoteHashes`: the
fingerprints of the events that are not cancelled, in order. -/
def remoteHashes (events : List Event) : List String :=
  events.foldl
    (fun hashes e => if e.IsCancelled then hashes else hashes ++ [fingerprint e])
    []

/-- The nested loop of `setStatusFromCalendarView`: some remote hash is not among
the active events. -/
def newEventExists (hashes activeEvents : List String) : Bool :=
  hashes.any (fun r => !(activeEvents.any (fun loc => loc == r)))

/-- The busy status of a user: away for the away option, do-not-disturb
otherwise. -/
def busyStatusOf (user : User) : String :=
  if user.Settings.UpdateStatusFromOptions == AwayStatusOption then StatusAway else StatusDnd

/-- Function `setStatusFromCalendarView`: decide the status transition of one user from
the chat status and the merged busy events of the window. -/
def setStatusFromCalendarView (m : Env) (user : User) (status : Status)
    (events : List Event) : Outcome Result :=
  let currentStatus := status.Status
  if !user.IsConfiguredForStatusUpdates then
    ⟨⟨"상태 업데이트 옵션에서 설정된 값이 없습니다", false, none⟩, user, []⟩
  else if currentStatus == StatusOffline && !user.Settings.GetConfirmation then
    ⟨⟨"사용자가 오프라인이고 상태 변경 확인을 원하지 않습니다. 상태 변경 없음", false, none⟩, user, []⟩
  else
    let busyStatus := busyStatusOf user
    if user.ActiveEvents.length == 0 && events.length == 0 then
      ⟨⟨"로컬 또는 원격에 이벤트가 없습니다. 상태 변경 없음.", false, none⟩, user, []⟩
    else if decide (user.ActiveEvents.length > 0) && events.length == 0 then
      let message := "사용자가 더 이상 캘린더에서 바쁘지 않지만 바쁨(" ++ busyStatus ++
        ")으로 설정되지 않았습니다. 상태 변경 없음."
      let storeWrap := fun (err : String) =>
        wrapf err ("사용자 " ++ user.MattermostUserID ++ "의 활성 이벤트 저장 중 오류 발생")
      if currentStatus == busyStatus then
        let message :=
          if user.LastStatus != "" then
            "사용자가 더 이상 캘린더에서 바쁘지 않습니다. 상태를 이전 상태(" ++ user.LastStatus ++
              ")로 설정합니다"
          else "사용자가 더 이상 캘린더에서 바쁘지 않습니다. 상태를 온라인으로 설정합니다."
        let r := setStatusOrAskUser m user status events true
        match r.ret with
        | some err =>
          ⟨⟨"", false,
            some (wrapf err ("사용자 " ++ user.MattermostUserID ++ "의 사용자 상태 설정 중 오류 발생"))⟩,
            r.user, r.calls⟩
        | none =>
          let calls := r.calls ++ [Call.StoreUserActiveEvents user.MattermostUserID []]
          match m.StoreUserActiveEventsErr with
          | some err => ⟨⟨"", true, some (storeWrap err)⟩, r.user, calls⟩
          | none => ⟨⟨message, true, none⟩, r.user, calls⟩
      else
        let calls := [Call.StoreUserActiveEvents user.MattermostUserID []]
        match m.StoreUserActiveEventsErr with
        | some err => ⟨⟨"", false, some (storeWrap err)⟩, user, calls⟩
        | none => ⟨⟨message, false, none⟩, user, calls⟩
    else
      let hashes := remoteHashes events
      let storeWrap := fun (err : String) =>
        wrapf err ("사용자 " ++ user.MattermostUserID ++ "의 활성 이벤트 저장 중 오류 발생")
      let statusWrap := fun (err : String) =>
        wrapf err ("사용자 " ++ user.MattermostUserID ++ "의 사용자 상태 설정 중 오류 발생")
      if user.ActiveEvents.length == 0 then
        if currentStatus == busyStatus then
          let user := { user with LastStatus := if status.Manual then currentStatus else "" }
          let calls :=
            [Call.StoreUser user, Call.StoreUserActiveEvents user.MattermostUserID hashes]
          match m.StoreUserActiveEventsErr with
          | some err => ⟨⟨"", false, some (storeWrap err)⟩, user, calls⟩
          | none => ⟨⟨"사용자가 이미 바쁨으로 표시되었습니다. 상태 변경 없음.", false, none⟩, user, calls⟩
        else
          let r := setStatusOrAskUser m user status events false
          match r.ret with
          | some err => ⟨⟨"", false, some (statusWrap err)⟩, r.user, r.calls⟩
          | none =>
            let calls := r.calls ++ [Call.StoreUserActiveEvents user.MattermostUserID hashes]
            match m.StoreUserActiveEventsErr with
            | some err => ⟨⟨"", true, some (storeWrap err)⟩, r.user, calls⟩
            | none =>
              ⟨⟨"사용자가 한가했지만 지금은 바쁩니다(" ++ busyStatus ++ "). 상태를 바쁨으로 설정합니다.",
                true, none⟩, r.user, calls⟩
      else if !newEventExists hashes user.ActiveEvents then
        ⟨⟨"활성 이벤트에 변경 사항이 없습니다. 총 이벤트 수: " ++ toString events.length, false, none⟩,
          user, []⟩
      else if currentStatus != busyStatus then
        let r := setStatusOrAskUser m user status events false
        match r.ret with
        | some err => ⟨⟨"", false, some (statusWrap err)⟩, r.user, r.calls⟩
        | none =>
          let calls := r.calls ++ [Call.StoreUserActiveEvents user.MattermostUserID hashes]
          match m.StoreUserActiveEventsErr with
          | some err => ⟨⟨"", true, some (storeWrap err)⟩, r.user, calls⟩
          | none =>
            ⟨⟨"사용자가 한가했지만 지금은 바쁩니다. 상태를 바쁨(" ++ busyStatus ++ ")으로 설정합니다.",
              true, none⟩, r.user, calls⟩
      else
        let calls := [Call.StoreUserActiveEvents user.MattermostUserID hashes]
        match m.StoreUserActiveEventsErr with
        | some err => ⟨⟨"", false, some (storeWrap err)⟩, user, calls⟩
        | none => ⟨⟨"사용자가 이미 바쁩니다. 상태 변경 없음.", false, none⟩, user, calls⟩

/-! ## The persisted user record and the chat status after a pass -/

/-- The error the environment returns for a call (`none` when it succeeds). -/
def Call.err (m : Env) : Call → Option String
  | .StoreUser _ => m.StoreUserErr
  | .StoreUserActiveEvents _ _ => m.StoreUserActiveEventsErr
  | .UpdateMattermostUserStatus _ _ => m.UpdateMattermostUserStatusErr
  | .DMWithAttachments _ _ _ _ => m.DMWithAttachmentsErr

/-- A status action: a status update by the chat API or a confirmation DM. -/
def Call.isStatusAction : Call → Bool
  | .UpdateMattermostUserStatus _ _ => true
  | .DMWithAttachments _ _ _ _ => true
  | _ => false

/-- A write of the active events. -/
def Call.isStoreUserActiveEvents : Call → Bool
  | .StoreUserActiveEvents _ _ => true
  | _ => false

/-- Modelled from the spec: the persistent store of package `store`, not among
the sources, for the record of one user. `StoreUser` replaces the record;
`StoreUserActiveEvents` replaces the active events of the stored record; a call
that returns an error leaves the record as it is; the other calls do not touch
the store. -/
def applyCall (m : Env) (stored : User) : Call → User
  | .StoreUser u => if m.StoreUserErr.isNone then u else stored
  | .StoreUserActiveEvents _ events =>
    if m.StoreUserActiveEventsErr.isNone then { stored with ActiveEvents := events } else stored
  | _ => stored

/-- The stored record after the calls of a pass. -/
def persisted (m : Env) (stored : User) (calls : List Call) : User :=
  calls.foldl (applyCall m) stored

/-- Modelled from the spec: the presence status kept by the chat platform. A
status update that succeeds sets the status; `manual` is the manual flag the
platform gives to a status set through the API. -/
def statusAfter (m : Env) (manual : Bool) (status : Status) (calls : List Call) : Status :=
  calls.foldl
    (fun st c =>
      match c with
      | .UpdateMattermostUserStatus _ s =>
        if m.UpdateMattermostUserStatusErr.isNone then ⟨s, manual⟩ else st
      | _ => st)
    status

/-- The pass goes for a status change, that is, `setStatusFromCalendarView`
reaches a call of `setStatusOrAskUser`: the conditions of the branches that lead
to the two calls, put together (`setStatusFromCalendarView_attempt` and
`setStatusFromCalendarView_no_attempt` compare it with the function). -/
def attemptsStatusChange (user : User) (status : Status) (events : List Event) : Bool :=
  user.IsConfiguredForStatusUpdates &&
    !(status.Status == StatusOffline && !user.Settings.GetConfirmation) &&
    ((!user.ActiveEvents.isEmpty && events.isEmpty && status.Status == busyStatusOf user) ||
      (!events.isEmpty && status.Status != busyStatusOf user &&
        (user.ActiveEvents.isEmpty || newEventExists (remoteHashes events) user.ActiveEvents)))

/-- The pass that follows a pass with the same events: it runs on the record the
first pass left in the store and on the chat status the first pass left behind. -/
def secondPass (m : Env) (manual : Bool) (user : User) (status : Status)
    (events : List Event) : Outcome Result :=
  setStatusFromCalendarView m
    (persisted m user (setStatusFromCalendarView m user status events).calls)
    (statusAfter m manual status (setStatusFromCalendarView m user status events).calls)
    events

/-- The pass with no events that follows a pass, while the chat status is the
busy status: it runs on the record the first pass left in the store. -/
def freePassAfter (m : Env) (manual : Bool) (user : User) (status : Status)
    (events : List Event) : Outcome Result :=
  setStatusFromCalendarView m
    (persisted m user (setStatusFromCalendarView m user status events).calls)
    ⟨busyStatusOf user, manual⟩ []

/-! ## The custom-status decision engine -/

/-- Mattermost `model.CustomStatus`. -/
structure CustomStatus where
  Emoji : String
  Text : String
  ExpiresAt : Time
  Duration : String
  deriving DecidableEq, Repr

/-- Modelled from the spec: `User.IsConfiguredForCustomStatusUpdates` of package
`store`, not among the sources: the custom-status opt-in of the settings. -/
def User.IsConfiguredForCustomStatusUpdates (user : User) : Bool :=
  user.Settings.SetCustomStatus

/-- One call of `setCustomStatusFromCalendarView` on a collaborator, with its
arguments: the chat API (`RemoveMattermostUserCustomStatus`, `GetMattermostUser`,
`UpdateMattermostUserCustomStatus`) and the store
(`StoreUserCustomStatusUpdates`). -/
inductive CustomStatusCall where
  | RemoveMattermostUserCustomStatus (mattermostUserID : String)
  | StoreUserCustomStatusUpdates (mattermostUserID : String) (isCustomStatusSet : Bool)
  | GetMattermostUser (mattermostUserID : String)
  | UpdateMattermostUserCustomStatus (mattermostUserID : String) (customStatus : CustomStatus)
  deriving DecidableEq, Repr

/-- The environment of one custom-status pass: the custom status that
`GetMattermostUser(...).GetCustomStatus()` finds (`none` for nil), and for each
collaborator call the error it returns (`none` when the call succeeds). -/
structure CustomStatusEnv where
  currentCustomStatus : Option CustomStatus
  GetMattermostUserErr : Option String
  RemoveMattermostUserCustomStatusErr : Option String
  StoreUserCustomStatusUpdatesErr : Option String
  UpdateMattermostUserCustomStatusErr : Option String
  deriving DecidableEq, Repr

/-- What a custom-status pass leaves behind: the returned values and the calls
made, in order. The user object is not assigned to. -/
structure CustomStatusOutcome where
  ret : Result
  calls : List CustomStatusCall
  deriving DecidableEq, Repr

/-- Function `setCustomStatusFromCalendarView`: clear the custom status set by
the plugin when there is no event, set the calendar custom status until the end
of the first event otherwise, unless the user has a custom status that the
plugin did not set. A failure to remove the custom status is only logged. -/
def setCustomStatusFromCalendarView (m : CustomStatusEnv) (user : User)
    (events : List Event) : CustomStatusOutcome :=
  if !user.IsConfiguredForCustomStatusUpdates then
    ⟨⟨"사용자가 커스텀 상태 설정을 원하지 않습니다", false, none⟩, []⟩
  else
    match events with
    | [] =>
      if user.IsCustomStatusSet then
        let calls :=
          [CustomStatusCall.RemoveMattermostUserCustomStatus user.MattermostUserID,
            CustomStatusCall.StoreUserCustomStatusUpdates user.MattermostUserID false]
        match m.StoreUserCustomStatusUpdatesErr with
        | some err => ⟨⟨"", false, some err⟩, calls⟩
        | none => ⟨⟨"커스텀 상태를 설정할 이벤트가 없습니다", false, none⟩, calls⟩
      else ⟨⟨"커스텀 상태를 설정할 이벤트가 없습니다", false, none⟩, []⟩
    | first :: _ =>
      let get := CustomStatusCall.GetMattermostUser user.MattermostUserID
      match m.GetMattermostUserErr with
      | some err => ⟨⟨"", false, some err⟩, [get]⟩
      | none =>
        if m.currentCustomStatus.isSome && !user.IsCustomStatusSet then
          ⟨⟨"사용자가 이미 커스텀 상태를 설정했습니다. 커스텀 상태 변경을 무시합니다", false, none⟩, [get]⟩
        else
          let update := CustomStatusCall.UpdateMattermostUserCustomStatus user.MattermostUserID
            { Emoji := "calendar", Text := "회의 중", ExpiresAt := first.End,
              Duration := "date_and_time" }
          match m.UpdateMattermostUserCustomStatusErr with
          | some appErr => ⟨⟨"", false, some appErr⟩, [get, update]⟩
          | none =>
            let store := CustomStatusCall.StoreUserCustomStatusUpdates user.MattermostUserID true
            match m.StoreUserCustomStatusUpdatesErr with
            | some err => ⟨⟨"", true, some err⟩, [get, update, store]⟩
            | none => ⟨⟨"", true, none⟩, [get, update, store]⟩

/-! ## The batch sync orchestrator -/

/-- Modelled from the spec: `store.UserShort`, an entry of the user index;
package `store` is not among the sources. -/
structure UserShort where
  MattermostUserID : String
  RemoteID : String
  Email : String
  deriving DecidableEq, Repr

/-- Modelled from the spec: `remote.APIError`, the error of one calendar view;
package `remote` is not among the sources. -/
structure APIError where
  Code : String
  Message : String
  deriving DecidableEq, Repr

/-- Modelled from the spec: `remote.ViewCalendarResponse`, the events of one
user for the window, or the error of the fetch for that user; package `remote`
is not among the sources. -/
structure ViewCalendarResponse where
  RemoteUserID : String
  Events : List Event
  Error : Option APIError
  deriving DecidableEq, Repr

/-- The counters `StatusSyncJobSummary` of one batch pass. -/
structure StatusSyncJobSummary where
  NumberOfUsersFailedStatusChanged : Nat
  NumberOfUsersStatusChanged : Nat
  NumberOfUsersProcessed : Nat
  deriving DecidableEq, Repr

/-- The collaborators of one batch pass, as functions of their arguments:
`Store.LoadUser`, the error of `FilterCopy(withActingUser(id))`, the individual
fetch `GetCalendarEvents` of a user (declined events excluded), the batched
fetch `GetCalendarViews`, `PluginAPI.GetMattermostUserStatusesByIds` (each
status with its `UserId`), the environments of the status pass and of the
custom-status pass of a user, and `utils.JSONBlock`. -/
structure BatchEnv where
  LoadUser : String → Except String User
  FilterCopyErr : String → Option String
  GetCalendarEvents : User → Except String ViewCalendarResponse
  GetCalendarViews : List User → Except String (List ViewCalendarResponse)
  GetMattermostUserStatusesByIds : List String → Except String (List (String × Status))
  statusEnv : User → Env
  customStatusEnv : User → CustomStatusEnv
  JSONBlock : List ViewCalendarResponse → String

/-- The value `errNoUsersNeedToBeSynced`. -/
def errNoUsersNeedToBeSynced : String := "동기화가 필요한 사용자가 없습니다"

/-- The state of the loop of `retrieveUsersToSync`: the failure counter of the
job summary, the users to sync and the calendar views fetched one by one. -/
structure Retrieved where
  failed : Nat
  users : List User
  calendarViews : List ViewCalendarResponse
  deriving DecidableEq, Repr

/-- A user has one of the features that need a sync. -/
def needsSync (user : User) : Bool :=
  user.IsConfiguredForStatusUpdates || user.IsConfiguredForCustomStatusUpdates ||
    user.Settings.ReceiveReminders

/-- One round of the loop of `retrieveUsersToSync`. A user that cannot be loaded
is counted as failed and skipped; a user without a feature is skipped; with
`fetchIndividually` a user whose engine cannot be made is skipped, a user whose
events cannot be fetched is counted as failed and skipped. -/
def retrieveStep (b : BatchEnv) (fetchIndividually : Bool) (acc : Retrieved)
    (u : UserShort) : Retrieved :=
  match b.LoadUser u.MattermostUserID with
  | .error _ => { acc with failed := acc.failed + 1 }
  | .ok user =>
    if !needsSync user then acc
    else if fetchIndividually then
      match b.FilterCopyErr user.MattermostUserID with
      | some _ => acc
      | none =>
        match b.GetCalendarEvents user with
        | .error _ => { acc with failed := acc.failed + 1 }
        | .ok view =>
          { acc with users := acc.users ++ [user], calendarViews := acc.calendarViews ++ [view] }
    else { acc with users := acc.users ++ [user] }

/-- The events of a view sorted by start time in microseconds. `sort.Slice` is
not stable: it leaves the order of events with equal keys open, and the order
it gives can differ from the one here. The stable order is taken; no property
below depends on the order of events with equal keys. -/
def sortEvents (events : List Event) : List Event :=
  events.insertionSort (fun a b => a.Start.UnixMicro ≤ b.Start.UnixMicro)

/-- What `retrieveUsersToSync` returns, with the job summary it counts in. -/
structure RetrieveResult where
  users : List User
  calendarViews : List ViewCalendarResponse
  err : Option String
  summary : StatusSyncJobSummary

/-- Function `retrieveUsersToSync`: load the users of the index, fetch their
calendar views one by one or in one batch, and sort the events of each view. -/
def retrieveUsersToSync (b : BatchEnv) (userIndex : List UserShort)
    (syncJobSummary : StatusSyncJobSummary) (fetchIndividually : Bool) : RetrieveResult :=
  let r := userIndex.foldl (retrieveStep b fetchIndividually)
    ⟨syncJobSummary.NumberOfUsersFailedStatusChanged, [], []⟩
  let summary := { syncJobSummary with NumberOfUsersFailedStatusChanged := r.failed }
  if r.users.length == 0 then
    ⟨r.users, r.calendarViews, some errNoUsersNeedToBeSynced, summary⟩
  else
    match (if fetchIndividually then Except.ok r.calendarViews
      else b.GetCalendarViews r.users) with
    | .error err =>
      ⟨r.users, [], some (wrapf err "연결된 사용자의 캘린더 뷰를 가져올 수 없습니다"), summary⟩
    | .ok calendarViews =>
      if calendarViews.length == 0 then
        ⟨r.users, calendarViews, some "캘린더 뷰를 찾을 수 없습니다", summary⟩
      else
        ⟨r.users, calendarViews.map (fun view => { view with Events := sortEvents view.Events }),
          none, summary⟩

/-- A Go map as a list of keys and values: assignment to a key. -/
def mapInsert {α : Type} (map : List (String × α)) (key : String) (value : α) :
    List (String × α) :=
  if map.any (fun kv => kv.1 == key) then
    map.map (fun kv => if kv.1 == key then (key, value) else kv)
  else map ++ [(key, value)]

/-- A Go map as a list of keys and values: lookup of a key. -/
def mapLookup {α : Type} (map : List (String × α)) (key : String) : Option α :=
  (map.find? (fun kv => kv.1 == key)).map (fun kv => kv.2)

/-- The state of the loop of `setUserStatuses`: the last message, the two
counters, and the users by remote id (the status pass assigns to the user
object). -/
structure StatusLoop where
  res : String
  numberOfUserStatusChange : Nat
  numberOfUserErrorInStatusChange : Nat
  usersByRemoteID : List (String × User)

/-- One round of the loop of `setUserStatuses` for one calendar view. -/
def setUserStatusesStep (b : BatchEnv) (statusMap : List (String × Status))
    (acc : StatusLoop) (view : ViewCalendarResponse) : StatusLoop :=
  match mapLookup acc.usersByRemoteID view.RemoteUserID with
  | none => acc
  | some user =>
    if view.Error.isSome then
      { acc with numberOfUserErrorInStatusChange := acc.numberOfUserErrorInStatusChange + 1 }
    else
      match mapLookup statusMap user.MattermostUserID with
      | none => acc
      | some status =>
        let events := getMergedEvents (filterBusyAndAttendeeEvents view.Events)
        let afterStatus : StatusLoop × User :=
          if user.IsConfiguredForStatusUpdates then
            let out := setStatusFromCalendarView (b.statusEnv user) user status events
            (⟨out.ret.message,
              acc.numberOfUserStatusChange + (if out.ret.isStatusChanged then 1 else 0),
              acc.numberOfUserErrorInStatusChange + (if out.ret.err.isSome then 1 else 0),
              mapInsert acc.usersByRemoteID view.RemoteUserID out.user⟩, out.user)
          else (acc, user)
        let acc := afterStatus.1
        let user := afterStatus.2
        if user.IsConfiguredForCustomStatusUpdates then
          let out := setCustomStatusFromCalendarView (b.customStatusEnv user) user events
          ⟨out.ret.message,
            acc.numberOfUserStatusChange +
              (if out.ret.isStatusChanged &&
                  user.Settings.UpdateStatusFromOptions == NotSetStatusOption then 1 else 0),
            acc.numberOfUserErrorInStatusChange + (if out.ret.err.isSome then 1 else 0),
            acc.usersByRemoteID⟩
        else acc

/-- What `setUserStatuses` returns. -/
structure SetUserStatusesResult where
  res : String
  numberOfUserStatusChange : Nat
  numberOfUserErrorInStatusChange : Nat
  err : Option String
  deriving DecidableEq, Repr

/-- The users that `setUserStatuses` updates: configured for status updates or
for custom-status updates. -/
def toUpdate (users : List User) : List User :=
  users.filter (fun u => u.IsConfiguredForStatusUpdates || u.IsConfiguredForCustomStatusUpdates)

/-- Function `setUserStatuses`: fetch the chat statuses of the users to update
and run the status pass and the custom-status pass for each calendar view. -/
def setUserStatuses (b : BatchEnv) (users : List User)
    (calendarViews : List ViewCalendarResponse) : SetUserStatusesResult :=
  if (toUpdate users).length == 0 then
    ⟨"상태 업데이트를 원하는 사용자가 없습니다", 0, 0, none⟩
  else
    let mattermostUserIDs := (toUpdate users).map (fun u => u.MattermostUserID)
    let usersByRemoteID := (toUpdate users).foldl (fun map u => mapInsert map u.RemoteID u) []
    match b.GetMattermostUserStatusesByIds mattermostUserIDs with
    | .error appErr =>
      ⟨"", 0, 0, some (wrapf appErr "연결된 사용자의 Mattermost 사용자 상태를 가져오는 중 오류 발생")⟩
    | .ok statuses =>
      let statusMap := statuses.foldl (fun map s => mapInsert map s.1 s.2) []
      let final := calendarViews.foldl (setUserStatusesStep b statusMap)
        ⟨"", 0, 0, usersByRemoteID⟩
      if final.res != "" then
        ⟨final.res, final.numberOfUserStatusChange, final.numberOfUserErrorInStatusChange, none⟩
      else
        ⟨b.JSONBlock calendarViews, final.numberOfUserStatusChange,
          final.numberOfUserErrorInStatusChange, none⟩

/-- What `syncUsers` returns: `(string, *StatusSyncJobSummary, error)`. -/
structure SyncResult where
  result : String
  summary : StatusSyncJobSummary
  err : Option String
  deriving DecidableEq, Repr

/-- Function `syncUsers`: retrieve the users and their calendar views, deliver the
reminders, set the statuses, and add up the job summary. `deliverReminders`
returns nothing and does not touch the summary; its calls are left out here. -/
def syncUsers (b : BatchEnv) (userIndex : List UserShort) (fetchIndividually : Bool) :
    SyncResult :=
  let syncJobSummary : StatusSyncJobSummary := ⟨0, 0, 0⟩
  if userIndex.length == 0 then ⟨"연결된 사용자를 찾을 수 없습니다", syncJobSummary, none⟩
  else
    let syncJobSummary := { syncJobSummary with NumberOfUsersProcessed := userIndex.length }
    let r := retrieveUsersToSync b userIndex syncJobSummary fetchIndividually
    match r.err with
    | some err =>
      ⟨err, r.summary,
        some (wrapf err ("동기화할 사용자를 검색하는 중 오류 발생 (individually=" ++
          toString fetchIndividually ++ ")"))⟩
    | none =>
      let s := setUserStatuses b r.users r.calendarViews
      match s.err with
      | some err => ⟨"", r.summary, some (wrapf err "사용자 상태를 설정하는 중 오류 발생")⟩
      | none =>
        ⟨s.res,
          { r.summary with
            NumberOfUsersFailedStatusChanged :=
              r.summary.NumberOfUsersFailedStatusChanged + s.numberOfUserErrorInStatusChange,
            NumberOfUsersStatusChanged := s.numberOfUserStatusChange },
          none⟩

/-! ### A declarative reading of the loop of `retrieveUsersToSync`

The three definitions below say, entry by entry, what the loop of
`retrieveUsersToSync` does with an index entry; `retrieve_foldl` compares them
with the loop itself. -/

/-- The load of the user of an index entry fails. -/
def loadFails (b : BatchEnv) (u : UserShort) : Bool :=
  match b.LoadUser u.MattermostUserID with
  | .error _ => true
  | .ok _ => false

/-- With `fetchIndividually`: the user of an index entry is loaded, has a
feature that needs a sync and an engine, and the fetch of the events fails. -/
def fetchFails (b : BatchEnv) (fetchIndividually : Bool) (u : UserShort) : Bool :=
  match b.LoadUser u.MattermostUserID with
  | .error _ => false
  | .ok user =>
    fetchIndividually && needsSync user && (b.FilterCopyErr user.MattermostUserID).isNone &&
      (match b.GetCalendarEvents user with
        | .error _ => true
        | .ok _ => false)

/-- The user of an index entry when it is eligible for the sync: loaded, with a
feature that needs a sync and, with `fetchIndividually`, with an engine and
fetched events. -/
def eligibleUser (b : BatchEnv) (fetchIndividually : Bool) (u : UserShort) : Option User :=
  match b.LoadUser u.MattermostUserID with
  | .error _ => none
  | .ok user =>
    if needsSync user &&
        (!fetchIndividually ||
          ((b.FilterCopyErr user.MattermostUserID).isNone &&
            (match b.GetCalendarEvents user with
              | .error _ => false
              | .ok _ => true))) then
      some user
    else none

/-! ## The reminder window and the calendar window -/

/-- Go `Time.Add`: the instant `d` nanoseconds later, in the same location. The
instants met here have a four-digit year, so the sum fits. -/
def Time.Add (t : Time) (d : Int) : Time := { t with unixNano := t.unixNano + d }

/-- Go `Time.After`: `t` is a later instant than `u`. -/
def Time.After (t u : Time) : Bool := decide (u.unixNano < t.unixNano)

/-- Go `Time.Before`: `t` is an earlier instant than `u`. -/
def Time.Before (t u : Time) : Bool := decide (t.unixNano < u.unixNano)

/-- Constant `calendarViewTimeWindowSize = 10 * time.Minute`. -/
def calendarViewTimeWindowSize : Int := 10 * Minute

/-- Constant `upcomingEventNotificationTime = 10 * time.Minute`. -/
def upcomingEventNotificationTime : Int := 10 * Minute

/-- Constant `upcomingEventNotificationWindow = (StatusSyncJobInterval * 11) / 10`,
110% of the interval. -/
def upcomingEventNotificationWindow : Int := (StatusSyncJobInterval * 11) / 10

/-- The window of a calendar fetch made at `now`, as `retrieveUsersToSync` and
`GetCalendarViews` compute it: `start := time.Now().UTC()` and
`end := time.Now().UTC().Add(calendarViewTimeWindowSize)`. -/
def calendarViewWindow (now : Time) : Time × Time :=
  (now.UTC, now.UTC.Add calendarViewTimeWindowSize)

/-- The test of `notifyUpcomingEvents` on the start of an event, with
`time.Now()` reading `now`: the distance of the start from
`now + upcomingEventNotificationTime` is inside the notification window. -/
def isUpcoming (now : Time) (event : Event) : Bool :=
  let upcomingTime := now.Add upcomingEventNotificationTime
  let start := event.Start
  let diff := start.Sub upcomingTime
  decide (diff < upcomingEventNotificationWindow) &&
    decide (diff > -upcomingEventNotificationWindow)

/-! ## The notification queue -/

/-- Constant `maxQueueSize`. -/
def maxQueueSize : Nat := 1024

/-- Modelled from the spec: `remote.Subscription`, the subscription as the
calendar provider knows it; package `remote` is not among the sources. -/
structure RemoteSubscription where
  ID : String
  ClientState : String
  CreatorID : String
  deriving DecidableEq, Repr

/-- Modelled from the spec: `store.Subscription`, the stored subscription;
package `store` is not among the sources. -/
structure Subscription where
  Remote : RemoteSubscription
  MattermostCreatorID : String
  PluginVersion : String
  deriving DecidableEq, Repr

/-- Modelled from the spec: `remote.Notification`, a change notification of the
calendar provider; package `remote` is not among the sources. The fields are
the ones `notification.go` and `notification_format.go` read or assign;
`SubscriptionCreator`, which is only assigned, is left out. `Event` is the
event the notification carries once its data is complete. -/
structure Notification where
  SubscriptionID : String
  ClientState : String
  ChangeType : String
  RecommendRenew : Bool
  IsBare : Bool
  Event : Event
  Subscription : Option RemoteSubscription
  deriving DecidableEq, Repr

/-- The error of `Enqueue` on a full queue. -/
def errQueueFull : String := "웹훅 알림: 큐가 가득 참, 알림이 삭제됨"

/-- Method `Enqueue`, with no receiver taking from the channel in between. The
first argument is the content of the buffered channel `processor.queue`, the
oldest notification first; its capacity is `maxQueueSize`. The `select` with a
`default` case sends a notification when the buffer has room and returns the
error otherwise. The result is the content of the channel afterwards and the
returned error. -/
def Enqueue (queue : List Notification) : List Notification → List Notification × Option String
  | [] => (queue, none)
  | n :: notifications =>
    if queue.length < maxQueueSize then Enqueue (queue ++ [n]) notifications
    else (queue, some errQueueFull)

/-! ## Attachments and the status-change confirmation view -/

/-- A value of an integration context (`map[string]interface{}`): the values
stored here are booleans and strings. -/
inductive ContextValue where
  | bool (b : Bool)
  | str (s : String)
  deriving DecidableEq, Repr

/-- Mattermost `model.PostAction` with its integration: the fields set here.
`ActionType` is the field `Type`, `URL` and `Context` are `Integration.URL` and
`Integration.Context`; an option is its text and its value. -/
structure PostAction where
  Name : String
  ActionType : String
  URL : String
  Context : List (String × ContextValue)
  Options : List (String × String)
  DefaultOption : String
  deriving DecidableEq, Repr

/-- Mattermost `model.SlackAttachmentField`. -/
structure SlackAttachmentField where
  Title : String
  Value : String
  Short : Bool
  deriving DecidableEq, Repr

/-- Mattermost `model.SlackAttachment`: the fields set here. -/
structure SlackAttachment where
  AuthorName : String
  AuthorLink : String
  Title : String
  TitleLink : String
  Text : String
  Fallback : String
  Fields : List SlackAttachmentField
  Actions : List PostAction
  deriving DecidableEq, Repr

/-- What the views read from outside: the clock (`time.Now()`),
`url.QueryUnescape` (its string result; the error is dropped by the caller) and
the JSON form of a time (`json.Marshal` of a `time.Time`, as a string). -/
structure ViewEnv where
  now : Time
  QueryUnescape : String → String
  MarshalTime : Time → String

/-- The table `prettyStatuses`; a status that is not a key gives the empty
string. -/
def prettyStatuses (status : String) : String :=
  if status == StatusOnline then "온라인"
  else if status == StatusAway then "자리 비움"
  else if status == StatusDnd then "방해 금지"
  else if status == StatusOffline then "오프라인"
  else ""

/-- Function `RenderEventWillStartLine`. -/
def RenderEventWillStartLine (v : ViewEnv) (subject weblink : String) (startTime : Time) :
    String :=
  let link := v.QueryUnescape weblink
  let eventString := "이벤트 [" ++ subject ++ "](" ++ link ++ ")가 곧 시작됩니다."
  let eventString :=
    if subject == "" then "[제목 없는 이벤트](" ++ link ++ ")가 곧 시작됩니다." else eventString
  if startTime.Before v.now then
    let eventString := "이벤트 [" ++ subject ++ "](" ++ link ++ ")가 진행 중입니다."
    if subject == "" then "[제목 없는 이벤트](" ++ link ++ ")가 진행 중입니다." else eventString
  else eventString

/-- Function `renderScheduleItem`; `none` is the nil event. -/
def renderScheduleItem (v : ViewEnv) (event : Option Event) (status : String) : String :=
  match event with
  | none => "예정된 이벤트가 없습니다.\n상태를 " ++ prettyStatuses status ++ "로 다시 변경할까요?"
  | some event =>
    let resp := RenderEventWillStartLine v event.Subject event.Weblink event.Start
    resp ++ "\n상태를 " ++ prettyStatuses status ++ "로 변경할까요?"

/-- The assignments `statusChangeAttachments` makes to the context of an action
when there is an event. -/
def withEventContext (v : ViewEnv) (event : Option Event)
    (context : List (String × ContextValue)) : List (String × ContextValue) :=
  match event with
  | none => context
  | some event =>
    let context := mapInsert context "hasEvent" (.bool true)
    let context := mapInsert context "subject" (.str event.Subject)
    let context := mapInsert context "weblink" (.str event.Weblink)
    mapInsert context "startTime" (.str (v.MarshalTime event.Start))

/-- Function `statusChangeAttachments`; `none` is the nil event. -/
def statusChangeAttachments (v : ViewEnv) (event : Option Event) (status url : String) :
    SlackAttachment :=
  let actionYes : PostAction :=
    { Name := "예", ActionType := "", URL := url,
      Context := withEventContext v event
        [("value", .bool true), ("change_to", .str status),
          ("pretty_change_to", .str (prettyStatuses status)), ("hasEvent", .bool false)],
      Options := [], DefaultOption := "" }
  let actionNo : PostAction :=
    { Name := "아니오", ActionType := "", URL := url,
      Context := withEventContext v event [("value", .bool false), ("hasEvent", .bool false)],
      Options := [], DefaultOption := "" }
  let title := "상태 변경"
  let text := renderScheduleItem v event status
  { AuthorName := "", AuthorLink := "", Title := title, TitleLink := "", Text := text,
    Fallback := title ++ ": " ++ text, Fields := [], Actions := [actionYes, actionNo] }

/-- Function `RenderStatusChangeNotificationView`: the attachment for the first
event that starts after now; when there is none, for the last event if the
status is do-not-disturb, and for no event otherwise. -/
def RenderStatusChangeNotificationView (v : ViewEnv) (events : List Event)
    (status url : String) : SlackAttachment :=
  match events.find? (fun e => e.Start.After v.now) with
  | some e => statusChangeAttachments v (some e) status url
  | none =>
    if decide (events.length > 0) && status == StatusDnd then
      statusChangeAttachments v events.getLast? status url
    else statusChangeAttachments v none status url

/-! ## The upcoming-event notifier -/

/-- Modelled from the spec: `store.EventMetadata`, the chat channels linked to an
event; package `store` is not among the sources. `LinkedChannelIDs` is a Go map
used as a set: the list holds its keys in the order the `range` loop visits
them. -/
structure EventMetadata where
  LinkedChannelIDs : List String
  deriving DecidableEq, Repr

/-- What a load from the store returns: the value, the distinguished error
`store.ErrNotFound` (with a nil value), or another error. -/
inductive LoadResult (α : Type) where
  | found (value : α)
  | notFound
  | failed (err : String)
  deriving DecidableEq, Repr

/-- Mattermost `model.Post` after `model.ParseSlackAttachment`: the fields set
here. -/
structure Post where
  ChannelId : String
  Message : String
  Attachments : List SlackAttachment
  deriving DecidableEq, Repr

/-- One call of `notifyUpcomingEvents` on a collaborator, with its arguments.
The log lines are left out. -/
inductive NotifyCall where
  | GetTimezoneByID (mattermostUserID : String)
  | DMWithAttachments (mattermostUserID : String) (attachment : SlackAttachment)
  | LoadEventMetadata (iCalUID : String)
  | CreatePost (post : Post)
  deriving DecidableEq, Repr

/-- The environment of one call of `notifyUpcomingEvents`: the clock
(`time.Now()`, taken to read the same instant for every event of the call),
the result of `GetTimezoneByID`, the two renderers of package `views`
(`RenderUpcomingEventAsAttachment(event, timezone)` and
`RenderEventAsAttachment(event, timezone, ShowTimezoneOption(timezone))`, not
among the sources), the result of `Store.LoadEventMetadata`, and the errors of
`Poster.DMWithAttachments` and `Poster.CreatePost` (`none` when the call
succeeds). -/
structure NotifyEnv where
  now : Time
  GetTimezoneByID : String → Except String String
  RenderUpcomingEventAsAttachment : Event → String → Except String SlackAttachment
  DMWithAttachmentsErr : String → SlackAttachment → Option String
  LoadEventMetadata : String → LoadResult EventMetadata
  RenderEventAsAttachment : Event → String → Except String SlackAttachment
  CreatePostErr : Post → Option String

/-- The inner loop of `notifyUpcomingEvents` over the linked channels of an
event: a post is created in each channel for which the rendering succeeds; a
failed rendering or a failed post goes on with the next channel. -/
def channelPosts (m : NotifyEnv) (event : Event) (timezone : String) :
    List String → List NotifyCall
  | [] => []
  | channelID :: rest =>
    match m.RenderEventAsAttachment event timezone with
    | .error _ => channelPosts m event timezone rest
    | .ok attachment =>
      NotifyCall.CreatePost ⟨channelID, "예정된 이벤트", [attachment]⟩ ::
        channelPosts m event timezone rest

/-- The body of the loop of `notifyUpcomingEvents` for an event that passed the
test of the window, once the timezone is known: render, send the DM, load the
metadata of the event and post to the linked channels. A failed rendering, a
failed DM or a failed load ends the round for this event. -/
def notifyEvent (m : NotifyEnv) (mattermostUserID : String) (timezone : String)
    (event : Event) : List NotifyCall :=
  match m.RenderUpcomingEventAsAttachment event timezone with
  | .error _ => []
  | .ok attachment =>
    let dm := NotifyCall.DMWithAttachments mattermostUserID attachment
    match m.DMWithAttachmentsErr mattermostUserID attachment with
    | some _ => [dm]
    | none =>
      let load := NotifyCall.LoadEventMetadata event.ICalUID
      match m.LoadEventMetadata event.ICalUID with
      | .failed _ => [dm, load]
      | .notFound => [dm, load]
      | .found eventMetadata =>
        [dm, load] ++ channelPosts m event timezone eventMetadata.LinkedChannelIDs

/-- The loop of `notifyUpcomingEvents`, with the value of the variable
`timezone` so far. A cancelled event and an event outside the window are
skipped; the timezone is looked up when it is still empty, and a failed lookup
ends the call. -/
def notifyLoop (m : NotifyEnv) (mattermostUserID : String) (timezone : String) :
    List Event → List NotifyCall
  | [] => []
  | event :: rest =>
    if event.IsCancelled then notifyLoop m mattermostUserID timezone rest
    else if isUpcoming m.now event then
      if timezone == "" then
        match m.GetTimezoneByID mattermostUserID with
        | .error _ => [NotifyCall.GetTimezoneByID mattermostUserID]
        | .ok timezone =>
          NotifyCall.GetTimezoneByID mattermostUserID ::
            (notifyEvent m mattermostUserID timezone event ++
              notifyLoop m mattermostUserID timezone rest)
      else
        notifyEvent m mattermostUserID timezone event ++
          notifyLoop m mattermostUserID timezone rest
    else notifyLoop m mattermostUserID timezone rest

/-- Function `notifyUpcomingEvents`: the calls it makes, in order. -/
def notifyUpcomingEvents (m : NotifyEnv) (mattermostUserID : String) (events : List Event) :
    List NotifyCall :=
  notifyLoop m mattermostUserID "" events

/-- The attachments of the DMs in a list of calls, in order. -/
def sentDMs (calls : List NotifyCall) : List SlackAttachment :=
  calls.filterMap (fun c =>
    match c with
    | NotifyCall.DMWithAttachments _ attachment => some attachment
    | _ => none)

/-- The posts created in a list of calls, in order. -/
def createdPosts (calls : List NotifyCall) : List Post :=
  calls.filterMap (fun c =>
    match c with
    | NotifyCall.CreatePost post => some post
    | _ => none)

/-- An event gets a reminder: it is not cancelled and its start is inside the
notification window. -/
def qualifies (now : Time) (event : Event) : Bool :=
  !event.IsCancelled && isUpcoming now event

/-! ## The log of a batch pass -/

/-- Constant `logTruncateLimit`. -/
def logTruncateLimit : Nat := 5

/-- Constant `logTruncateMsg`. -/
def logTruncateMsg : String := "메시지가 너무 많아 로그를 잘랐습니다"

/-- The log of one call: the local counter `numberOfLogs` and the messages of
the warnings logged so far, in order. -/
structure LogState where
  numberOfLogs : Nat
  lines : List String
  deriving DecidableEq, Repr

/-- The truncating pattern of the batch functions: the warning is logged while
`numberOfLogs < logTruncateLimit`, the truncation marker is logged when
`numberOfLogs == logTruncateLimit`, and the counter is incremented. -/
def logFailure (st : LogState) (message : String) : LogState :=
  { numberOfLogs := st.numberOfLogs + 1,
    lines :=
      if st.numberOfLogs < logTruncateLimit then st.lines ++ [message]
      else if st.numberOfLogs == logTruncateLimit then st.lines ++ [logTruncateMsg]
      else st.lines }

/-- A warning logged without the pattern: the counter is not read and not
incremented. -/
def logDirect (st : LogState) (message : String) : LogState :=
  { st with lines := st.lines ++ [message] }

/-- The warnings of one round of the loop of `retrieveUsersToSync` (see
`retrieveStep` for what the round does with the user). A failed load is logged
with the truncating pattern; a failed `FilterCopy` and a failed fetch of the
events are logged directly. The fields of the log context are left out of the
message. -/
def retrieveLogStep (b : BatchEnv) (fetchIndividually : Bool) (st : LogState)
    (u : UserShort) : LogState :=
  match b.LoadUser u.MattermostUserID with
  | .error err =>
    logFailure st
      ("사용자 인덱스에서 사용자 " ++ u.MattermostUserID ++ "를 로드할 수 없습니다. err=" ++ err)
  | .ok user =>
    if !needsSync user then st
    else if fetchIndividually then
      match b.FilterCopyErr user.MattermostUserID with
      | some err =>
        logDirect st
          ("사용자 인덱스에서 활성 사용자 " ++ user.MattermostUserID ++
            "를 활성화할 수 없습니다. err=" ++ err)
      | none =>
        match b.GetCalendarEvents user with
        | .error _ => logDirect st "캘린더 이벤트를 가져올 수 없습니다"
        | .ok _ => st
    else st

/-- The warnings that one call of `retrieveUsersToSync` logs in its loop, in
order; `numberOfLogs` starts at zero. -/
def retrieveLog (b : BatchEnv) (userIndex : List UserShort) (fetchIndividually : Bool) :
    List String :=
  (userIndex.foldl (retrieveLogStep b fetchIndividually) ⟨0, []⟩).lines

/-! ## The webhook change detector -/

/-- Constant `FieldSubject`. -/
def FieldSubject : String := "Subject"

/-- Constant `FieldBodyPreview`. -/
def FieldBodyPreview : String := "BodyPreview"

/-- Constant `FieldImportance`. -/
def FieldImportance : String := "Importance"

/-- Constant `FieldDuration`. -/
def FieldDuration : String := "Duration"

/-- Constant `FieldWhen`. -/
def FieldWhen : String := "When"

/-- Constant `FieldLocation`. -/
def FieldLocation : String := "Location"

/-- Constant `FieldAttendees`. -/
def FieldAttendees : String := "Attendees"

/-- Constant `FieldOrganizer`. -/
def FieldOrganizer : String := "Organizer"

/-- Constant `FieldResponseStatus`. -/
def FieldResponseStatus : String := "ResponseStatus"

/-- Constant `OptionYes`. -/
def OptionYes : String := "예"

/-- Constant `OptionNotResponded`. -/
def OptionNotResponded : String := "응답 안함"

/-- Constant `OptionNo`. -/
def OptionNo : String := "아니오"

/-- Constant `OptionMaybe`. -/
def OptionMaybe : String := "미정"

/-- Constant `ResponseYes`. -/
def ResponseYes : String := "accepted"

/-- Constant `ResponseMaybe`. -/
def ResponseMaybe : String := "tentativelyAccepted"

/-- Constant `ResponseNo`. -/
def ResponseNo : String := "declined"

/-- Constant `ResponseNone`. -/
def ResponseNone : String := "notResponded"

/-- The variable `importantNotificationChanges`. -/
def importantNotificationChanges : List String := [FieldSubject, FieldWhen]

/-- The variable `notificationFieldOrder`. -/
def notificationFieldOrder : List String :=
  [FieldWhen, FieldLocation, FieldAttendees, FieldImportance]

/-- Modelled from the spec: `fields.Value` of package `utils/fields`, not among
the sources: a value is read through its strings (`Strings()`). -/
structure Value where
  Strings : List String
  deriving DecidableEq, Repr

/-- Modelled from the spec: `fields.NewStringValue`, the value with one string. -/
def NewStringValue (s : String) : Value := ⟨[s]⟩

/-- Modelled from the spec: `fields.NewMultiValue`, the value with the strings
of the given values. -/
def NewMultiValue (values : List Value) : Value :=
  ⟨(values.map (fun v => v.Strings)).flatten⟩

/-- Modelled from the spec: `fields.Fields`, a Go map from the name of a field
to its value, as a list of keys and values. -/
abbrev Fields := List (String × Value)

/-- The strings of `fields[k]`; a key that is absent gives no string. -/
def Fields.strings (fields : Fields) (k : String) : List String :=
  match mapLookup fields k with
  | some v => v.Strings
  | none => []

/-- What `fields.Diff` returns: `(changed, added, updated, deleted)`. -/
structure DiffResult where
  changed : Bool
  added : List String
  updated : List String
  deleted : List String
  deriving DecidableEq, Repr

/-- Modelled from the spec: `fields.Diff(prior, new)` of package `utils/fields`,
not among the sources: the keys added (in `new` only), updated (in both, with
different values) and deleted (in `prior` only), and whether there is any. -/
def Diff (prior new : Fields) : DiffResult :=
  let added := (new.filter (fun kv => (mapLookup prior kv.1).isNone)).map (fun kv => kv.1)
  let updated :=
    (prior.filter (fun kv =>
      match mapLookup new kv.1 with
      | some v => v != kv.2
      | none => false)).map (fun kv => kv.1)
  let deleted := (prior.filter (fun kv => (mapLookup new kv.1).isNone)).map (fun kv => kv.1)
  { changed := !(added.isEmpty && updated.isEmpty && deleted.isEmpty),
    added := added, updated := updated, deleted := deleted }

/-- Go `time.Hour`. -/
def Hour : Int := 60 * Minute

/-- Go `Time.Year`: the year of the instant in the location of the time. -/
def Time.Year (t : Time) : Int := (civilFromDays ((t.Unix + t.offset) / 86400)).1

/-- Go `Duration.Round(m)`: `d` rounded to the nearest multiple of `m`, halfway
values away from zero; the smallest or largest duration when the result does
not fit. -/
def durationRound (d m : Int) : Int :=
  if m ≤ 0 then d
  else
    let r := Int.tmod d m
    if d < 0 then
      let r := -r
      if r + r < m then d + r
      else if minDuration ≤ d - m + r then d - m + r
      else minDuration
    else if r + r < m then d - r
    else if d + m - r ≤ maxDuration then d + m - r
    else maxDuration

/-- Mattermost `model.PostActionTypeSelect`. -/
def PostActionTypeSelect : String := "select"

/-- Modelled from the spec: `store.Event`, the stored snapshot of an event;
package `store` is not among the sources. `Remote` is the event as the
calendar provider sent it. -/
structure StoredEvent where
  Remote : Event
  PluginVersion : String
  deriving DecidableEq, Repr

/-- Modelled from the spec: `remote.MailboxSettings`; package `remote` is not
among the sources. -/
structure MailboxSettings where
  TimeZone : String
  deriving DecidableEq, Repr

/-- One call of `processNotification` on a collaborator, with its arguments: the
store (`LoadSubscription`, `LoadUser`, `StoreUserSubscription`, `LoadUserEvent`,
`StoreUserEvent`), the client of the calendar provider (`RenewSubscription`,
`GetNotificationData`, `GetMailboxSettings`) and the poster
(`DMWithAttachments`, whose attachment is a pointer: `none` is nil). -/
inductive NotificationCall where
  | LoadSubscription (subscriptionID : String)
  | LoadUser (mattermostUserID : String)
  | RenewSubscription (notificationURL : String) (creatorID : String)
      (subscription : Option RemoteSubscription)
  | StoreUserSubscription (creator : User) (subscription : Subscription)
  | GetNotificationData (n : Notification)
  | LoadUserEvent (mattermostUserID : String) (iCalUID : String)
  | GetMailboxSettings (creatorID : String)
  | DMWithAttachments (mattermostUserID : String) (attachment : Option SlackAttachment)
  | StoreUserEvent (mattermostUserID : String) (event : StoredEvent)
  deriving DecidableEq, Repr

/-- The environment of the notification processor: the configuration
(`Config.PluginURLPath`, `Config.PluginVersion`, `Config.GetNotificationURL()`
and the constants `PathPostAction`, `PathRespond` and `EventIDKey` of package
`config`), what the formatting reads from outside (the clock, the conversion
`DateTime.In(timezone).Time()`, `Time.Format(layout)`, `views.EnsureSubject`,
`views.MarkdownToHTMLEntities` and `fields.Diff`), and the results of the calls
on the collaborators (for a call that returns only an error, `none` when it
succeeds). -/
structure ProcessorEnv where
  PluginURLPath : String
  PathPostAction : String
  PathRespond : String
  EventIDKey : String
  PluginVersion : String
  NotificationURL : String
  now : Time
  In : Time → String → Time
  Format : Time → String → String
  EnsureSubject : String → String
  MarkdownToHTMLEntities : String → String
  Diff : Fields → Fields → DiffResult
  LoadSubscription : String → Except String Subscription
  LoadUser : String → Except String User
  RenewSubscription : String → String → Option RemoteSubscription →
    Except String RemoteSubscription
  StoreUserSubscriptionErr : User → Subscription → Option String
  GetNotificationData : Notification → Except String Notification
  LoadUserEvent : String → String → LoadResult StoredEvent
  GetMailboxSettings : String → Except String MailboxSettings
  DMWithAttachmentsErr : String → Option SlackAttachment → Option String
  StoreUserEventErr : String → StoredEvent → Option String

/-- Function `valueOrNotDefined`. -/
def valueOrNotDefined (s : String) : String :=
  if s == "" then "정의되지 않음" else s

/-- The layout `time.Kitchen`. -/
def Kitchen : String := "3:04PM"

/-- The duration text of `eventToFields` for an event from `start` to `finish`.
The conversions `int(d.Minutes())` and `int(d.Hours())` are taken as the whole
minutes and hours of `d`, rounded towards zero. The code goes through
`float64`: for a duration of 4096 hours or more that is a nanosecond short of
a whole hour it counts one hour more than the text here. No property below
depends on the text. -/
def durationText (start finish : Time) (isAllDay : Bool) : String :=
  let minutes := Int.tdiv (durationRound (finish.Sub start) Minute) Minute
  let hours := Int.tdiv (finish.Sub start) Hour
  let minutes := minutes - hours * 60
  let days := Int.tdiv (Int.tdiv (finish.Sub start) Hour) 24
  let hours := hours - days * 24
  if days > 0 then toString days ++ "일"
  else if isAllDay then "종일"
  else
    let dur :=
      if hours = 0 then ""
      else if hours = 1 then "1시간"
      else toString hours ++ "시간"
    if minutes > 0 then
      (if dur != "" then dur ++ ", " else dur) ++ toString minutes ++ "분"
    else dur

/-- Function `eventToFields`: the fields of an event that the diff compares. The
start and the end of an event are not nil here: the branch of the code for a
nil start or end, which gives the text `해당 없음` for `When`, is left out. No
property below depends on the content of the fields. -/
def eventToFields (p : ProcessorEnv) (e : Event) (timezone : String) : Fields :=
  let tStart := p.In e.Start timezone
  let tEnd := p.In e.End timezone
  let startFormat := "Monday, June 02"
  let startFormat :=
    if tStart.Year ≠ p.now.Year then "Monday, June 02, 2025" else startFormat
  let startFormat := startFormat ++ " · (" ++ Kitchen
  let endFormat := " - " ++ Kitchen ++ ")"
  let formattedDate := p.Format tStart startFormat ++ p.Format tEnd endFormat
  let dur := durationText tStart tEnd e.IsAllDay
  let attendees :=
    e.Attendees.map (fun a => NewStringValue ("[" ++ a.Name ++ "](mailto:" ++ a.Address ++ ")"))
  let attendees := if attendees.length == 0 then attendees ++ [NewStringValue "없음"] else attendees
  [ (FieldSubject, NewStringValue (p.EnsureSubject e.Subject)),
    (FieldBodyPreview, NewStringValue (valueOrNotDefined e.BodyPreview)),
    (FieldImportance, NewStringValue (valueOrNotDefined e.Importance)),
    (FieldWhen, NewStringValue (valueOrNotDefined formattedDate)),
    (FieldDuration, NewStringValue (valueOrNotDefined dur)),
    (FieldOrganizer,
      NewStringValue ("[" ++ e.Organizer.Name ++ "](mailto:" ++ e.Organizer.Address ++ ")")),
    (FieldLocation, NewStringValue (valueOrNotDefined e.Location)),
    (FieldResponseStatus, NewStringValue e.ResponseStatus),
    (FieldAttendees, NewMultiValue attendees) ]

/-- Function `isImportantChange`. -/
def isImportantChange (fieldName : String) : Bool :=
  importantNotificationChanges.any (fun ic => ic == fieldName)

/-- Method `actionURL`. -/
def actionURL (p : ProcessorEnv) (action : String) : String :=
  p.PluginURLPath ++ p.PathPostAction ++ action

/-- Function `NewPostActionForEventResponse`; `eventIDKey` is `config.EventIDKey`. -/
def NewPostActionForEventResponse (eventIDKey eventID response url : String) :
    List PostAction :=
  let defaultOption :=
    if response == ResponseNone then OptionNotResponded
    else if response == ResponseYes then OptionYes
    else if response == ResponseNo then OptionNo
    else if response == ResponseMaybe then OptionMaybe
    else ""
  [{ Name := "응답", ActionType := PostActionTypeSelect, URL := url,
     Context := [(eventIDKey, .str eventID)],
     Options := [OptionNotResponded, OptionYes, OptionNo, OptionMaybe].map (fun o => (o, o)),
     DefaultOption := defaultOption }]

/-- Method `newSlackAttachment`. -/
def newSlackAttachment (p : ProcessorEnv) (n : Notification) : SlackAttachment :=
  let title := p.EnsureSubject n.Event.Subject
  let titleLink := n.Event.Weblink
  let text := n.Event.BodyPreview
  { AuthorName := n.Event.Organizer.Name,
    AuthorLink := "mailto:" ++ n.Event.Organizer.Address,
    TitleLink := titleLink, Title := title, Text := text,
    Fallback := "[" ++ title ++ "](" ++ titleLink ++ "): " ++ text,
    Fields := [], Actions := [] }

/-- Method `newEventSlackAttachment`. -/
def newEventSlackAttachment (p : ProcessorEnv) (n : Notification) (timezone : String) :
    SlackAttachment :=
  let sa := newSlackAttachment p n
  let fields := eventToFields p n.Event timezone
  let sa :=
    { sa with
      Title := "(신규) " ++ sa.Title,
      Fields := notificationFieldOrder.map (fun k =>
        ⟨k, String.intercalate ", " (Fields.strings fields k), true⟩) }
  if n.Event.ResponseRequested && !n.Event.IsOrganizer then
    { sa with
      Actions := NewPostActionForEventResponse p.EventIDKey n.Event.ID n.Event.ResponseStatus
        (actionURL p p.PathRespond) }
  else sa

/-- Method `updatedEventSlackAttachment`: whether the notification is to be sent,
and the attachment when it is. -/
def updatedEventSlackAttachment (p : ProcessorEnv) (n : Notification) (prior : Event)
    (timezone : String) : Bool × Option SlackAttachment :=
  let sa := newSlackAttachment p n
  let sa := { sa with Title := "(업데이트됨) " ++ sa.Title }
  let newFields := eventToFields p n.Event timezone
  let priorFields := eventToFields p prior timezone
  let d := p.Diff priorFields newFields
  if !d.changed then (false, none)
  else
    let allChanges := d.added ++ d.updated ++ d.deleted
    let hasImportantChanges := allChanges.any isImportantChange
    if !hasImportantChanges then (false, none)
    else
      let addedFields := (d.added.filter isImportantChange).map (fun k =>
        (⟨k, p.MarkdownToHTMLEntities (String.intercalate ", " (Fields.strings newFields k)),
          true⟩ : SlackAttachmentField))
      let updatedFields := (d.updated.filter isImportantChange).map (fun k =>
        (⟨k, "~~" ++
            p.MarkdownToHTMLEntities (String.intercalate ", " (Fields.strings priorFields k)) ++
            "~~ → " ++
            p.MarkdownToHTMLEntities (String.intercalate ", " (Fields.strings newFields k)),
          true⟩ : SlackAttachmentField))
      let deletedFields := (d.deleted.filter isImportantChange).map (fun k =>
        (⟨k, "~~" ++
            p.MarkdownToHTMLEntities (String.intercalate ", " (Fields.strings priorFields k)) ++
            "~~",
          true⟩ : SlackAttachmentField))
      let sa := { sa with Fields := sa.Fields ++ addedFields ++ updatedFields ++ deletedFields }
      if n.Event.ResponseRequested && !n.Event.IsOrganizer && !n.Event.IsCancelled then
        (true, some
          { sa with
            Actions := NewPostActionForEventResponse p.EventIDKey n.Event.ID
              n.Event.ResponseStatus (actionURL p p.PathRespond) })
      else (true, some sa)

/-- What `processNotification` leaves behind: the returned error (`none` for
nil) and the calls made, in order. -/
structure ProcessOutcome where
  err : Option String
  calls : List NotificationCall
  deriving DecidableEq, Repr

/-- The last part of `processNotification`: send the DM with the attachment,
then assign the event of the notification to the snapshot and store it. -/
def sendAndStore (p : ProcessorEnv) (creator : User) (n : Notification)
    (sa : Option SlackAttachment) (prior : StoredEvent) : ProcessOutcome :=
  let dm := NotificationCall.DMWithAttachments creator.MattermostUserID sa
  match p.DMWithAttachmentsErr creator.MattermostUserID sa with
  | some err => ⟨some err, [dm]⟩
  | none =>
    let prior := { prior with Remote := n.Event }
    let store := NotificationCall.StoreUserEvent creator.MattermostUserID prior
    match p.StoreUserEventErr creator.MattermostUserID prior with
    | some err => ⟨some err, [dm, store]⟩
    | none => ⟨none, [dm, store]⟩

/-- The part of `processNotification` from the load of the prior snapshot on:
load the snapshot and the mailbox settings, build the attachment (for a new
event when there is no snapshot, for an updated event otherwise, returning when
nothing is to be sent), then send and store. -/
def diffAndNotify (p : ProcessorEnv) (sub : Subscription) (creator : User)
    (n : Notification) : ProcessOutcome :=
  let load := NotificationCall.LoadUserEvent creator.MattermostUserID n.Event.ICalUID
  match p.LoadUserEvent creator.MattermostUserID n.Event.ICalUID with
  | .failed err => ⟨some err, [load]⟩
  | prior =>
    let settings := NotificationCall.GetMailboxSettings sub.Remote.CreatorID
    match p.GetMailboxSettings sub.Remote.CreatorID with
    | .error err => ⟨some err, [load, settings]⟩
    | .ok mailSettings =>
      let timezone := mailSettings.TimeZone
      match prior with
      | .found prior =>
        let r := updatedEventSlackAttachment p n prior.Remote timezone
        if !r.1 then ⟨none, [load, settings]⟩
        else
          let s := sendAndStore p creator n r.2 prior
          ⟨s.err, [load, settings] ++ s.calls⟩
      | _ =>
        let s := sendAndStore p creator n (some (newEventSlackAttachment p n timezone))
          ⟨n.Event, ""⟩
        ⟨s.err, [load, settings] ++ s.calls⟩

/-- The renewal step of `processNotification`: when the notification recommends
it, renew the subscription and store the renewed subscription. -/
def renewStep (p : ProcessorEnv) (sub : Subscription) (creator : User) (n : Notification) :
    ProcessOutcome :=
  if n.RecommendRenew then
    let renew := NotificationCall.RenewSubscription p.NotificationURL sub.Remote.CreatorID
      n.Subscription
    match p.RenewSubscription p.NotificationURL sub.Remote.CreatorID n.Subscription with
    | .error err => ⟨some err, [renew]⟩
    | .ok renewed =>
      let storedSub : Subscription :=
        { Remote := renewed, MattermostCreatorID := creator.MattermostUserID,
          PluginVersion := p.PluginVersion }
      let store := NotificationCall.StoreUserSubscription creator storedSub
      match p.StoreUserSubscriptionErr creator storedSub with
      | some err => ⟨some err, [renew, store]⟩
      | none => ⟨none, [renew, store]⟩
  else ⟨none, []⟩

/-- The step of `processNotification` for a bare notification, followed by the
rest: fetch the data of the notification when it is bare, then go on with the
diff. -/
def hydrateAndDiff (p : ProcessorEnv) (sub : Subscription) (creator : User)
    (n : Notification) : ProcessOutcome :=
  if n.IsBare then
    let get := NotificationCall.GetNotificationData n
    match p.GetNotificationData n with
    | .error err => ⟨some err, [get]⟩
    | .ok n =>
      let r := diffAndNotify p sub creator n
      ⟨r.err, get :: r.calls⟩
  else diffAndNotify p sub creator n

/-- The error of a subscription that is not the one on record. -/
def errOrphanedSubscription : String := "구독이 관리되지않고 방치 상태입니다"

/-- The error of a client state that does not match. -/
def errUnauthorizedWebhook : String := "승인되지 않은 웹훅"

/-- Method `processNotification`: load the subscription and its creator, check
that the subscription is the one on record and that the client state matches,
then renew, fetch the data, diff, send and store. The making of the user client
calls no collaborator and is left out. -/
def processNotification (p : ProcessorEnv) (n : Notification) : ProcessOutcome :=
  let loadSub := NotificationCall.LoadSubscription n.SubscriptionID
  match p.LoadSubscription n.SubscriptionID with
  | .error err => ⟨some err, [loadSub]⟩
  | .ok sub =>
    let loadUser := NotificationCall.LoadUser sub.MattermostCreatorID
    match p.LoadUser sub.MattermostCreatorID with
    | .error err => ⟨some err, [loadSub, loadUser]⟩
    | .ok creator =>
      if sub.Remote.ID != creator.Settings.EventSubscriptionID then
        ⟨some errOrphanedSubscription, [loadSub, loadUser]⟩
      else if sub.Remote.ClientState != "" && sub.Remote.ClientState != n.ClientState then
        ⟨some errUnauthorizedWebhook, [loadSub, loadUser]⟩
      else
        let n := { n with Subscription := some sub.Remote }
        let r := renewStep p sub creator n
        match r.err with
        | some err => ⟨some err, [loadSub, loadUser] ++ r.calls⟩
        | none =>
          let h := hydrateAndDiff p sub creator n
          ⟨h.err, [loadSub, loadUser] ++ r.calls ++ h.calls⟩

/-- A call that sends a DM. -/
def NotificationCall.isDM : NotificationCall → Bool
  | .DMWithAttachments _ _ => true
  | _ => false

/-- A call that writes to the store or renews the subscription. -/
def NotificationCall.isWrite : NotificationCall → Bool
  | .RenewSubscription _ _ _ => true
  | .StoreUserSubscription _ _ => true
  | .StoreUserEvent _ _ => true
  | _ => false

/-- A call that stores the snapshot of an event. -/
def NotificationCall.isStoreUserEvent : NotificationCall → Bool
  | .StoreUserEvent _ _ => true
  | _ => false

/-- The shape of the calls of an outcome with respect to the DM and the
snapshot: after calls that are neither a DM nor a write of the snapshot, either
nothing, or a DM that failed (and an error is returned), or a DM that succeeded
followed by the write of the snapshot. -/
def SnapshotShape (p : ProcessorEnv) (r : ProcessOutcome) : Prop :=
  ∃ pre : List NotificationCall,
    (∀ c ∈ pre, c.isDM = false ∧ c.isStoreUserEvent = false) ∧
    (r.calls = pre ∨
      (∃ id sa, r.calls = pre ++ [NotificationCall.DMWithAttachments id sa] ∧
        p.DMWithAttachmentsErr id sa ≠ none ∧ r.err ≠ none) ∨
      (∃ id sa ev, r.calls = pre ++ [NotificationCall.DMWithAttachments id sa,
          NotificationCall.StoreUserEvent id ev] ∧
        p.DMWithAttachmentsErr id sa = none))

/-- Modelled from the spec: the snapshot of the event that the store keeps for
the user, after the calls of a pass: a `StoreUserEvent` that succeeds replaces
it, nothing else touches it. -/
def snapshotAfter (p : ProcessorEnv) (stored : Option StoredEvent)
    (calls : List NotificationCall) : Option StoredEvent :=
  calls.foldl
    (fun st c =>
      match c with
      | .StoreUserEvent id ev => if (p.StoreUserEventErr id ev).isNone then some ev else st
      | _ => st)
    stored

/-! ## Sample values -/

/-- A busy event with one attendee, from `start` to `finish` (nanoseconds since
the Unix epoch, in UTC). -/
def exampleEvent (uid : String) (start finish : Int) : Event :=
  { ID := uid, ICalUID := uid, Subject := "standup", ShowAs := "busy", Weblink := "",
    IsCancelled := false, Attendees := [⟨"Ann", "ann@example.com"⟩],
    Start := ⟨start, 0⟩, End := ⟨finish, 0⟩ }

/-- A user with the given status-update mode, confirmation flag, active events
and last status. -/
def exampleUser (option : String) (getConfirmation : Bool) (activeEvents : List String)
    (lastStatus : String) : User :=
  { MattermostUserID := "u1", RemoteID := "r1",
    Settings := ⟨option, getConfirmation, false, false, ""⟩,
    ActiveEvents := activeEvents, LastStatus := lastStatus, IsCustomStatusSet := false }

/-- An environment in which every call succeeds. -/
def exampleEnv : Env :=
  ⟨"/plugins/calendar", "/action", "/confirm", none, none, none, none⟩

/-- The instant 2024-01-01T10:00:00Z in nanoseconds since the Unix epoch. -/
def tenOClock : Int := 1704103200 * 1000000000

/-- An environment in which the write of the active events fails and every
other call succeeds. -/
def exampleEnvActiveEventsFail : Env :=
  ⟨"/plugins/calendar", "/action", "/confirm", none, some "store failure", none, none⟩

/-- A user who opted in to the custom status, with the given flag. -/
def exampleCustomUser (isCustomStatusSet : Bool) : User :=
  { MattermostUserID := "u1", RemoteID := "r1",
    Settings := ⟨NotSetStatusOption, false, true, false, ""⟩,
    ActiveEvents := [], LastStatus := "", IsCustomStatusSet := isCustomStatusSet }

/-- A custom-status environment in which every call succeeds, with the given
current custom status of the user. -/
def exampleCustomEnv (current : Option CustomStatus) : CustomStatusEnv :=
  ⟨current, none, none, none, none⟩

/-- A batch environment for one user `u1` with remote id `r1`, configured for
do-not-disturb updates, online, with one meeting at 10:00: every collaborator
succeeds, except that `GetMattermostUserStatusesByIds` returns the given
result. -/
def exampleBatchEnv (statuses : Except String (List (String × Status))) : BatchEnv :=
  { LoadUser := fun _ => .ok (exampleUser DNDStatusOption false [] ""),
    FilterCopyErr := fun _ => none,
    GetCalendarEvents := fun _ =>
      .ok ⟨"r1", [exampleEvent "m1" tenOClock (tenOClock + 30 * Minute)], none⟩,
    GetCalendarViews := fun _ =>
      .ok [⟨"r1", [exampleEvent "m1" tenOClock (tenOClock + 30 * Minute)], none⟩],
    GetMattermostUserStatusesByIds := fun _ => statuses,
    statusEnv := fun _ => exampleEnv,
    customStatusEnv := fun _ => exampleCustomEnv none,
    JSONBlock := fun _ => "" }

/-- A notification for the subscription with the given id, with the given client
state, about the meeting at 10:00. -/
def exampleNotification (subscriptionID clientState : String) : Notification :=
  { SubscriptionID := subscriptionID, ClientState := clientState, ChangeType := "updated",
    RecommendRenew := false, IsBare := false,
    Event := exampleEvent "m1" tenOClock (tenOClock + 30 * Minute), Subscription := none }

/-- A view environment with the clock at the given instant; unescaping leaves
the link as it is, and the JSON form of a time is its quoted RFC 3339 form. -/
def exampleViewEnv (now : Int) : ViewEnv :=
  { now := ⟨now, 0⟩, QueryUnescape := fun s => s,
    MarshalTime := fun t => "\"" ++ t.FormatRFC3339 ++ "\"" }

/-- An attachment with the given title and nothing else. -/
def exampleAttachment (title : String) : SlackAttachment :=
  { AuthorName := "", AuthorLink := "", Title := title, TitleLink := "", Text := "",
    Fallback := "", Fields := [], Actions := [] }

/-- A notifier environment with the clock at the given instant: the timezone
lookup and the renderings succeed, every event is linked to the channels `c1`
and `c2`, the DM returns the given error, and a post to `c1` fails. -/
def exampleNotifyEnv (now : Int) (dmErr : Option String) : NotifyEnv :=
  { now := ⟨now, 0⟩,
    GetTimezoneByID := fun _ => .ok "UTC",
    RenderUpcomingEventAsAttachment := fun e _ => .ok (exampleAttachment e.Subject),
    DMWithAttachmentsErr := fun _ _ => dmErr,
    LoadEventMetadata := fun _ => .found ⟨["c1", "c2"]⟩,
    RenderEventAsAttachment := fun e _ => .ok (exampleAttachment e.Subject),
    CreatePostErr := fun post => if post.ChannelId == "c1" then some "post failure" else none }

/-- The batch environment `exampleBatchEnv` in which the individual fetch of the
events fails for every user. -/
def exampleBatchEnvFetchFails : BatchEnv :=
  { exampleBatchEnv (.ok [("u1", ⟨"online", false⟩)]) with
    GetCalendarEvents := fun _ => .error "fetch failure" }

/-- The batch environment `exampleBatchEnv` in which the load of every user
fails. -/
def exampleBatchEnvLoadFails : BatchEnv :=
  { exampleBatchEnv (.ok [("u1", ⟨"online", false⟩)]) with
    LoadUser := fun _ => .error "load failure" }

/-- An index of six users. -/
def exampleIndex : List UserShort :=
  [⟨"u1", "r1", ""⟩, ⟨"u2", "r2", ""⟩, ⟨"u3", "r3", ""⟩, ⟨"u4", "r4", ""⟩, ⟨"u5", "r5", ""⟩,
    ⟨"u6", "r6", ""⟩]

/-- The subscription `sub1` of the user `u1`, with the given client state. -/
def exampleSubscription (clientState : String) : Subscription :=
  { Remote := ⟨"sub1", clientState, "r1"⟩, MattermostCreatorID := "u1", PluginVersion := "1.0" }

/-- A processor environment: the subscription `sub1` with the given client state
is stored, its creator has the given subscription on record, the snapshot of
the event is the given one, the DM returns the given error and every other call
succeeds. Times are not converted, a time is formatted as its RFC 3339 form
followed by the layout, and the diff is the one modelled from the spec. -/
def exampleProcessorEnv (clientState recorded : String) (prior : LoadResult StoredEvent)
    (dmErr : Option String) : ProcessorEnv :=
  { PluginURLPath := "/plugins/calendar", PathPostAction := "/action", PathRespond := "/respond",
    EventIDKey := "EventID", PluginVersion := "1.0", NotificationURL := "/notification",
    now := ⟨tenOClock, 0⟩,
    In := fun t _ => t,
    Format := fun t layout => t.FormatRFC3339 ++ layout,
    EnsureSubject := fun s => if s == "" then "(제목 없음)" else s,
    MarkdownToHTMLEntities := fun s => s,
    Diff := Diff,
    LoadSubscription := fun _ => .ok (exampleSubscription clientState),
    LoadUser := fun _ =>
      .ok { exampleUser DNDStatusOption false [] "" with
            Settings := ⟨DNDStatusOption, false, false, false, recorded⟩ },
    RenewSubscription := fun _ _ _ => .ok ⟨"sub1", clientState, "r1"⟩,
    StoreUserSubscriptionErr := fun _ _ => none,
    GetNotificationData := fun n => .ok n,
    LoadUserEvent := fun _ _ => prior,
    GetMailboxSettings := fun _ => .ok ⟨"UTC"⟩,
    DMWithAttachmentsErr := fun _ _ => dmErr,
    StoreUserEventErr := fun _ _ => none }

/-! ## Properties of the event-window merger -/

theorem mergeLoop_append (done : List Event) (cur : Event) (rest : List Event) :
    mergeLoop done cur rest = done ++ mergeLoop [] cur rest := by
  induction rest generalizing done cur with
  | nil => simp [mergeLoop]
  | cons e rest ih =>
    unfold mergeLoop
    split
    · exact ih done _
    · rw [ih (done ++ [cur]) e, ih ([] ++ [cur]) e]
      simp

theorem areEventsMergeable_congr (a b b2 : Event) (h : b2.Start = b.Start) :
    areEventsMergeable a b2 = areEventsMergeable a b := by
  simp [areEventsMergeable, h]

/-- In exact arithmetic: the saturation of `Time.Sub` does not change the
comparisons with the sync interval. -/
theorem areEventsMergeable_iff (a b : Event) :
    areEventsMergeable a b = true ↔
      (a.End.unixNano / 1000 ≥ b.Start.unixNano / 1000 ∨
        (a.End.unixNano - a.Start.unixNano ≤ 300000000000 ∧
          b.Start.unixNano - a.End.unixNano ≤ 300000000000)) := by
  simp only [areEventsMergeable, Time.UnixMicro, Time.Sub, StatusSyncJobInterval, Minute,
    minDuration, maxDuration, Bool.or_eq_true, Bool.and_eq_true, decide_eq_true_eq]
  split_ifs <;> omega

theorem NotMergeable.lt {a b : Event} (h : NotMergeable a b) :
    a.End.unixNano < b.Start.unixNano := by
  have h1 : ¬ (areEventsMergeable a b = true) := by
    unfold NotMergeable at h; simp [h]
  rw [areEventsMergeable_iff] at h1
  omega

theorem mergeLoop_head (cur : Event) (rest : List Event) :
    ∃ h t, mergeLoop [] cur rest = h :: t ∧ h.Start = cur.Start := by
  induction rest generalizing cur with
  | nil => exact ⟨cur, [], by simp [mergeLoop], rfl⟩
  | cons e rest ih =>
    unfold mergeLoop
    split
    · obtain ⟨h, t, h1, h2⟩ := ih { cur with End := e.End }
      exact ⟨h, t, h1, h2⟩
    · rw [mergeLoop_append]
      exact ⟨cur, mergeLoop [] e rest, by simp, rfl⟩

theorem mergeLoop_chain (cur : Event) (rest : List Event) :
    List.Chain' NotMergeable (mergeLoop [] cur rest) := by
  induction rest generalizing cur with
  | nil => simp [mergeLoop]
  | cons e rest ih =>
    unfold mergeLoop
    split
    · exact ih _
    · rename_i hm
      rw [mergeLoop_append]
      obtain ⟨h, t, h1, h2⟩ := mergeLoop_head e rest
      have := ih e
      rw [h1] at this ⊢
      simp only [List.nil_append, List.singleton_append]
      refine List.Chain'.cons ?_ this
      unfold NotMergeable
      rw [areEventsMergeable_congr cur e h h2]
      simpa using hm

theorem mergeLoop_fixed (cur : Event) (rest : List Event)
    (h : List.Chain' NotMergeable (cur :: rest)) : mergeLoop [] cur rest = cur :: rest := by
  induction rest generalizing cur with
  | nil => simp [mergeLoop]
  | cons e rest ih =>
    rw [List.chain'_cons] at h
    unfold mergeLoop
    have h1 : areEventsMergeable cur e = false := h.1
    simp only [h1, Bool.false_eq_true, if_false]
    rw [mergeLoop_append, ih e h.2]
    simp

theorem mergeLoop_length (cur : Event) (rest : List Event) :
    (mergeLoop [] cur rest).length ≤ rest.length + 1 := by
  induction rest generalizing cur with
  | nil => simp [mergeLoop]
  | cons e rest ih =>
    unfold mergeLoop
    split
    · have := ih { cur with End := e.End }
      simp only [List.length_cons]; omega
    · rw [mergeLoop_append]
      have := ih e
      simp only [List.length_cons, List.nil_append, List.length_append, List.length_nil]
      omega

theorem mergeLoop_starts (cur : Event) (rest : List Event) :
    List.Sublist ((mergeLoop [] cur rest).map Event.Start) ((cur :: rest).map Event.Start) := by
  induction rest generalizing cur with
  | nil => simp [mergeLoop]
  | cons e rest ih =>
    unfold mergeLoop
    split
    · have := ih { cur with End := e.End }
      simp only [List.map_cons] at this ⊢
      exact this.trans ((List.sublist_cons_self _ _).cons₂ _)
    · rw [mergeLoop_append]
      have := ih e
      simp only [List.map_cons, List.nil_append, List.singleton_append] at this ⊢
      exact this.cons₂ _

/-- The output of `getMergedEvents` is a chain of events that
`areEventsMergeable` keeps apart. -/
theorem getMergedEvents_chain (events : List Event) :
    List.Chain' NotMergeable (getMergedEvents events) := by
  unfold getMergedEvents
  split
  · match events with
    | [] => simp
    | [e] => simp
    | a :: b :: l => simp at *
  · split
    · simp
    · exact mergeLoop_chain _ _

/-- A chain of events that `areEventsMergeable` keeps apart is left as it is. -/
theorem getMergedEvents_fixed (events : List Event)
    (h : List.Chain' NotMergeable events) : getMergedEvents events = events := by
  unfold getMergedEvents
  split
  · rfl
  · split
    · rfl
    · exact mergeLoop_fixed _ _ h

theorem getMergedEvents_length (events : List Event) :
    (getMergedEvents events).length ≤ events.length := by
  unfold getMergedEvents
  split
  · exact le_refl _
  · split
    · simp
    · simpa using mergeLoop_length _ _

theorem getMergedEvents_starts (events : List Event) :
    List.Sublist ((getMergedEvents events).map Event.Start) (events.map Event.Start) := by
  unfold getMergedEvents
  split
  · exact List.Sublist.refl _
  · split
    · simp
    · exact mergeLoop_starts _ _

theorem pairwise_starts (r : Time → Time → Prop) (l : List Event) :
    l.Pairwise (fun a b => r a.Start b.Start) ↔ (l.map Event.Start).Pairwise r := by
  rw [List.pairwise_map]

/-- C1. Merging is idempotent: for every list of events (sorted by start time or
not), merging the merged list gives the merged list again, event for event. -/
theorem getMergedEvents_idempotent (E : List Event) :
    getMergedEvents (getMergedEvents E) = getMergedEvents E :=
  getMergedEvents_fixed _ (getMergedEvents_chain E)

/-- C2, as stated, fails: the first event lasts six minutes and ends 200
nanoseconds before the second starts, within the same microsecond. The overlap
test compares whole microseconds, so the two events are merged although the
first does not end at or after the start of the second and is longer than the
sync interval. -/
theorem getMergedEvents_pair_exact_counterexample :
    (exampleEvent "a" 0 360000001500).Start.unixNano
        ≤ (exampleEvent "b" 360000001700 400000000000).Start.unixNano ∧
    ¬ ((getMergedEvents
          [exampleEvent "a" 0 360000001500, exampleEvent "b" 360000001700 400000000000]).length = 1
        ↔ ((exampleEvent "a" 0 360000001500).End.unixNano
              ≥ (exampleEvent "b" 360000001700 400000000000).Start.unixNano ∨
            ((exampleEvent "a" 0 360000001500).End.unixNano
                - (exampleEvent "a" 0 360000001500).Start.unixNano ≤ StatusSyncJobInterval ∧
              (exampleEvent "b" 360000001700 400000000000).Start.unixNano
                - (exampleEvent "a" 0 360000001500).End.unixNano ≤ StatusSyncJobInterval))) := by
  decide

/-- C2, amended. For every two events, `getMergedEvents [e1, e2]` is a single
event if and only if the end of `e1` is at or after the start of `e2` in whole
microseconds, or `e1` lasts at most the sync interval and the gap to `e2` is at
most the sync interval; the merged event is `e1` with the end of `e2`, and two
events with a gap and a duration of `e1` above the interval stay as they are. -/
theorem getMergedEvents_pair_single_iff (e1 e2 : Event) :
    ((getMergedEvents [e1, e2]).length = 1 ↔
      (e1.End.UnixMicro ≥ e2.Start.UnixMicro ∨
        (e1.End.unixNano - e1.Start.unixNano ≤ StatusSyncJobInterval ∧
          e2.Start.unixNano - e1.End.unixNano ≤ StatusSyncJobInterval))) ∧
    ((getMergedEvents [e1, e2]).length = 1 → getMergedEvents [e1, e2] = [{ e1 with End := e2.End }]) ∧
    (e2.Start.unixNano - e1.End.unixNano > StatusSyncJobInterval →
      e1.End.unixNano - e1.Start.unixNano > StatusSyncJobInterval →
        getMergedEvents [e1, e2] = [e1, e2]) := by
  have hiff := areEventsMergeable_iff e1 e2
  simp only [StatusSyncJobInterval, Minute, Time.UnixMicro] at *
  by_cases hm : areEventsMergeable e1 e2 = true
  · have h := hiff.mp hm
    simp only [getMergedEvents, mergeLoop, hm]
    refine ⟨by simpa using h, by simp, ?_⟩
    intro h1 h2
    omega
  · have h := fun x => hm (hiff.mpr x)
    simp only [getMergedEvents, mergeLoop, hm]
    refine ⟨?_, by simp, by simp⟩
    simp only [List.length_cons, List.length_nil, List.length_singleton, List.nil_append,
      List.length_append, if_false]
    constructor
    · intro h1; simp at h1
    · intro h1; exact absurd h1 h

/-- C3. Two events of which the first ends at or after the start of the second
are merged into exactly one event, which starts with the first and ends with
the second. -/
theorem getMergedEvents_pair_overlap (e1 e2 : Event)
    (h : e1.End.unixNano ≥ e2.Start.unixNano) :
    getMergedEvents [e1, e2] = [{ e1 with End := e2.End }] ∧
    (getMergedEvents [e1, e2]).length = 1 ∧
    (getMergedEvents [e1, e2]).map Event.Start = [e1.Start] ∧
    (getMergedEvents [e1, e2]).map Event.End = [e2.End] := by
  have hm : areEventsMergeable e1 e2 = true := by
    rw [areEventsMergeable_iff]; left; omega
  simp [getMergedEvents, mergeLoop, hm]

/-- Witness of C3: a meeting from 10:00 to 10:30 and one from 10:20 to 11:00. -/
theorem getMergedEvents_pair_overlap_witness :
    (exampleEvent "a" tenOClock (tenOClock + 30 * Minute)).End.unixNano
        ≥ (exampleEvent "b" (tenOClock + 20 * Minute) (tenOClock + 60 * Minute)).Start.unixNano ∧
    getMergedEvents
        [exampleEvent "a" tenOClock (tenOClock + 30 * Minute),
          exampleEvent "b" (tenOClock + 20 * Minute) (tenOClock + 60 * Minute)]
      = [exampleEvent "a" tenOClock (tenOClock + 60 * Minute)] :=
  ⟨by decide,
    (getMergedEvents_pair_overlap (exampleEvent "a" tenOClock (tenOClock + 30 * Minute))
      (exampleEvent "b" (tenOClock + 20 * Minute) (tenOClock + 60 * Minute)) (by decide)).1⟩

/-- C4. For every list of events sorted by start time the output of
`getMergedEvents` has at most as many events as the input, its start times are
a sublist of the start times of the input (so they are in the order of the
input, non-decreasing in whole microseconds, and non-decreasing as exact
instants when the input is), and every output event ends strictly before the
next output event starts. -/
theorem getMergedEvents_nonoverlapping (events : List Event) (h : SortedByStart events) :
    (getMergedEvents events).length ≤ events.length ∧
    List.Sublist ((getMergedEvents events).map Event.Start) (events.map Event.Start) ∧
    SortedByStart (getMergedEvents events) ∧
    (events.Pairwise (fun a b => a.Start.unixNano ≤ b.Start.unixNano) →
      (getMergedEvents events).Pairwise (fun a b => a.Start.unixNano ≤ b.Start.unixNano)) ∧
    List.Chain' (fun a b : Event => a.End.unixNano < b.Start.unixNano)
      (getMergedEvents events) := by
  refine ⟨getMergedEvents_length _, getMergedEvents_starts _, ?_, ?_, ?_⟩
  · unfold SortedByStart at *
    rw [pairwise_starts (fun s t => s.UnixMicro ≤ t.UnixMicro)] at *
    exact h.sublist (getMergedEvents_starts _)
  · intro h2
    rw [pairwise_starts (fun s t => s.unixNano ≤ t.unixNano)] at *
    exact h2.sublist (getMergedEvents_starts _)
  · exact (getMergedEvents_chain events).imp (fun {a b} h => NotMergeable.lt h)

/-- Witness of C4: three meetings, the first two overlapping, the third an hour
later; the output has two events. -/
theorem getMergedEvents_nonoverlapping_witness :
    SortedByStart
        [exampleEvent "a" tenOClock (tenOClock + 30 * Minute),
          exampleEvent "b" (tenOClock + 20 * Minute) (tenOClock + 60 * Minute),
          exampleEvent "c" (tenOClock + 120 * Minute) (tenOClock + 150 * Minute)] ∧
    List.Chain' (fun a b : Event => a.End.unixNano < b.Start.unixNano)
      (getMergedEvents
        [exampleEvent "a" tenOClock (tenOClock + 30 * Minute),
          exampleEvent "b" (tenOClock + 20 * Minute) (tenOClock + 60 * Minute),
          exampleEvent "c" (tenOClock + 120 * Minute) (tenOClock + 150 * Minute)]) :=
  ⟨by unfold SortedByStart; decide,
    (getMergedEvents_nonoverlapping _ (by unfold SortedByStart; decide)).2.2.2.2⟩

/-! ## Properties of the pre-filter -/

theorem foldl_filter (p : Event → Bool) (acc events : List Event) :
    events.foldl (fun result e => if p e then result ++ [e] else result) acc
      = acc ++ events.filter p := by
  induction events generalizing acc with
  | nil => simp
  | cons e rest ih =>
    simp only [List.foldl_cons, List.filter_cons]
    rw [ih]
    split <;> simp

/-- C5. `filterBusyAndAttendeeEvents` returns exactly the events of the input
that are shown as busy, are not cancelled and have at least one attendee, in
their original order; every other event is dropped. -/
theorem filterBusyAndAttendeeEvents_eq_filter (events : List Event) :
    filterBusyAndAttendeeEvents events =
      events.filter (fun e =>
        decide (e.ShowAs = "busy" ∧ e.IsCancelled = false ∧ 1 ≤ e.Attendees.length)) ∧
    List.Sublist (filterBusyAndAttendeeEvents events) events ∧
    ∀ e, e ∈ filterBusyAndAttendeeEvents events ↔
      (e ∈ events ∧ e.ShowAs = "busy" ∧ e.IsCancelled = false ∧ e.Attendees ≠ []) := by
  have key : filterBusyAndAttendeeEvents events =
      events.filter (fun e =>
        decide (e.ShowAs = "busy" ∧ e.IsCancelled = false ∧ 1 ≤ e.Attendees.length)) := by
    unfold filterBusyAndAttendeeEvents
    have := foldl_filter
      (fun e => e.ShowAs == "busy" && !e.IsCancelled && decide (e.Attendees.length ≥ 1)) [] events
    simp only [List.nil_append] at this
    rw [this]
    congr 1
    funext e
    by_cases h : e.ShowAs = "busy" <;> simp [h, Bool.and_assoc]
  refine ⟨key, ?_, ?_⟩
  · rw [key]; exact List.filter_sublist _
  · intro e
    rw [key, List.mem_filter]
    simp only [decide_eq_true_eq]
    have : 1 ≤ e.Attendees.length ↔ e.Attendees ≠ [] := by
      cases e.Attendees <;> simp
    rw [this]

/-! ## Properties of the RFC 3339 format and of the fingerprint -/


theorem digitChar_cases : ∀ a : Fin 10,
    (digitChar a).toNat - 48 = a ∧ digitChar a ≠ ' ' ∧ digitChar a ≠ '-' := by
  decide

theorem digitChar_mod (n : Nat) : digitChar n = digitChar (n % 10) := by
  simp [digitChar]

theorem digitChar_toNat (n : Nat) : (digitChar n).toNat - 48 = n % 10 := by
  rw [digitChar_mod]
  exact (digitChar_cases ⟨n % 10, Nat.mod_lt _ (by decide)⟩).1

theorem digitChar_ne_space (n : Nat) : digitChar n ≠ ' ' := by
  rw [digitChar_mod]
  exact (digitChar_cases ⟨n % 10, Nat.mod_lt _ (by decide)⟩).2.1

theorem digitChar_ne_minus (n : Nat) : digitChar n ≠ '-' := by
  rw [digitChar_mod]
  exact (digitChar_cases ⟨n % 10, Nat.mod_lt _ (by decide)⟩).2.2

theorem digitsValueFrom_cons (v : Nat) (c : Char) (cs : List Char) :
    digitsValueFrom v (c :: cs) = digitsValueFrom (10 * v + (c.toNat - 48)) cs := rfl

theorem natDigitsAux_value (fuel n : Nat) (acc : List Char) (h : n < fuel) :
    digitsValueFrom 0 (natDigitsAux fuel n acc) = digitsValueFrom n acc := by
  induction fuel generalizing n acc with
  | zero => omega
  | succ fuel ih =>
    unfold natDigitsAux
    split
    · rename_i h10
      rw [digitsValueFrom_cons, digitChar_toNat, Nat.mod_eq_of_lt h10]
      simp
    · rw [ih (n / 10) _ (by omega), digitsValueFrom_cons, digitChar_toNat]
      congr 1
      omega

theorem natDigits_value (n : Nat) : digitsValueFrom 0 (natDigits n) = n := by
  unfold natDigits
  rw [natDigitsAux_value _ _ _ (Nat.lt_succ_self n)]
  rfl


theorem natDigitsAux_digits (fuel n : Nat) (acc : List Char) (hacc : ∀ c ∈ acc, IsDigitChar c) :
    ∀ c ∈ natDigitsAux fuel n acc, IsDigitChar c := by
  induction fuel generalizing n acc with
  | zero => simpa [natDigitsAux] using hacc
  | succ fuel ih =>
    unfold natDigitsAux
    split
    · intro c hc
      rcases List.mem_cons.mp hc with h | h
      · exact ⟨n, h⟩
      · exact hacc c h
    · apply ih
      intro c hc
      rcases List.mem_cons.mp hc with h | h
      · exact ⟨n % 10, h⟩
      · exact hacc c h

theorem paddedDigits_value (n width : Nat) : digitsValueFrom 0 (paddedDigits n width) = n := by
  unfold paddedDigits
  generalize width - (natDigits n).length = k
  induction k with
  | zero => simpa using natDigits_value n
  | succ k ih =>
    rw [List.replicate_succ, List.cons_append, digitsValueFrom_cons]
    simpa using ih

theorem paddedDigits_digits (n width : Nat) : ∀ c ∈ paddedDigits n width, IsDigitChar c := by
  intro c hc
  unfold paddedDigits at hc
  rcases List.mem_append.mp hc with h | h
  · exact ⟨0, by rw [(List.mem_replicate.mp h).2]; rfl⟩
  · exact natDigitsAux_digits _ _ [] (by simp) c h

theorem appendInt_eq (x : Int) (width : Nat) :
    appendInt x width = (if x < 0 then ['-'] else []) ++ paddedDigits x.natAbs width := rfl

theorem appendInt_inj (x y : Int) (width : Nat) (h : appendInt x width = appendInt y width) :
    x = y := by
  rw [appendInt_eq, appendInt_eq] at h
  have hx := paddedDigits_value x.natAbs width
  have hy := paddedDigits_value y.natAbs width
  have hhead : ∀ n l, paddedDigits n width ≠ '-' :: l := by
    intro n l hl
    have hmem := paddedDigits_digits n width '-' (by rw [hl]; simp)
    obtain ⟨k, hk⟩ := hmem
    exact digitChar_ne_minus k hk.symm
  by_cases hxn : x < 0 <;> by_cases hyn : y < 0 <;>
    simp only [hxn, hyn, if_true, if_false, List.singleton_append, List.nil_append] at h
  · have := List.cons.inj h
    rw [this.2] at hx
    omega
  · exact absurd h.symm (hhead _ _)
  · exact absurd h (hhead _ _)
  · rw [h] at hx
    omega


/-- The steps of `civilFromDays` on named intermediate values: the month and the
day are in range, and the count of days is recovered from the date. -/
theorem civil_steps (z n era doe c r1 q r2 a doy mp d m y : Int)
    (hn : n = z + 719468) (hera : era = n / 146097) (hdoe : doe = n % 146097)
    (hc : c = if doe / 36524 < 3 then doe / 36524 else 3)
    (hr1 : r1 = doe - 36524 * c) (hq : q = r1 / 1461) (hr2 : r2 = r1 % 1461)
    (ha : a = if r2 / 365 < 3 then r2 / 365 else 3)
    (hdoy : doy = r2 - 365 * a) (hmp : mp = (5 * doy + 2) / 153)
    (hd : d = doy - (153 * mp + 2) / 5 + 1)
    (hm : m = if mp < 10 then mp + 3 else mp - 9)
    (hy : y = 400 * era + 100 * c + 4 * q + a) :
    civilFromDays z = (if m ≤ 2 then y + 1 else y, m, d) ∧
    1 ≤ m ∧ m ≤ 12 ∧ 1 ≤ d ∧ d ≤ 31 ∧
    daysFromCivil (if m ≤ 2 then y + 1 else y, m, d) = z := by
  have h1 : 0 ≤ doe ∧ doe < 146097 := by omega
  have h2 : 0 ≤ c ∧ c ≤ 3 ∧ 0 ≤ r1 ∧ r1 ≤ 36524 := by split_ifs at hc <;> omega
  have h3 : 0 ≤ q ∧ q ≤ 24 ∧ 0 ≤ r2 ∧ r2 ≤ 1460 ∧ r1 = 1461 * q + r2 := by omega
  have h4 : 0 ≤ a ∧ a ≤ 3 ∧ 0 ≤ doy ∧ doy ≤ 365 := by split_ifs at ha <;> omega
  have h5 : 0 ≤ mp ∧ mp ≤ 11 := by omega
  have h6 : 1 ≤ d ∧ d ≤ 31 := by omega
  have h7 : y / 400 = era ∧ y % 400 = 100 * c + 4 * q + a := by omega
  have h8 : (100 * c + 4 * q + a) / 4 = 25 * c + q ∧ (100 * c + 4 * q + a) / 100 = c := by
    omega
  have h9 : (if m > 2 then m - 3 else m + 9) = mp := by
    split_ifs at hm ⊢ <;> omega
  have h10 : (if m ≤ 2 then (if m ≤ 2 then y + 1 else y) - 1 else (if m ≤ 2 then y + 1 else y))
      = y := by
    split_ifs <;> omega
  refine ⟨?_, by split_ifs at hm <;> omega, by split_ifs at hm <;> omega, h6.1, h6.2, ?_⟩
  · subst hy hm hd hmp hdoy ha hr2 hq hr1 hc hdoe hera hn
    rfl
  · simp only [daysFromCivil]
    rw [h10, h9, h7.1, h7.2, h8.1, h8.2]
    omega

theorem civilFromDays_spec (z : Int) :
    1 ≤ (civilFromDays z).2.1 ∧ (civilFromDays z).2.1 ≤ 12 ∧
    1 ≤ (civilFromDays z).2.2 ∧ (civilFromDays z).2.2 ≤ 31 ∧
    daysFromCivil (civilFromDays z) = z := by
  obtain ⟨e, h1, h2, h3, h4, h5⟩ :=
    civil_steps z _ _ _ _ _ _ _ _ _ _ _ _ _ rfl rfl rfl rfl rfl rfl rfl rfl rfl rfl rfl rfl rfl
  rw [e]
  exact ⟨h1, h2, h3, h4, h5⟩


theorem appendInt_two_fin : ∀ n : Fin 100, (appendInt ((n : Nat) : Int) 2).length = 2 := by
  decide

theorem appendInt_two_length (v : Int) (h0 : 0 ≤ v) (h1 : v < 100) :
    (appendInt v 2).length = 2 := by
  have := appendInt_two_fin ⟨v.toNat, by omega⟩
  simpa [Int.toNat_of_nonneg h0] using this

theorem appendInt_ne_space (x : Int) (width : Nat) : ∀ c ∈ appendInt x width, c ≠ ' ' := by
  intro c hc
  rw [appendInt_eq] at hc
  rcases List.mem_append.mp hc with h | h
  · split_ifs at h
    · rw [List.mem_singleton.mp h]; decide
    · simp at h
  · obtain ⟨k, hk⟩ := paddedDigits_digits _ _ c h
    rw [hk]
    exact digitChar_ne_space k

theorem field_split {a b x y : List Char} (c : Char) (ha : a.length = 2) (hb : b.length = 2)
    (h : c :: a ++ x = c :: b ++ y) : a = b ∧ x = y :=
  List.append_inj (List.cons.inj h).2 (ha.trans hb.symm)

/-- The characters of the format of a UTC time. -/
theorem rfc3339Chars_utc (t : Time) (h : t.offset = 0) :
    t.rfc3339Chars =
      appendInt (civilFromDays (t.Unix / 86400)).1 4 ++
        ('-' :: appendInt (civilFromDays (t.Unix / 86400)).2.1 2 ++
          ('-' :: appendInt (civilFromDays (t.Unix / 86400)).2.2 2 ++
            ('T' :: appendInt (t.Unix % 86400 / 3600) 2 ++
              (':' :: appendInt (t.Unix % 86400 % 3600 / 60) 2 ++
                (':' :: appendInt (t.Unix % 86400 % 60) 2 ++ ['Z']))))) := by
  simp [Time.rfc3339Chars, h, formatZone]

theorem rfc3339Chars_inj (t1 t2 : Time) (h1 : t1.offset = 0) (h2 : t2.offset = 0)
    (h : t1.rfc3339Chars = t2.rfc3339Chars) : t1.Unix = t2.Unix := by
  rw [rfc3339Chars_utc t1 h1, rfc3339Chars_utc t2 h2] at h
  obtain ⟨a1, a2, a3, a4, a5⟩ := civilFromDays_spec (t1.Unix / 86400)
  obtain ⟨b1, b2, b3, b4, b5⟩ := civilFromDays_spec (t2.Unix / 86400)
  have lm1 := appendInt_two_length _ (by omega) (by omega : (civilFromDays (t1.Unix / 86400)).2.1 < 100)
  have lm2 := appendInt_two_length _ (by omega) (by omega : (civilFromDays (t2.Unix / 86400)).2.1 < 100)
  have ld1 := appendInt_two_length _ (by omega) (by omega : (civilFromDays (t1.Unix / 86400)).2.2 < 100)
  have ld2 := appendInt_two_length _ (by omega) (by omega : (civilFromDays (t2.Unix / 86400)).2.2 < 100)
  have lh1 := appendInt_two_length (t1.Unix % 86400 / 3600) (by omega) (by omega)
  have lh2 := appendInt_two_length (t2.Unix % 86400 / 3600) (by omega) (by omega)
  have li1 := appendInt_two_length (t1.Unix % 86400 % 3600 / 60) (by omega) (by omega)
  have li2 := appendInt_two_length (t2.Unix % 86400 % 3600 / 60) (by omega) (by omega)
  have ls1 := appendInt_two_length (t1.Unix % 86400 % 60) (by omega) (by omega)
  have ls2 := appendInt_two_length (t2.Unix % 86400 % 60) (by omega) (by omega)
  obtain ⟨hy, h⟩ := List.append_inj' h (by
    simp only [List.length_cons, List.length_append, List.length_nil, lm1, lm2, ld1, ld2, lh1,
      lh2, li1, li2, ls1, ls2])
  obtain ⟨hm, h⟩ := field_split _ lm1 lm2 h
  obtain ⟨hd, h⟩ := field_split _ ld1 ld2 h
  obtain ⟨hh, h⟩ := field_split _ lh1 lh2 h
  obtain ⟨hi, h⟩ := field_split _ li1 li2 h
  obtain ⟨hs, -⟩ := field_split _ ls1 ls2 h
  have ey := appendInt_inj _ _ _ hy
  have em := appendInt_inj _ _ _ hm
  have ed := appendInt_inj _ _ _ hd
  have eh := appendInt_inj _ _ _ hh
  have ei := appendInt_inj _ _ _ hi
  have es := appendInt_inj _ _ _ hs
  have ecivil : civilFromDays (t1.Unix / 86400) = civilFromDays (t2.Unix / 86400) :=
    Prod.ext ey (Prod.ext em ed)
  have edays : t1.Unix / 86400 = t2.Unix / 86400 := by
    rw [← a5, ← b5, ecivil]
  omega

theorem rfc3339Chars_ne_space (t : Time) (h : t.offset = 0) : ' ' ∉ t.rfc3339Chars := by
  have key : ∀ x w, ' ' ∉ appendInt x w := fun x w hx => appendInt_ne_space x w ' ' hx rfl
  rw [rfc3339Chars_utc t h]
  simp [key]

theorem append_sep_inj {α : Type} (s : α) (l1 l2 t1 t2 : List α) (h1 : s ∉ t1) (h2 : s ∉ t2)
    (h : l1 ++ s :: t1 = l2 ++ s :: t2) : l1 = l2 ∧ t1 = t2 := by
  induction l1 generalizing l2 with
  | nil =>
    cases l2 with
    | nil => simpa using h
    | cons x l2 =>
      simp only [List.nil_append, List.cons_append, List.cons.injEq] at h
      exact absurd (by rw [h.2]; simp) h1
  | cons a l1 ih =>
    cases l2 with
    | nil =>
      simp only [List.nil_append, List.cons_append, List.cons.injEq] at h
      exact absurd (by rw [← h.2]; simp) h2
    | cons x l2 =>
      simp only [List.cons_append, List.cons.injEq] at h
      obtain ⟨e1, e2⟩ := ih l2 h.2
      exact ⟨by rw [h.1, e1], e2⟩

/-- Two events have the same fingerprint exactly when they have the same
`ICalUID` and their start instants fall in the same second. -/
theorem fingerprint_eq_iff (e1 e2 : Event) :
    fingerprint e1 = fingerprint e2 ↔
      (e1.ICalUID = e2.ICalUID ∧ e1.Start.Unix = e2.Start.Unix) := by
  constructor
  · intro h
    have hd := congrArg String.data h
    simp only [fingerprint, Time.FormatRFC3339, String.data_append] at hd
    rw [List.append_assoc, List.append_assoc, List.singleton_append,
      List.singleton_append] at hd
    obtain ⟨hu, ht⟩ := append_sep_inj ' ' _ _ _ _
      (rfc3339Chars_ne_space e1.Start.UTC rfl) (rfc3339Chars_ne_space e2.Start.UTC rfl) hd
    exact ⟨String.ext hu, rfc3339Chars_inj e1.Start.UTC e2.Start.UTC rfl rfl ht⟩
  · rintro ⟨hu, ht⟩
    have : e1.Start.UTC.rfc3339Chars = e2.Start.UTC.rfc3339Chars := by
      rw [rfc3339Chars_utc _ rfl, rfc3339Chars_utc _ rfl]
      have : e1.Start.UTC.Unix = e2.Start.UTC.Unix := ht
      rw [this]
    simp only [fingerprint, Time.FormatRFC3339, hu, this]


theorem remoteHashes_foldl (acc : List String) (events : List Event) :
    events.foldl
        (fun hashes e => if e.IsCancelled then hashes else hashes ++ [fingerprint e]) acc
      = acc ++ (events.filter (fun e => !e.IsCancelled)).map fingerprint := by
  induction events generalizing acc with
  | nil => simp
  | cons e rest ih =>
    simp only [List.foldl_cons, List.filter_cons]
    rw [ih]
    cases e.IsCancelled <;> simp

/-- The remote hashes are the fingerprints of the events that are not cancelled,
in the order of the events. -/
theorem remoteHashes_eq (events : List Event) :
    remoteHashes events = (events.filter (fun e => !e.IsCancelled)).map fingerprint := by
  unfold remoteHashes
  rw [remoteHashes_foldl]
  simp

theorem mem_remoteHashes (h : String) (events : List Event) :
    h ∈ remoteHashes events ↔ ∃ e ∈ events, e.IsCancelled = false ∧ fingerprint e = h := by
  rw [remoteHashes_eq]
  simp [List.mem_map, List.mem_filter, and_assoc]

/-- C6, as stated, fails. Moving the start of an event by half a second within
the same second leaves its fingerprint, and so the fingerprint set, as it was;
and with two events of the same `ICalUID` and start second in the list, moving
one of them onto the start of a third event leaves the set of fingerprints as it
was, although the start moved by an hour. -/
theorem fingerprint_set_unchanged_counterexample :
    (exampleEvent "m1" tenOClock (tenOClock + 30 * Minute)).Start ≠
      (exampleEvent "m1" (tenOClock + 500000000) (tenOClock + 30 * Minute)).Start ∧
    remoteHashes [exampleEvent "m1" tenOClock (tenOClock + 30 * Minute)]
      = ["m1 2024-01-01T10:00:00Z"] ∧
    remoteHashes [exampleEvent "m1" (tenOClock + 500000000) (tenOClock + 30 * Minute)]
      = ["m1 2024-01-01T10:00:00Z"] ∧
    remoteHashes
        [exampleEvent "m1" tenOClock (tenOClock + 120 * Minute),
          exampleEvent "m1" tenOClock (tenOClock + 120 * Minute),
          exampleEvent "m1" (tenOClock + 60 * Minute) (tenOClock + 120 * Minute)]
      = ["m1 2024-01-01T10:00:00Z", "m1 2024-01-01T10:00:00Z", "m1 2024-01-01T11:00:00Z"] ∧
    remoteHashes
        [exampleEvent "m1" (tenOClock + 60 * Minute) (tenOClock + 120 * Minute),
          exampleEvent "m1" tenOClock (tenOClock + 120 * Minute),
          exampleEvent "m1" (tenOClock + 60 * Minute) (tenOClock + 120 * Minute)]
      = ["m1 2024-01-01T11:00:00Z", "m1 2024-01-01T10:00:00Z", "m1 2024-01-01T11:00:00Z"] := by
  decide

/-- C6, amended. The fingerprint of an event is a function of its `ICalUID` and
of the second of its start instant: two events have equal fingerprints if and
only if they have the same `ICalUID` and their start instants fall in the same
second, whatever the location of the start time; the fingerprints of a permuted
list of events are a permutation of the fingerprints of the list; and moving
the start of an event that is not cancelled to another second changes its
fingerprint, and changes the set of fingerprints of the list when no other
event of the list that is not cancelled has the same `ICalUID` and the new
start second. -/
theorem fingerprint_stability :
    (∀ e1 e2 : Event, fingerprint e1 = fingerprint e2 ↔
      (e1.ICalUID = e2.ICalUID ∧ e1.Start.Unix = e2.Start.Unix)) ∧
    (∀ (e : Event) (offset : Int),
      fingerprint { e with Start := { e.Start with offset := offset } } = fingerprint e) ∧
    (∀ l1 l2 : List Event, l1.Perm l2 → (remoteHashes l1).Perm (remoteHashes l2)) ∧
    (∀ (pre post : List Event) (e : Event) (t : Time),
      e.IsCancelled = false → t.Unix ≠ e.Start.Unix →
        fingerprint { e with Start := t } ≠ fingerprint e ∧
        ((∀ x ∈ pre ++ post, x.IsCancelled = false →
            ¬ (x.ICalUID = e.ICalUID ∧ x.Start.Unix = t.Unix)) →
          ¬ (∀ h, h ∈ remoteHashes (pre ++ e :: post) ↔
              h ∈ remoteHashes (pre ++ { e with Start := t } :: post)))) := by
  refine ⟨fingerprint_eq_iff, ?_, ?_, ?_⟩
  · intro e offset
    rw [fingerprint_eq_iff]
    exact ⟨rfl, rfl⟩
  · intro l1 l2 hp
    rw [remoteHashes_eq, remoteHashes_eq]
    exact (hp.filter _).map _
  · intro pre post e t hc ht
    have hne : fingerprint { e with Start := t } ≠ fingerprint e := by
      intro h
      rw [fingerprint_eq_iff] at h
      exact ht h.2
    refine ⟨hne, ?_⟩
    intro hother hset
    have hnew : fingerprint { e with Start := t } ∈
        remoteHashes (pre ++ { e with Start := t } :: post) := by
      rw [mem_remoteHashes]
      exact ⟨{ e with Start := t }, by simp, hc, rfl⟩
    have hold := (hset _).mpr hnew
    rw [mem_remoteHashes] at hold
    obtain ⟨x, hx, hxc, hxf⟩ := hold
    rw [fingerprint_eq_iff] at hxf
    rcases List.mem_append.mp hx with h | h
    · exact hother x (List.mem_append.mpr (Or.inl h)) hxc hxf
    · rcases List.mem_cons.mp h with h | h
      · rw [h] at hxf
        exact ht hxf.2.symm
      · exact hother x (List.mem_append.mpr (Or.inr h)) hxc hxf

/-! ## Properties of the status decision engine -/

theorem busyStatusOf_ne_offline (user : User) : busyStatusOf user ≠ StatusOffline := by
  unfold busyStatusOf
  split <;> decide

/-- C7. A user configured for status updates, with no active events and no
confirmation required, whose status is neither offline nor the busy status,
and a non-empty list of events, all calls succeeding: the pass stores the user,
makes exactly one status call, which sets the busy status (away for the away
option, do-not-disturb otherwise), then stores the fingerprints of the events
that are not cancelled as active events (one for each event when none is
cancelled), and reports the status as changed. -/
theorem setStatusFromCalendarView_goes_busy (m : Env) (user : User) (status : Status)
    (events : List Event)
    (hcfg : user.IsConfiguredForStatusUpdates = true)
    (hact : user.ActiveEvents = [])
    (hconf : user.Settings.GetConfirmation = false)
    (hev : events ≠ [])
    (hoff : status.Status ≠ StatusOffline)
    (hbusy : status.Status ≠
      (if user.Settings.UpdateStatusFromOptions = AwayStatusOption then StatusAway
        else StatusDnd))
    (hok : m.StoreUserErr = none ∧ m.UpdateMattermostUserStatusErr = none ∧
      m.StoreUserActiveEventsErr = none) :
    (setStatusFromCalendarView m user status events).calls =
      [Call.StoreUser { user with LastStatus := if status.Manual then status.Status else "" },
        Call.UpdateMattermostUserStatus user.MattermostUserID
          (if user.Settings.UpdateStatusFromOptions = AwayStatusOption then StatusAway
            else StatusDnd),
        Call.StoreUserActiveEvents user.MattermostUserID
          ((events.filter (fun e => !e.IsCancelled)).map fingerprint)] ∧
    (setStatusFromCalendarView m user status events).ret.isStatusChanged = true ∧
    (setStatusFromCalendarView m user status events).ret.err = none ∧
    ((∀ e ∈ events, e.IsCancelled = false) →
      ((events.filter (fun e => !e.IsCancelled)).map fingerprint).length = events.length) := by
  obtain ⟨h1, h2, h3⟩ := hok
  have hlen : events.length ≠ 0 := by simpa using hev
  have hb : (status.Status == busyStatusOf user) = false := by
    unfold busyStatusOf
    simpa using hbusy
  have ho : (status.Status == StatusOffline) = false := by simpa using hoff
  refine ⟨?_, ?_, ?_, ?_⟩
  · simp [setStatusFromCalendarView, setStatusOrAskUser, hcfg, hact, hconf, hlen, hb, ho, h1, h2,
      h3, remoteHashes_eq]
  · simp [setStatusFromCalendarView, setStatusOrAskUser, hcfg, hact, hconf, hlen, hb, ho, h1, h2,
      h3]
  · simp [setStatusFromCalendarView, setStatusOrAskUser, hcfg, hact, hconf, hlen, hb, ho, h1, h2,
      h3]
  · intro hall
    rw [List.filter_eq_self.mpr (by simpa using hall)]
    simp

/-- Witness of C7: a user on do-not-disturb mode, online by hand, and one
meeting at 10:00. -/
theorem setStatusFromCalendarView_goes_busy_witness :
    (exampleUser DNDStatusOption false [] "").IsConfiguredForStatusUpdates = true ∧
    (setStatusFromCalendarView exampleEnv (exampleUser DNDStatusOption false [] "")
        ⟨StatusOnline, true⟩ [exampleEvent "m1" tenOClock (tenOClock + 30 * Minute)]).ret.isStatusChanged = true ∧
    (setStatusFromCalendarView exampleEnv (exampleUser DNDStatusOption false [] "")
        ⟨StatusOnline, true⟩ [exampleEvent "m1" tenOClock (tenOClock + 30 * Minute)]).calls =
      [Call.StoreUser (exampleUser DNDStatusOption false [] "online"),
        Call.UpdateMattermostUserStatus "u1" "dnd",
        Call.StoreUserActiveEvents "u1" ["m1 2024-01-01T10:00:00Z"]] :=
  ⟨by decide,
    (setStatusFromCalendarView_goes_busy exampleEnv (exampleUser DNDStatusOption false [] "")
      ⟨StatusOnline, true⟩ [exampleEvent "m1" tenOClock (tenOClock + 30 * Minute)]
      (by decide) (by decide) (by decide) (by decide) (by decide) (by decide)
      (by decide)).2.1,
    by decide⟩

/-- C8. A user configured for status updates, with no active events, whose
status already is the busy status, and a non-empty list of events: the pass
makes no status call and sends no confirmation DM, stores the fingerprints of
the events that are not cancelled as active events, and reports that the status
did not change. -/
theorem setStatusFromCalendarView_already_busy (m : Env) (user : User) (status : Status)
    (events : List Event)
    (hcfg : user.IsConfiguredForStatusUpdates = true)
    (hact : user.ActiveEvents = [])
    (hev : events ≠ [])
    (hbusy : status.Status =
      (if user.Settings.UpdateStatusFromOptions = AwayStatusOption then StatusAway
        else StatusDnd)) :
    (setStatusFromCalendarView m user status events).calls =
      [Call.StoreUser { user with LastStatus := if status.Manual then status.Status else "" },
        Call.StoreUserActiveEvents user.MattermostUserID
          ((events.filter (fun e => !e.IsCancelled)).map fingerprint)] ∧
    (∀ c ∈ (setStatusFromCalendarView m user status events).calls,
      (∀ id s, c ≠ Call.UpdateMattermostUserStatus id s) ∧
        (∀ id es s url, c ≠ Call.DMWithAttachments id es s url)) ∧
    (setStatusFromCalendarView m user status events).ret.isStatusChanged = false ∧
    (m.StoreUserActiveEventsErr = none →
      (setStatusFromCalendarView m user status events).ret =
        ⟨"사용자가 이미 바쁨으로 표시되었습니다. 상태 변경 없음.", false, none⟩) := by
  have hlen : events.length ≠ 0 := by simpa using hev
  have hb : (status.Status == busyStatusOf user) = true := by
    unfold busyStatusOf
    simpa using hbusy
  have ho : (status.Status == StatusOffline) = false := by
    have := busyStatusOf_ne_offline user
    have hb2 : status.Status = busyStatusOf user := by simpa using hb
    rw [hb2]
    simpa using this
  have hcalls : (setStatusFromCalendarView m user status events).calls =
      [Call.StoreUser { user with LastStatus := if status.Manual then status.Status else "" },
        Call.StoreUserActiveEvents user.MattermostUserID
          ((events.filter (fun e => !e.IsCancelled)).map fingerprint)] := by
    simp only [setStatusFromCalendarView, hcfg, hact, hlen, hb, ho, remoteHashes_eq]
    cases m.StoreUserActiveEventsErr <;> simp [hev]
  refine ⟨hcalls, ?_, ?_, ?_⟩
  · rw [hcalls]
    simp
  · simp only [setStatusFromCalendarView, hcfg, hact, hlen, hb, ho]
    cases m.StoreUserActiveEventsErr <;> simp [hev]
  · intro h3
    simp [setStatusFromCalendarView, hcfg, hact, hlen, hb, ho, h3, hev]

/-- Witness of C8: the user already is on do-not-disturb. -/
theorem setStatusFromCalendarView_already_busy_witness :
    (exampleUser DNDStatusOption false [] "").IsConfiguredForStatusUpdates = true ∧
    (setStatusFromCalendarView exampleEnv (exampleUser DNDStatusOption false [] "")
        ⟨StatusDnd, false⟩ [exampleEvent "m1" tenOClock (tenOClock + 30 * Minute)]).ret.isStatusChanged = false ∧
    (setStatusFromCalendarView exampleEnv (exampleUser DNDStatusOption false [] "")
        ⟨StatusDnd, false⟩ [exampleEvent "m1" tenOClock (tenOClock + 30 * Minute)]).calls =
      [Call.StoreUser (exampleUser DNDStatusOption false [] ""),
        Call.StoreUserActiveEvents "u1" ["m1 2024-01-01T10:00:00Z"]] :=
  ⟨by decide,
    (setStatusFromCalendarView_already_busy exampleEnv (exampleUser DNDStatusOption false [] "")
      ⟨StatusDnd, false⟩ [exampleEvent "m1" tenOClock (tenOClock + 30 * Minute)]
      (by decide) (by decide) (by decide) (by decide)).2.2.1,
    by decide⟩

/-- C9. A user configured for status updates, with active events and no
confirmation required, whose status is the busy status, and an empty list of
events: the pass sets the status to the saved
`LastStatus` when there is one and to online otherwise, then stores an empty
list of active events, and reports the status as changed. The store of the
user and the status call are taken to succeed. -/
theorem setStatusFromCalendarView_goes_free (m : Env) (user : User) (status : Status)
    (hcfg : user.IsConfiguredForStatusUpdates = true)
    (hact : user.ActiveEvents ≠ [])
    (hconf : user.Settings.GetConfirmation = false)
    (hbusy : status.Status =
      (if user.Settings.UpdateStatusFromOptions = AwayStatusOption then StatusAway
        else StatusDnd))
    (hok : m.StoreUserErr = none ∧ m.UpdateMattermostUserStatusErr = none) :
    (setStatusFromCalendarView m user status []).calls =
      [Call.StoreUser { user with LastStatus := "" },
        Call.UpdateMattermostUserStatus user.MattermostUserID
          (if user.LastStatus ≠ "" then user.LastStatus else StatusOnline),
        Call.StoreUserActiveEvents user.MattermostUserID []] ∧
    (setStatusFromCalendarView m user status []).ret.isStatusChanged = true ∧
    (m.StoreUserActiveEventsErr = none →
      (setStatusFromCalendarView m user status []).ret.err = none) := by
  obtain ⟨h1, h2⟩ := hok
  have hlen : user.ActiveEvents.length ≠ 0 := by simpa using hact
  have hpos : 0 < user.ActiveEvents.length := Nat.pos_of_ne_zero hlen
  have hb : (status.Status == busyStatusOf user) = true := by
    unfold busyStatusOf
    simpa using hbusy
  have ho : (status.Status == StatusOffline) = false := by
    have := busyStatusOf_ne_offline user
    have hb2 : status.Status = busyStatusOf user := by simpa using hb
    rw [hb2]
    simpa using this
  by_cases hl : user.LastStatus = ""
  · have hu : ({ user with LastStatus := "" } : User) = user := by
      cases user; simp_all
    cases h3 : m.StoreUserActiveEventsErr <;>
      simp [setStatusFromCalendarView, setStatusOrAskUser, hcfg, hlen, hpos, hconf, hb, ho, h1,
        h2, h3, hl, hu]
  · cases h3 : m.StoreUserActiveEventsErr <;>
      simp [setStatusFromCalendarView, setStatusOrAskUser, hcfg, hlen, hpos, hconf, hb, ho, h1,
        h2, h3, hl]

/-- Witness of C9: the meeting is over, the user is on do-not-disturb and had
been away before it. -/
theorem setStatusFromCalendarView_goes_free_witness :
    (exampleUser DNDStatusOption false ["m1 2024-01-01T10:00:00Z"] "away").ActiveEvents ≠ [] ∧
    (setStatusFromCalendarView exampleEnv
        (exampleUser DNDStatusOption false ["m1 2024-01-01T10:00:00Z"] "away")
        ⟨StatusDnd, false⟩ []).ret.isStatusChanged = true ∧
    (setStatusFromCalendarView exampleEnv
        (exampleUser DNDStatusOption false ["m1 2024-01-01T10:00:00Z"] "away")
        ⟨StatusDnd, false⟩ []).calls =
      [Call.StoreUser (exampleUser DNDStatusOption false ["m1 2024-01-01T10:00:00Z"] ""),
        Call.UpdateMattermostUserStatus "u1" "away",
        Call.StoreUserActiveEvents "u1" []] :=
  ⟨by decide,
    (setStatusFromCalendarView_goes_free exampleEnv
      (exampleUser DNDStatusOption false ["m1 2024-01-01T10:00:00Z"] "away") ⟨StatusDnd, false⟩
      (by decide) (by decide) (by decide) (by decide) (by decide)).2.1,
    by decide⟩

/-- C10, as stated, fails: a user who is offline and does not want a
confirmation leaves at the offline guard; with active events stored and an
empty list of events the pass makes no call at all, so the active events are
not cleared. -/
theorem setStatusFromCalendarView_offline_counterexample :
    (exampleUser DNDStatusOption false ["m1 2024-01-01T10:00:00Z"] "").IsConfiguredForStatusUpdates
      = true ∧
    (exampleUser DNDStatusOption false ["m1 2024-01-01T10:00:00Z"] "").ActiveEvents ≠ [] ∧
    (setStatusFromCalendarView exampleEnv
      (exampleUser DNDStatusOption false ["m1 2024-01-01T10:00:00Z"] "")
      ⟨StatusOffline, false⟩ []).calls = [] ∧
    (setStatusFromCalendarView exampleEnv
      (exampleUser DNDStatusOption false ["m1 2024-01-01T10:00:00Z"] "")
      ⟨StatusOffline, false⟩ []).ret.err = none := by
  decide

/-- C10, amended. A user configured for status updates, with active events, and
an empty list of events, unless the user is offline without confirmation
required: when the status is not the busy status the pass makes one call, which
stores an empty list of active events, changes no status and reports none; when
the status is the busy status and the status action succeeds, the last call
stores an empty list of active events and the status is reported as changed. -/
theorem setStatusFromCalendarView_clears_activeEvents (m : Env) (user : User) (status : Status)
    (hcfg : user.IsConfiguredForStatusUpdates = true)
    (hact : user.ActiveEvents ≠ [])
    (hguard : ¬ (status.Status = StatusOffline ∧ user.Settings.GetConfirmation = false)) :
    (status.Status ≠ busyStatusOf user →
      (setStatusFromCalendarView m user status []).calls =
        [Call.StoreUserActiveEvents user.MattermostUserID []] ∧
      (setStatusFromCalendarView m user status []).ret.isStatusChanged = false ∧
      (setStatusFromCalendarView m user status []).user = user ∧
      (m.StoreUserActiveEventsErr = none →
        (setStatusFromCalendarView m user status []).ret.err = none)) ∧
    (status.Status = busyStatusOf user →
      m.StoreUserErr = none →
      (if user.Settings.GetConfirmation then m.DMWithAttachmentsErr = none
        else m.UpdateMattermostUserStatusErr = none) →
        (setStatusFromCalendarView m user status []).calls.getLast? =
          some (Call.StoreUserActiveEvents user.MattermostUserID []) ∧
        (setStatusFromCalendarView m user status []).ret.isStatusChanged = true ∧
        (m.StoreUserActiveEventsErr = none →
          (setStatusFromCalendarView m user status []).ret.err = none)) := by
  have hlen : user.ActiveEvents.length ≠ 0 := by simpa using hact
  have hpos : 0 < user.ActiveEvents.length := Nat.pos_of_ne_zero hlen
  have hg : (status.Status == StatusOffline && !user.Settings.GetConfirmation) = false := by
    simpa using hguard
  constructor
  · intro hne
    have hb : (status.Status == busyStatusOf user) = false := by simpa using hne
    simp only [setStatusFromCalendarView, hcfg, hg, hlen, hpos, hb]
    cases m.StoreUserActiveEventsErr <;> simp [hact]
  · intro he h1 h2
    have hb : (status.Status == busyStatusOf user) = true := by simpa using he
    simp only [setStatusFromCalendarView, setStatusOrAskUser, hcfg, hg, hlen, hpos, hb, h1]
    cases hc : user.Settings.GetConfirmation <;> simp [hc] at h2 <;>
      cases hs : m.StoreUserActiveEventsErr <;>
      by_cases hl : user.LastStatus = "" <;> simp [hact, hc, h2, hl]

/-- Witness of C10: the user went back online by hand before the meeting
ended. -/
theorem setStatusFromCalendarView_clears_activeEvents_witness :
    (exampleUser DNDStatusOption false ["m1 2024-01-01T10:00:00Z"] "").ActiveEvents ≠ [] ∧
    (setStatusFromCalendarView exampleEnv
        (exampleUser DNDStatusOption false ["m1 2024-01-01T10:00:00Z"] "")
        ⟨StatusOnline, true⟩ []).calls = [Call.StoreUserActiveEvents "u1" []] :=
  ⟨by decide,
    ((setStatusFromCalendarView_clears_activeEvents exampleEnv
      (exampleUser DNDStatusOption false ["m1 2024-01-01T10:00:00Z"] "") ⟨StatusOnline, true⟩
      (by decide) (by decide) (by decide)).1 (by decide)).1⟩

/-! ## The no-change path and the last status -/

theorem newEventExists_eq_false (hashes activeEvents : List String) :
    newEventExists hashes activeEvents = false ↔ ∀ h ∈ hashes, h ∈ activeEvents := by
  simp [newEventExists, List.any_eq_true]

theorem setStatusOrAskUser_calls_ne_nil (m : Env) (user : User) (status : Status)
    (events : List Event) (isFree : Bool) :
    (setStatusOrAskUser m user status events isFree).calls ≠ [] := by
  cases hs : m.StoreUserErr <;> cases hc : user.Settings.GetConfirmation <;> cases isFree <;>
    by_cases hl : user.LastStatus = "" <;> simp [setStatusOrAskUser, hs, hc, hl]

/-- C11, as stated, fails: two fingerprints are stored, the event of one of them
is over and the other event is still there. No new event exists, so the pass
takes the no-change path although the two sets of fingerprints differ. -/
theorem setStatusFromCalendarView_no_change_counterexample :
    (exampleUser DNDStatusOption false
        ["m1 2024-01-01T10:00:00Z", "m2 2024-01-01T11:00:00Z"] "").IsConfiguredForStatusUpdates
      = true ∧
    (setStatusFromCalendarView exampleEnv
        (exampleUser DNDStatusOption false
          ["m1 2024-01-01T10:00:00Z", "m2 2024-01-01T11:00:00Z"] "")
        ⟨StatusDnd, false⟩ [exampleEvent "m1" tenOClock (tenOClock + 30 * Minute)]).calls = [] ∧
    (setStatusFromCalendarView exampleEnv
        (exampleUser DNDStatusOption false
          ["m1 2024-01-01T10:00:00Z", "m2 2024-01-01T11:00:00Z"] "")
        ⟨StatusDnd, false⟩ [exampleEvent "m1" tenOClock (tenOClock + 30 * Minute)]).ret =
      ⟨"활성 이벤트에 변경 사항이 없습니다. 총 이벤트 수: 1", false, none⟩ ∧
    ¬ (∀ h, h ∈ remoteHashes [exampleEvent "m1" tenOClock (tenOClock + 30 * Minute)] ↔
        h ∈ (exampleUser DNDStatusOption false
          ["m1 2024-01-01T10:00:00Z", "m2 2024-01-01T11:00:00Z"] "").ActiveEvents) := by
  refine ⟨by decide, by decide, by decide, ?_⟩
  intro h
  have h2 := (h "m2 2024-01-01T11:00:00Z").mpr (by decide)
  revert h2
  decide

/-- C11, amended. A user configured for status updates who is not offline
without confirmation required, with active events stored, and a non-empty list
of events: the pass takes the no-change path (no call at all, the status
reported as unchanged, the message with the number of events) if and only if
every fingerprint of the current events that are not cancelled is among the
stored active events. -/
theorem setStatusFromCalendarView_no_change_iff (m : Env) (user : User) (status : Status)
    (events : List Event)
    (hcfg : user.IsConfiguredForStatusUpdates = true)
    (hguard : ¬ (status.Status = StatusOffline ∧ user.Settings.GetConfirmation = false))
    (hact : user.ActiveEvents ≠ [])
    (hev : events ≠ []) :
    ((setStatusFromCalendarView m user status events).calls = [] ↔
      ∀ h ∈ remoteHashes events, h ∈ user.ActiveEvents) ∧
    ((∀ h ∈ remoteHashes events, h ∈ user.ActiveEvents) →
      (setStatusFromCalendarView m user status events).ret =
        ⟨"활성 이벤트에 변경 사항이 없습니다. 총 이벤트 수: " ++ toString events.length, false, none⟩ ∧
      (setStatusFromCalendarView m user status events).user = user) := by
  have hlen : user.ActiveEvents.length ≠ 0 := by simpa using hact
  have hlen2 : events.length ≠ 0 := by simpa using hev
  have hg : (status.Status == StatusOffline && !user.Settings.GetConfirmation) = false := by
    simpa using hguard
  rw [← newEventExists_eq_false]
  cases hn : newEventExists (remoteHashes events) user.ActiveEvents
  · simp [setStatusFromCalendarView, hcfg, hg, hlen, hlen2, hn, hact, hev]
  · have hne := setStatusOrAskUser_calls_ne_nil m user status events false
    simp only [setStatusFromCalendarView, hcfg, hg, hlen, hlen2, hn]
    cases hb : (status.Status == busyStatusOf user) <;>
      cases hr : (setStatusOrAskUser m user status events false).ret <;>
      cases ha : m.StoreUserActiveEventsErr <;>
      simp [hact, hev, hb, bne, hne]

/-- Witness of C11: one fingerprint is stored and the same event is still there;
the pass makes no call. -/
theorem setStatusFromCalendarView_no_change_iff_witness :
    (exampleUser DNDStatusOption false ["m1 2024-01-01T10:00:00Z"] "").IsConfiguredForStatusUpdates
      = true ∧
    ((setStatusFromCalendarView exampleEnv
        (exampleUser DNDStatusOption false ["m1 2024-01-01T10:00:00Z"] "")
        ⟨StatusDnd, false⟩ [exampleEvent "m1" tenOClock (tenOClock + 30 * Minute)]).calls = [] ↔
      ∀ h ∈ remoteHashes [exampleEvent "m1" tenOClock (tenOClock + 30 * Minute)],
        h ∈ (exampleUser DNDStatusOption false ["m1 2024-01-01T10:00:00Z"] "").ActiveEvents) ∧
    (setStatusFromCalendarView exampleEnv
        (exampleUser DNDStatusOption false ["m1 2024-01-01T10:00:00Z"] "")
        ⟨StatusDnd, false⟩ [exampleEvent "m1" tenOClock (tenOClock + 30 * Minute)]).calls = [] :=
  ⟨by decide,
    (setStatusFromCalendarView_no_change_iff exampleEnv
      (exampleUser DNDStatusOption false ["m1 2024-01-01T10:00:00Z"] "")
      ⟨StatusDnd, false⟩ [exampleEvent "m1" tenOClock (tenOClock + 30 * Minute)]
      (by decide) (by decide) (by decide) (by decide)).1,
    by decide⟩

/-- C12. On a busy transition `setStatusOrAskUser` overwrites `LastStatus` only
when no confirmation is required: with the current status when that status was
set by hand and with the empty value otherwise. When a confirmation is required
the user object, and so the record stored before the prompt, is the one from
before the call. In both cases the first call stores the user. -/
theorem setStatusOrAskUser_busy_lastStatus (m : Env) (user : User) (status : Status)
    (events : List Event) :
    (user.Settings.GetConfirmation = false →
      (setStatusOrAskUser m user status events false).user =
        { user with LastStatus := if status.Manual then status.Status else "" }) ∧
    (user.Settings.GetConfirmation = true →
      (setStatusOrAskUser m user status events false).user = user) ∧
    (setStatusOrAskUser m user status events false).calls.head? =
      some (Call.StoreUser (setStatusOrAskUser m user status events false).user) ∧
    (user.Settings.GetConfirmation = true → m.StoreUserErr = none →
      (setStatusOrAskUser m user status events false).calls =
        [Call.StoreUser user,
          Call.DMWithAttachments user.MattermostUserID events
            (if user.Settings.UpdateStatusFromOptions = AwayStatusOption then StatusAway
              else StatusDnd)
            (m.PluginURLPath ++ m.PathPostAction ++ m.PathConfirmStatusChange)]) := by
  cases hc : user.Settings.GetConfirmation <;> cases hs : m.StoreUserErr <;>
    simp [setStatusOrAskUser, hc, hs]

/-! ## Order of the side effects and failures -/

/-- The shape of `setStatusOrAskUser`: the user keeps its identity, settings and
active events; the first call stores the user; a status action follows exactly
when the store succeeds, and its error is the error returned. -/
theorem setStatusOrAskUser_shape (m : Env) (user : User) (status : Status)
    (events : List Event) (isFree : Bool) :
    (setStatusOrAskUser m user status events isFree).user.ActiveEvents = user.ActiveEvents ∧
    (setStatusOrAskUser m user status events isFree).user.MattermostUserID
      = user.MattermostUserID ∧
    (setStatusOrAskUser m user status events isFree).user.Settings = user.Settings ∧
    ((m.StoreUserErr ≠ none ∧
        (setStatusOrAskUser m user status events isFree).ret = m.StoreUserErr ∧
        (setStatusOrAskUser m user status events isFree).calls =
          [Call.StoreUser (setStatusOrAskUser m user status events isFree).user]) ∨
      (m.StoreUserErr = none ∧ ∃ a, a.isStatusAction = true ∧
        (setStatusOrAskUser m user status events isFree).ret = a.err m ∧
        (setStatusOrAskUser m user status events isFree).calls =
          [Call.StoreUser (setStatusOrAskUser m user status events isFree).user, a])) := by
  cases hs : m.StoreUserErr <;> cases hc : user.Settings.GetConfirmation <;> cases isFree <;>
    by_cases hl : user.LastStatus = "" <;>
    simp [setStatusOrAskUser, hs, hc, hl, Call.isStatusAction, Call.err]

theorem attemptsStatusChange_cases (user : User) (status : Status) (events : List Event)
    (h : attemptsStatusChange user status events = true) :
    user.IsConfiguredForStatusUpdates = true ∧
    (status.Status == StatusOffline && !user.Settings.GetConfirmation) = false ∧
    ((user.ActiveEvents ≠ [] ∧ events = [] ∧ (status.Status == busyStatusOf user) = true) ∨
      (events ≠ [] ∧ (status.Status == busyStatusOf user) = false ∧
        (user.ActiveEvents = [] ∨
          (user.ActiveEvents ≠ [] ∧
            newEventExists (remoteHashes events) user.ActiveEvents = true)))) := by
  simp only [attemptsStatusChange, Bool.and_eq_true, Bool.or_eq_true, Bool.not_eq_true',
    List.isEmpty_iff, bne_iff_ne, ne_eq, beq_iff_eq, Bool.not_eq_eq_eq_not, Bool.not_true,
    Bool.and_eq_false_imp, beq_eq_false_iff_ne] at h ⊢
  obtain ⟨⟨h1, h2⟩, h3⟩ := h
  refine ⟨h1, ?_, ?_⟩
  · simpa using h2
  · rcases h3 with ⟨⟨a, b⟩, c⟩ | ⟨⟨a, b⟩, c⟩
    · left; exact ⟨by simpa using a, b, c⟩
    · right
      refine ⟨by simpa using a, b, ?_⟩
      by_cases hu : user.ActiveEvents = []
      · left; exact hu
      · right
        rcases c with c | c
        · exact absurd c hu
        · exact ⟨hu, c⟩

/-- A pass that goes for a status change: the calls are the calls of
`setStatusOrAskUser`, followed by the write of the active events exactly when
`setStatusOrAskUser` returns no error. -/
theorem setStatusFromCalendarView_attempt (m : Env) (user : User) (status : Status)
    (events : List Event) (h : attemptsStatusChange user status events = true) :
    (setStatusFromCalendarView m user status events).user =
      (setStatusOrAskUser m user status events events.isEmpty).user ∧
    (∀ err, (setStatusOrAskUser m user status events events.isEmpty).ret = some err →
      (setStatusFromCalendarView m user status events).calls =
        (setStatusOrAskUser m user status events events.isEmpty).calls ∧
      (setStatusFromCalendarView m user status events).ret.err ≠ none ∧
      (setStatusFromCalendarView m user status events).ret.isStatusChanged = false) ∧
    ((setStatusOrAskUser m user status events events.isEmpty).ret = none →
      (setStatusFromCalendarView m user status events).calls =
        (setStatusOrAskUser m user status events events.isEmpty).calls ++
          [Call.StoreUserActiveEvents user.MattermostUserID (remoteHashes events)] ∧
      (setStatusFromCalendarView m user status events).ret.isStatusChanged = true ∧
      ((setStatusFromCalendarView m user status events).ret.err = none ↔
        m.StoreUserActiveEventsErr = none)) := by
  obtain ⟨hcfg, hg, hcase⟩ := attemptsStatusChange_cases user status events h
  rcases hcase with ⟨ha, he, hb⟩ | ⟨he, hb, ha | ⟨ha, hn⟩⟩
  · have hlen : user.ActiveEvents.length ≠ 0 := by simpa using ha
    have hpos : 0 < user.ActiveEvents.length := Nat.pos_of_ne_zero hlen
    subst he
    simp only [setStatusFromCalendarView, hcfg, hg, hlen, hpos, hb, List.isEmpty_nil]
    cases hr : (setStatusOrAskUser m user status [] true).ret <;>
      cases hs : m.StoreUserActiveEventsErr <;> simp [ha, remoteHashes]
  · have hlen : events.length ≠ 0 := by simpa using he
    have hemp : events.isEmpty = false := by simpa using he
    simp only [setStatusFromCalendarView, hcfg, hg, hlen, hb, ha, hemp]
    cases hr : (setStatusOrAskUser m user status events false).ret <;>
      cases hs : m.StoreUserActiveEventsErr <;> simp [he]
  · have hlen : events.length ≠ 0 := by simpa using he
    have hlen2 : user.ActiveEvents.length ≠ 0 := by simpa using ha
    have hemp : events.isEmpty = false := by simpa using he
    simp only [setStatusFromCalendarView, hcfg, hg, hlen, hlen2, hb, hn, hemp]
    cases hr : (setStatusOrAskUser m user status events false).ret <;>
      cases hs : m.StoreUserActiveEventsErr <;> simp [he, ha, bne, hb]

/-- A pass that does not go for a status change makes no call, or writes the
active events, or stores the user and writes the active events (the user
already is busy); the error returned is the error of the write of the active
events. -/
theorem setStatusFromCalendarView_no_attempt (m : Env) (user : User) (status : Status)
    (events : List Event) (h : attemptsStatusChange user status events = false) :
    (setStatusFromCalendarView m user status events).user.ActiveEvents = user.ActiveEvents ∧
    (setStatusFromCalendarView m user status events).ret.isStatusChanged = false ∧
    ((setStatusFromCalendarView m user status events).calls = [] ∨
      (((setStatusFromCalendarView m user status events).ret.err = none ↔
          m.StoreUserActiveEventsErr = none) ∧
        ∃ hs,
          (setStatusFromCalendarView m user status events).calls =
            [Call.StoreUserActiveEvents user.MattermostUserID hs] ∨
          (setStatusFromCalendarView m user status events).calls =
            [Call.StoreUser (setStatusFromCalendarView m user status events).user,
              Call.StoreUserActiveEvents user.MattermostUserID hs])) := by
  unfold attemptsStatusChange at h
  cases hcfg : user.IsConfiguredForStatusUpdates
  · simp [setStatusFromCalendarView, hcfg]
  cases hg : (status.Status == StatusOffline && !user.Settings.GetConfirmation)
  swap
  · simp [setStatusFromCalendarView, hcfg, hg]
  simp only [hcfg, hg, Bool.true_and, Bool.not_false] at h
  simp only [setStatusFromCalendarView, hcfg, hg, Bool.not_true, Bool.false_eq_true, if_false]
  clear hg hcfg
  cases hb : (status.Status == busyStatusOf user) <;>
    cases hn : newEventExists (remoteHashes events) user.ActiveEvents <;>
    cases hs : m.StoreUserActiveEventsErr <;>
    rcases hue : user.ActiveEvents with _ | ⟨x, xs⟩ <;>
    rcases hee : events with _ | ⟨y, ys⟩ <;>
    simp_all [bne]

theorem persisted_nil (m : Env) (stored : User) : persisted m stored [] = stored := rfl

theorem persisted_cons (m : Env) (stored : User) (c : Call) (calls : List Call) :
    persisted m stored (c :: calls) = persisted m (applyCall m stored c) calls := rfl

theorem applyCall_statusAction (m : Env) (stored : User) (a : Call)
    (h : a.isStatusAction = true) : applyCall m stored a = stored := by
  cases a <;> simp_all [Call.isStatusAction, applyCall]

theorem applyCall_activeEvents_failed (m : Env) (stored : User) (id : String)
    (hs : List String) (h : m.StoreUserActiveEventsErr ≠ none) :
    applyCall m stored (Call.StoreUserActiveEvents id hs) = stored := by
  cases he : m.StoreUserActiveEventsErr
  · exact absurd he h
  · simp [applyCall, he]

/-- The record stored by `StoreUser` has the active events of the stored
record when the user object has them. -/
theorem applyCall_storeUser_activeEvents (m : Env) (stored u : User)
    (h : u.ActiveEvents = stored.ActiveEvents) :
    (applyCall m stored (Call.StoreUser u)).ActiveEvents = stored.ActiveEvents := by
  cases he : m.StoreUserErr <;> simp [applyCall, he, h]

/-- What a pass that goes for a status change does, by the outcome of the store
of the user and of the status action. -/
theorem setStatusFromCalendarView_attempt_calls (m : Env) (user : User) (status : Status)
    (events : List Event) (h : attemptsStatusChange user status events = true) :
    (setStatusFromCalendarView m user status events).user.ActiveEvents = user.ActiveEvents ∧
    ((m.StoreUserErr ≠ none ∧
        (setStatusFromCalendarView m user status events).calls =
          [Call.StoreUser (setStatusFromCalendarView m user status events).user] ∧
        (setStatusFromCalendarView m user status events).ret.err ≠ none ∧
        (setStatusFromCalendarView m user status events).ret.isStatusChanged = false) ∨
      (m.StoreUserErr = none ∧ ∃ a, a.isStatusAction = true ∧
        ((a.err m ≠ none ∧
            (setStatusFromCalendarView m user status events).calls =
              [Call.StoreUser (setStatusFromCalendarView m user status events).user, a] ∧
            (setStatusFromCalendarView m user status events).ret.err ≠ none ∧
            (setStatusFromCalendarView m user status events).ret.isStatusChanged = false) ∨
          (a.err m = none ∧
            (setStatusFromCalendarView m user status events).calls =
              [Call.StoreUser (setStatusFromCalendarView m user status events).user, a,
                Call.StoreUserActiveEvents user.MattermostUserID (remoteHashes events)] ∧
            (setStatusFromCalendarView m user status events).ret.isStatusChanged = true ∧
            ((setStatusFromCalendarView m user status events).ret.err = none ↔
              m.StoreUserActiveEventsErr = none))))) := by
  obtain ⟨hu, h1, h2⟩ := setStatusFromCalendarView_attempt m user status events h
  obtain ⟨s1, -, -, s4⟩ := setStatusOrAskUser_shape m user status events events.isEmpty
  rw [hu]
  refine ⟨s1, ?_⟩
  rcases s4 with ⟨e1, e2, e3⟩ | ⟨e1, a, ha, e2, e3⟩
  · left
    obtain ⟨err, herr⟩ := Option.ne_none_iff_exists'.mp e1
    obtain ⟨c1, c2, c3⟩ := h1 err (by rw [e2, herr])
    exact ⟨e1, by rw [c1, e3], c2, c3⟩
  · right
    refine ⟨e1, a, ha, ?_⟩
    cases hae : a.err m with
    | none =>
      right
      obtain ⟨c1, c2, c3⟩ := h2 (by rw [e2, hae])
      exact ⟨rfl, by rw [c1, e3]; rfl, c2, c3⟩
    | some err =>
      left
      obtain ⟨c1, c2, c3⟩ := h1 err (by rw [e2, hae])
      exact ⟨by simp, by rw [c1, e3], c2, c3⟩

/-- C13. In every pass of `setStatusFromCalendarView` that attempts a status
action (a status update or a confirmation DM) the active events are written
only after that action and only when it succeeded: when the action fails the
pass ends with it, returns an error, and the stored active events are the ones
from before the pass; when the store of the user fails no status action and no
write of the active events follows and the stored record is the one from before
the pass. A status action is attempted exactly when the pass goes for a status
change and the store of the user succeeds. -/
theorem setStatusFromCalendarView_activeEvents_after_action (m : Env) (user : User)
    (status : Status) (events : List Event) :
    (∀ a ∈ (setStatusFromCalendarView m user status events).calls, a.isStatusAction = true →
      (a.err m = none →
        (setStatusFromCalendarView m user status events).calls =
          [Call.StoreUser (setStatusFromCalendarView m user status events).user, a,
            Call.StoreUserActiveEvents user.MattermostUserID (remoteHashes events)]) ∧
      (a.err m ≠ none →
        (setStatusFromCalendarView m user status events).calls =
          [Call.StoreUser (setStatusFromCalendarView m user status events).user, a] ∧
        (setStatusFromCalendarView m user status events).ret.err ≠ none ∧
        (persisted m user (setStatusFromCalendarView m user status events).calls).ActiveEvents
          = user.ActiveEvents)) ∧
    (attemptsStatusChange user status events = true → m.StoreUserErr ≠ none →
      (setStatusFromCalendarView m user status events).calls =
        [Call.StoreUser (setStatusFromCalendarView m user status events).user] ∧
      (setStatusFromCalendarView m user status events).ret.err ≠ none ∧
      persisted m user (setStatusFromCalendarView m user status events).calls = user) ∧
    ((∃ a ∈ (setStatusFromCalendarView m user status events).calls, a.isStatusAction = true) ↔
      (attemptsStatusChange user status events = true ∧ m.StoreUserErr = none)) := by
  cases hatt : attemptsStatusChange user status events
  · obtain ⟨-, -, hsh⟩ := setStatusFromCalendarView_no_attempt m user status events hatt
    have hno : ∀ a ∈ (setStatusFromCalendarView m user status events).calls,
        a.isStatusAction = false := by
      rcases hsh with h | ⟨-, hs, h | h⟩ <;> rw [h] <;> simp [Call.isStatusAction]
    refine ⟨?_, by simp, ?_⟩
    · intro a ha hact
      rw [hno a ha] at hact
      exact absurd hact (by simp)
    · constructor
      · rintro ⟨a, ha, hact⟩
        rw [hno a ha] at hact
        exact absurd hact (by simp)
      · rintro ⟨h, -⟩
        exact absurd h (by simp)
  · obtain ⟨hae, hsh⟩ := setStatusFromCalendarView_attempt_calls m user status events hatt
    rcases hsh with ⟨e1, c1, c2, -⟩ | ⟨e1, a0, ha0, ⟨f1, c1, c2, -⟩ | ⟨f1, c1, -, -⟩⟩
    · refine ⟨?_, ?_, ?_⟩
      · intro a ha hact
        rw [c1] at ha
        simp only [List.mem_singleton] at ha
        rw [ha] at hact
        simp [Call.isStatusAction] at hact
      · intro _ _
        refine ⟨c1, c2, ?_⟩
        rw [c1]
        cases he : m.StoreUserErr
        · exact absurd he e1
        · simp [persisted, applyCall, he]
      · constructor
        · rintro ⟨a, ha, hact⟩
          rw [c1] at ha
          simp only [List.mem_singleton] at ha
          rw [ha] at hact
          simp [Call.isStatusAction] at hact
        · rintro ⟨-, h⟩
          exact absurd h e1
    · have hmem : ∀ a ∈ (setStatusFromCalendarView m user status events).calls,
          a.isStatusAction = true → a = a0 := by
        intro a ha hact
        rw [c1] at ha
        rcases List.mem_cons.mp ha with h | h
        · rw [h] at hact; simp [Call.isStatusAction] at hact
        · simpa using h
      refine ⟨?_, fun _ h => absurd e1 h, ?_⟩
      · intro a ha hact
        have := hmem a ha hact
        subst this
        refine ⟨fun h => absurd h f1, fun _ => ⟨c1, c2, ?_⟩⟩
        rw [c1, persisted_cons, persisted_cons, persisted_nil, applyCall_statusAction _ _ _ hact,
          applyCall_storeUser_activeEvents _ _ _ hae]
      · exact ⟨fun _ => ⟨rfl, e1⟩, fun _ => ⟨a0, by rw [c1]; simp, ha0⟩⟩
    · have hmem : ∀ a ∈ (setStatusFromCalendarView m user status events).calls,
          a.isStatusAction = true → a = a0 := by
        intro a ha hact
        rw [c1] at ha
        rcases List.mem_cons.mp ha with h | h
        · rw [h] at hact; simp [Call.isStatusAction] at hact
        · rcases List.mem_cons.mp h with h | h
          · exact h
          · simp only [List.mem_singleton] at h
            rw [h] at hact; simp [Call.isStatusAction] at hact
      refine ⟨?_, fun _ h => absurd e1 h, ?_⟩
      · intro a ha hact
        have := hmem a ha hact
        subst this
        exact ⟨fun _ => c1, fun h => absurd f1 h⟩
      · exact ⟨fun _ => ⟨rfl, e1⟩, fun _ => ⟨a0, by rw [c1]; simp, ha0⟩⟩

/-- C14, as stated, fails: the user goes busy without confirmation, the store
of the user and the status update succeed, the write of the active events
fails. The pass returns an error, but the record stored earlier in the pass
stays: the stored `LastStatus` is no longer the one from before the pass. -/
theorem setStatusFromCalendarView_failed_write_counterexample :
    (setStatusFromCalendarView exampleEnvActiveEventsFail
        (exampleUser DNDStatusOption false [] "") ⟨StatusOnline, true⟩
        [exampleEvent "m1" tenOClock (tenOClock + 30 * Minute)]).ret.err ≠ none ∧
    (exampleUser DNDStatusOption false [] "").LastStatus = "" ∧
    (persisted exampleEnvActiveEventsFail (exampleUser DNDStatusOption false [] "")
        (setStatusFromCalendarView exampleEnvActiveEventsFail
          (exampleUser DNDStatusOption false [] "") ⟨StatusOnline, true⟩
          [exampleEvent "m1" tenOClock (tenOClock + 30 * Minute)]).calls).LastStatus
      = "online" ∧
    persisted exampleEnvActiveEventsFail (exampleUser DNDStatusOption false [] "")
        (setStatusFromCalendarView exampleEnvActiveEventsFail
          (exampleUser DNDStatusOption false [] "") ⟨StatusOnline, true⟩
          [exampleEvent "m1" tenOClock (tenOClock + 30 * Minute)]).calls
      ≠ exampleUser DNDStatusOption false [] "" := by
  decide

/-- C14, amended. When the store of the user fails in a pass that goes for a
status change, the pass returns an error, makes no further call and leaves the
stored record as it was before the pass. When the write of the active events
fails, the pass returns an error, the write is its last call and the stored
active events are the ones from before the pass; the user stored earlier in the
pass and a status action already made stay. -/
theorem setStatusFromCalendarView_write_failure (m : Env) (user : User) (status : Status)
    (events : List Event) :
    (attemptsStatusChange user status events = true → m.StoreUserErr ≠ none →
      (setStatusFromCalendarView m user status events).ret.err ≠ none ∧
      (setStatusFromCalendarView m user status events).calls =
        [Call.StoreUser (setStatusFromCalendarView m user status events).user] ∧
      persisted m user (setStatusFromCalendarView m user status events).calls = user) ∧
    (∀ c ∈ (setStatusFromCalendarView m user status events).calls,
      c.isStoreUserActiveEvents = true → m.StoreUserActiveEventsErr ≠ none →
        (setStatusFromCalendarView m user status events).ret.err ≠ none ∧
        (setStatusFromCalendarView m user status events).calls.getLast? = some c ∧
        (persisted m user (setStatusFromCalendarView m user status events).calls).ActiveEvents
          = user.ActiveEvents) := by
  cases hatt : attemptsStatusChange user status events
  · obtain ⟨hae, -, hsh⟩ := setStatusFromCalendarView_no_attempt m user status events hatt
    refine ⟨by simp, ?_⟩
    intro c hc hw hf
    rcases hsh with h | ⟨hiff, hs, h | h⟩
    · rw [h] at hc; simp at hc
    · rw [h] at hc
      simp only [List.mem_singleton] at hc
      subst hc
      refine ⟨fun he => hf (hiff.mp he), by rw [h]; rfl, ?_⟩
      rw [h, persisted_cons, persisted_nil, applyCall_activeEvents_failed _ _ _ _ hf]
    · rw [h] at hc
      rcases List.mem_cons.mp hc with hc | hc
      · rw [hc] at hw; simp [Call.isStoreUserActiveEvents] at hw
      · simp only [List.mem_singleton] at hc
        subst hc
        refine ⟨fun he => hf (hiff.mp he), by rw [h]; rfl, ?_⟩
        rw [h, persisted_cons, persisted_cons, persisted_nil,
          applyCall_activeEvents_failed _ _ _ _ hf,
          applyCall_storeUser_activeEvents _ _ _ hae]
  · obtain ⟨hae, hsh⟩ := setStatusFromCalendarView_attempt_calls m user status events hatt
    rcases hsh with ⟨e1, c1, c2, -⟩ | ⟨e1, a0, ha0, ⟨f1, c1, c2, -⟩ | ⟨f1, c1, -, hiff⟩⟩
    · refine ⟨fun _ _ => ⟨c2, c1, ?_⟩, ?_⟩
      · rw [c1]
        cases he : m.StoreUserErr
        · exact absurd he e1
        · simp [persisted, applyCall, he]
      · intro c hc hw hf
        rw [c1] at hc
        simp only [List.mem_singleton] at hc
        rw [hc] at hw; simp [Call.isStoreUserActiveEvents] at hw
    · refine ⟨fun _ h => absurd e1 h, ?_⟩
      intro c hc hw hf
      rw [c1] at hc
      rcases List.mem_cons.mp hc with hc | hc
      · rw [hc] at hw; simp [Call.isStoreUserActiveEvents] at hw
      · simp only [List.mem_singleton] at hc
        subst hc
        cases c <;> simp_all [Call.isStoreUserActiveEvents, Call.isStatusAction]
    · refine ⟨fun _ h => absurd e1 h, ?_⟩
      intro c hc hw hf
      rw [c1] at hc
      rcases List.mem_cons.mp hc with hc | hc
      · rw [hc] at hw; simp [Call.isStoreUserActiveEvents] at hw
      · rcases List.mem_cons.mp hc with hc | hc
        · subst hc
          cases c <;> simp_all [Call.isStoreUserActiveEvents, Call.isStatusAction]
        · simp only [List.mem_singleton] at hc
          subst hc
          refine ⟨fun he => hf (hiff.mp he), by rw [c1]; rfl, ?_⟩
          rw [c1, persisted_cons, persisted_cons, persisted_cons, persisted_nil,
            applyCall_activeEvents_failed _ _ _ _ hf, applyCall_statusAction _ _ _ ha0,
            applyCall_storeUser_activeEvents _ _ _ hae]

/-! ## Two passes in a row -/

theorem newEventExists_self (hashes : List String) : newEventExists hashes hashes = false := by
  rw [newEventExists_eq_false]
  exact fun h hh => hh

theorem beq_busyStatusOf_offline (user : User) :
    (busyStatusOf user == StatusOffline) = false := by
  simpa using busyStatusOf_ne_offline user

theorem busyStatusOf_congr (u v : User) (h : u.Settings = v.Settings) :
    busyStatusOf u = busyStatusOf v := by
  simp [busyStatusOf, h]

theorem isConfigured_congr (u v : User) (h : u.Settings = v.Settings) :
    u.IsConfiguredForStatusUpdates = v.IsConfiguredForStatusUpdates := by
  simp [User.IsConfiguredForStatusUpdates, h]

theorem remoteHashes_nil : remoteHashes [] = [] := rfl

/-- The no-change path: no new fingerprint among the current events. -/
theorem setStatusFromCalendarView_no_change (m : Env) (user : User) (status : Status)
    (events : List Event)
    (hcfg : user.IsConfiguredForStatusUpdates = true)
    (hg : (status.Status == StatusOffline && !user.Settings.GetConfirmation) = false)
    (hact : user.ActiveEvents ≠ [])
    (hev : events ≠ [])
    (hsub : ∀ h ∈ remoteHashes events, h ∈ user.ActiveEvents) :
    (setStatusFromCalendarView m user status events).calls = [] ∧
    (setStatusFromCalendarView m user status events).ret =
      ⟨"활성 이벤트에 변경 사항이 없습니다. 총 이벤트 수: " ++ toString events.length, false, none⟩ := by
  have hlen : user.ActiveEvents.length ≠ 0 := by simpa using hact
  have hlen2 : events.length ≠ 0 := by simpa using hev
  have hn := (newEventExists_eq_false _ _).mpr hsub
  simp [setStatusFromCalendarView, hcfg, hg, hlen, hlen2, hn, hact, hev]

/-- The calls of `setStatusOrAskUser` when the store of the user succeeds. -/
theorem setStatusOrAskUser_calls_ok (m : Env) (user : User) (status : Status)
    (events : List Event) (isFree : Bool) (h1 : m.StoreUserErr = none) :
    (setStatusOrAskUser m user status events isFree).calls =
      [Call.StoreUser (setStatusOrAskUser m user status events isFree).user,
        if user.Settings.GetConfirmation then
          Call.DMWithAttachments user.MattermostUserID events
            (if isFree then (if user.LastStatus ≠ "" then user.LastStatus else StatusOnline)
              else busyStatusOf user)
            (m.PluginURLPath ++ m.PathPostAction ++ m.PathConfirmStatusChange)
        else
          Call.UpdateMattermostUserStatus user.MattermostUserID
            (if isFree then (if user.LastStatus ≠ "" then user.LastStatus else StatusOnline)
              else busyStatusOf user)] := by
  cases hc : user.Settings.GetConfirmation <;> cases isFree <;>
    by_cases hl : user.LastStatus = "" <;>
    simp [setStatusOrAskUser, h1, hc, hl, busyStatusOf]

/-- A status update is called only by a pass that goes for a status change for
a user who requires no confirmation. -/
theorem setStatusFromCalendarView_update_mem (m : Env) (user : User) (status : Status)
    (events : List Event) (id s : String)
    (h : Call.UpdateMattermostUserStatus id s ∈ (setStatusFromCalendarView m user status events).calls) :
    attemptsStatusChange user status events = true ∧ user.Settings.GetConfirmation = false := by
  cases hatt : attemptsStatusChange user status events
  · obtain ⟨-, -, hsh⟩ := setStatusFromCalendarView_no_attempt m user status events hatt
    rcases hsh with h' | ⟨-, hs, h' | h'⟩ <;> rw [h'] at h <;> simp at h
  · refine ⟨rfl, ?_⟩
    obtain ⟨-, h1, h2⟩ := setStatusFromCalendarView_attempt m user status events hatt
    have hin : Call.UpdateMattermostUserStatus id s ∈
        (setStatusOrAskUser m user status events events.isEmpty).calls := by
      cases hr : (setStatusOrAskUser m user status events events.isEmpty).ret with
      | none =>
        rw [(h2 hr).1] at h
        rcases List.mem_append.mp h with h | h
        · exact h
        · simp at h
      | some err =>
        rw [(h1 err hr).1] at h
        exact h
    cases hs : m.StoreUserErr with
    | some e =>
      obtain ⟨-, -, -, s4⟩ := setStatusOrAskUser_shape m user status events events.isEmpty
      rcases s4 with ⟨-, -, e3⟩ | ⟨e1, -⟩
      · rw [e3] at hin; simp at hin
      · rw [hs] at e1; simp at e1
    | none =>
      rw [setStatusOrAskUser_calls_ok _ _ _ _ _ hs] at hin
      cases hc : user.Settings.GetConfirmation
      · rfl
      · simp [hc] at hin

theorem statusAfter_nil (m : Env) (manual : Bool) (status : Status) :
    statusAfter m manual status [] = status := rfl

/-- What a pass whose calls all succeed leaves behind when it does not go for a
status change. -/
theorem first_pass_no_attempt (m : Env) (manual : Bool) (user : User) (status : Status)
    (events : List Event) (h2 : m.StoreUserActiveEventsErr = none) (h1 : m.StoreUserErr = none)
    (h : attemptsStatusChange user status events = false) :
    (persisted m user (setStatusFromCalendarView m user status events).calls).Settings
      = user.Settings ∧
    statusAfter m manual status (setStatusFromCalendarView m user status events).calls
      = status ∧
    (∀ id hs, Call.StoreUserActiveEvents id hs ∈
        (setStatusFromCalendarView m user status events).calls → hs = remoteHashes events) ∧
    (((setStatusFromCalendarView m user status events).calls = [] ∧
        persisted m user (setStatusFromCalendarView m user status events).calls = user) ∨
      ((persisted m user (setStatusFromCalendarView m user status events).calls).ActiveEvents
          = remoteHashes events ∧
        (events = [] ∨ status.Status = busyStatusOf user))) := by
  unfold attemptsStatusChange at h
  cases hcfg : user.IsConfiguredForStatusUpdates
  · simp [setStatusFromCalendarView, hcfg, persisted, statusAfter]
  cases hg : (status.Status == StatusOffline && !user.Settings.GetConfirmation)
  swap
  · simp [setStatusFromCalendarView, hcfg, hg, persisted, statusAfter]
  simp only [hcfg, hg, Bool.true_and, Bool.not_false] at h
  simp only [setStatusFromCalendarView, hcfg, hg, Bool.not_true, Bool.false_eq_true, if_false]
  clear hg hcfg
  cases hb : (status.Status == busyStatusOf user) <;>
    cases hn : newEventExists (remoteHashes events) user.ActiveEvents <;>
    rcases hue : user.ActiveEvents with _ | ⟨x, xs⟩ <;>
    rcases hee : events with _ | ⟨y, ys⟩ <;>
    simp_all [bne, persisted, statusAfter, applyCall, remoteHashes_nil]

/-- What a pass whose calls all succeed leaves behind when it goes for a status
change. -/
theorem first_pass_attempt (m : Env) (manual : Bool) (user : User) (status : Status)
    (events : List Event)
    (hok : m.StoreUserErr = none ∧ m.StoreUserActiveEventsErr = none ∧
      m.UpdateMattermostUserStatusErr = none ∧ m.DMWithAttachmentsErr = none)
    (h : attemptsStatusChange user status events = true) :
    (persisted m user (setStatusFromCalendarView m user status events).calls).Settings
      = user.Settings ∧
    (∀ id hs, Call.StoreUserActiveEvents id hs ∈
        (setStatusFromCalendarView m user status events).calls → hs = remoteHashes events) ∧
    (persisted m user (setStatusFromCalendarView m user status events).calls).ActiveEvents
      = remoteHashes events ∧
    (persisted m user (setStatusFromCalendarView m user status events).calls).LastStatus
      = (setStatusOrAskUser m user status events events.isEmpty).user.LastStatus ∧
    (user.Settings.GetConfirmation = true →
      statusAfter m manual status (setStatusFromCalendarView m user status events).calls
        = status) ∧
    (user.Settings.GetConfirmation = false →
      statusAfter m manual status (setStatusFromCalendarView m user status events).calls
        = ⟨if events.isEmpty then (if user.LastStatus ≠ "" then user.LastStatus else StatusOnline)
            else busyStatusOf user, manual⟩) := by
  obtain ⟨h1, h2, h3, h4⟩ := hok
  obtain ⟨-, -, hc2⟩ := setStatusFromCalendarView_attempt m user status events h
  obtain ⟨-, -, s3, s4⟩ := setStatusOrAskUser_shape m user status events events.isEmpty
  have hcalls := setStatusOrAskUser_calls_ok m user status events events.isEmpty h1
  have hret : (setStatusOrAskUser m user status events events.isEmpty).ret = none := by
    rcases s4 with ⟨e1, -⟩ | ⟨-, a, ha, e2, e3⟩
    · exact absurd h1 e1
    · rw [e2]
      rw [hcalls] at e3
      simp only [List.cons.injEq, true_and, and_true] at e3
      rw [← e3]
      cases user.Settings.GetConfirmation <;> simp [Call.err, h3, h4]
  obtain ⟨c1, -, -⟩ := hc2 hret
  rw [c1, hcalls]
  cases hc : user.Settings.GetConfirmation <;>
    simp [persisted, statusAfter, applyCall, h1, h2, h3, s3]

theorem attemptsStatusChange_false_of (u : User) (st : Status) (events : List Event)
    (hae : u.ActiveEvents = remoteHashes events)
    (h : events = [] ∨ st.Status = busyStatusOf u) :
    attemptsStatusChange u st events = false := by
  unfold attemptsStatusChange
  rcases h with h | h
  · subst h
    simp [hae, remoteHashes_nil]
  · rcases events with _ | ⟨y, ys⟩
    · simp [hae, remoteHashes_nil]
    · simp [h]

/-- C15. A user configured for status updates, any status, any list of events,
every call succeeding: the pass that follows on the record and the status the
first pass left behind, with the same events, makes no status update; when the
first pass stored a non-empty list of fingerprints, the second pass makes no
call and reports no change with the number of events. -/
theorem setStatusFromCalendarView_second_pass (m : Env) (manual : Bool) (user : User)
    (status : Status) (events : List Event)
    (hcfg : user.IsConfiguredForStatusUpdates = true)
    (hok : m.StoreUserErr = none ∧ m.StoreUserActiveEventsErr = none ∧
      m.UpdateMattermostUserStatusErr = none ∧ m.DMWithAttachmentsErr = none) :
    (∀ c ∈ (secondPass m manual user status events).calls,
      ∀ id s, c ≠ Call.UpdateMattermostUserStatus id s) ∧
    (∀ id hs,
      Call.StoreUserActiveEvents id hs ∈ (setStatusFromCalendarView m user status events).calls →
      hs ≠ [] →
        (secondPass m manual user status events).calls = [] ∧
        (secondPass m manual user status events).ret =
          ⟨"활성 이벤트에 변경 사항이 없습니다. 총 이벤트 수: " ++ toString events.length, false, none⟩) := by
  have key : ∀ (u2 : User) (st2 : Status), u2.Settings = user.Settings →
      u2.ActiveEvents = remoteHashes events →
      (events = [] ∨ st2.Status = busyStatusOf user ∨ user.Settings.GetConfirmation = true) →
      (∀ c ∈ (setStatusFromCalendarView m u2 st2 events).calls,
        ∀ id s, c ≠ Call.UpdateMattermostUserStatus id s) ∧
      (remoteHashes events ≠ [] →
        (setStatusFromCalendarView m u2 st2 events).calls = [] ∧
        (setStatusFromCalendarView m u2 st2 events).ret =
          ⟨"활성 이벤트에 변경 사항이 없습니다. 총 이벤트 수: " ++ toString events.length, false, none⟩) := by
    intro u2 st2 hS hAE hcase
    have hb2 : busyStatusOf u2 = busyStatusOf user := busyStatusOf_congr _ _ hS
    constructor
    · intro c hc id s hcs
      subst hcs
      obtain ⟨ha, hconf⟩ := setStatusFromCalendarView_update_mem m u2 st2 events id s hc
      rw [hS] at hconf
      rcases hcase with h | h | h
      · rw [attemptsStatusChange_false_of u2 st2 events hAE (Or.inl h)] at ha
        exact absurd ha (by simp)
      · rw [attemptsStatusChange_false_of u2 st2 events hAE (Or.inr (by rw [hb2]; exact h))] at ha
        exact absurd ha (by simp)
      · rw [h] at hconf
        exact absurd hconf (by simp)
    · intro hne
      have hev : events ≠ [] := by
        intro h
        rw [h] at hne
        exact hne remoteHashes_nil
      apply setStatusFromCalendarView_no_change
      · rw [isConfigured_congr _ _ hS]; exact hcfg
      · rcases hcase with h | h | h
        · exact absurd h hev
        · rw [h, beq_busyStatusOf_offline]; rfl
        · rw [hS, h]; simp
      · rw [hAE]; exact hne
      · exact hev
      · rw [hAE]; exact fun h hh => hh
  unfold secondPass
  cases hatt : attemptsStatusChange user status events
  · obtain ⟨hS, hst, hhs, hcase⟩ :=
      first_pass_no_attempt m manual user status events hok.2.1 hok.1 hatt
    rw [hst]
    rcases hcase with ⟨hc0, hp⟩ | ⟨hAE, hev⟩
    · rw [hp]
      refine ⟨?_, ?_⟩
      · intro c hc
        rw [hc0] at hc
        simp at hc
      · intro id hs hmem
        rw [hc0] at hmem
        simp at hmem
    · obtain ⟨k1, k2⟩ := key _ status hS hAE
        (hev.elim Or.inl (fun h => Or.inr (Or.inl h)))
      refine ⟨k1, ?_⟩
      intro id hs hmem hne
      rw [hhs id hs hmem] at hne
      exact k2 hne
  · obtain ⟨hS, hhs, hAE, -, hst1, hst2⟩ :=
      first_pass_attempt m manual user status events hok hatt
    cases hc : user.Settings.GetConfirmation
    · rw [hst2 hc]
      have hcase : events = [] ∨
          (⟨if events.isEmpty then (if user.LastStatus ≠ "" then user.LastStatus
              else StatusOnline) else busyStatusOf user, manual⟩ : Status).Status
            = busyStatusOf user ∨ user.Settings.GetConfirmation = true := by
        rcases events with _ | ⟨y, ys⟩
        · left; rfl
        · right; left; simp
      obtain ⟨k1, k2⟩ := key _ _ hS hAE hcase
      refine ⟨k1, ?_⟩
      intro id hs hmem hne
      rw [hhs id hs hmem] at hne
      exact k2 hne
    · rw [hst1 hc]
      obtain ⟨k1, k2⟩ := key _ status hS hAE (Or.inr (Or.inr hc))
      refine ⟨k1, ?_⟩
      intro id hs hmem hne
      rw [hhs id hs hmem] at hne
      exact k2 hne

/-- Witness of C15: a user on do-not-disturb mode, online by hand, and one
meeting at 10:00; the first pass sets the busy status and stores one
fingerprint, the second pass makes no status update. -/
theorem setStatusFromCalendarView_second_pass_witness :
    (exampleUser DNDStatusOption false [] "").IsConfiguredForStatusUpdates = true ∧
    (exampleEnv.StoreUserErr = none ∧ exampleEnv.StoreUserActiveEventsErr = none ∧
      exampleEnv.UpdateMattermostUserStatusErr = none ∧ exampleEnv.DMWithAttachmentsErr = none) ∧
    Call.StoreUserActiveEvents "u1" ["m1 2024-01-01T10:00:00Z"] ∈
      (setStatusFromCalendarView exampleEnv (exampleUser DNDStatusOption false [] "")
        ⟨StatusOnline, true⟩ [exampleEvent "m1" tenOClock (tenOClock + 30 * Minute)]).calls ∧
    ∀ c ∈ (secondPass exampleEnv false (exampleUser DNDStatusOption false [] "")
        ⟨StatusOnline, true⟩ [exampleEvent "m1" tenOClock (tenOClock + 30 * Minute)]).calls,
      ∀ id s, c ≠ Call.UpdateMattermostUserStatus id s :=
  ⟨by decide, by decide, by decide,
    (setStatusFromCalendarView_second_pass exampleEnv false
      (exampleUser DNDStatusOption false [] "") ⟨StatusOnline, true⟩
      [exampleEvent "m1" tenOClock (tenOClock + 30 * Minute)] (by decide) (by decide)).1⟩

/-! ## Restoring the status from before the meeting -/

theorem setStatusOrAskUser_busy_user (m : Env) (user : User) (status : Status)
    (events : List Event) :
    (setStatusOrAskUser m user status events false).user =
      if user.Settings.GetConfirmation then user
      else { user with LastStatus := if status.Manual then status.Status else "" } := by
  cases hc : user.Settings.GetConfirmation <;> cases hs : m.StoreUserErr <;>
    simp [setStatusOrAskUser, hc, hs]

theorem setStatusOrAskUser_free_user (m : Env) (user : User) (status : Status)
    (events : List Event) :
    (setStatusOrAskUser m user status events true).user = { user with LastStatus := "" } := by
  have hu : user.LastStatus = "" → ({ user with LastStatus := "" } : User) = user := by
    intro h; cases user; simp_all
  cases hc : user.Settings.GetConfirmation <;> cases hs : m.StoreUserErr <;>
    by_cases hl : user.LastStatus = "" <;>
    simp [setStatusOrAskUser, hc, hs, hl, hu]

/-- The free transition: the calls of a pass with no events for a user with
active events whose status is the busy status, the store of the user and the
status action succeeding. -/
theorem setStatusFromCalendarView_free_calls (m : Env) (u : User) (st : Status)
    (hcfg : u.IsConfiguredForStatusUpdates = true)
    (hact : u.ActiveEvents ≠ [])
    (hb : st.Status = busyStatusOf u)
    (h1 : m.StoreUserErr = none)
    (h3 : m.UpdateMattermostUserStatusErr = none) (h4 : m.DMWithAttachmentsErr = none) :
    (setStatusFromCalendarView m u st []).calls =
      [Call.StoreUser { u with LastStatus := "" },
        if u.Settings.GetConfirmation then
          Call.DMWithAttachments u.MattermostUserID []
            (if u.LastStatus ≠ "" then u.LastStatus else StatusOnline)
            (m.PluginURLPath ++ m.PathPostAction ++ m.PathConfirmStatusChange)
        else
          Call.UpdateMattermostUserStatus u.MattermostUserID
            (if u.LastStatus ≠ "" then u.LastStatus else StatusOnline),
        Call.StoreUserActiveEvents u.MattermostUserID []] := by
  have hatt : attemptsStatusChange u st [] = true := by
    have hg : (st.Status == StatusOffline) = false := by
      rw [hb]; exact beq_busyStatusOf_offline u
    have hne : u.ActiveEvents.isEmpty = false := by simpa using hact
    have hg2 := busyStatusOf_ne_offline u
    simp [attemptsStatusChange, hcfg, hb, hg2, hne]
  obtain ⟨-, -, hc2⟩ := setStatusFromCalendarView_attempt m u st [] hatt
  have hcalls := setStatusOrAskUser_calls_ok m u st [] true h1
  obtain ⟨-, -, -, s4⟩ := setStatusOrAskUser_shape m u st [] true
  have hret : (setStatusOrAskUser m u st [] true).ret = none := by
    rcases s4 with ⟨e1, -⟩ | ⟨-, a, ha, e2, e3⟩
    · exact absurd h1 e1
    · rw [e2]
      rw [hcalls] at e3
      simp only [List.cons.injEq, true_and, and_true] at e3
      rw [← e3]
      cases u.Settings.GetConfirmation <;> simp [Call.err, h3, h4]
  simp only [List.isEmpty_nil] at hc2
  rw [(hc2 hret).1, hcalls, setStatusOrAskUser_free_user]
  simp [remoteHashes_nil]

/-- C16, as stated, fails. First, a user who requires a confirmation and has a
last status left in the record: the busy pass leaves it there and the free
transition asks for that status, not for online. Second, a user who requires no
confirmation and a list whose only event is cancelled: the busy pass sets the
busy status and stores no fingerprint, and the pass with no events that follows
makes no call, so the status from before is not set back. -/
theorem freePassAfter_counterexample :
    (freePassAfter exampleEnv true (exampleUser DNDStatusOption true [] "away")
        ⟨StatusOnline, true⟩ [exampleEvent "m1" tenOClock (tenOClock + 30 * Minute)]).calls =
      [Call.StoreUser (exampleUser DNDStatusOption true ["m1 2024-01-01T10:00:00Z"] ""),
        Call.DMWithAttachments "u1" [] "away" "/plugins/calendar/action/confirm",
        Call.StoreUserActiveEvents "u1" []] ∧
    (setStatusFromCalendarView exampleEnv (exampleUser DNDStatusOption false [] "")
        ⟨StatusAway, true⟩
        [{ exampleEvent "m1" tenOClock (tenOClock + 30 * Minute) with IsCancelled := true }]).calls =
      [Call.StoreUser (exampleUser DNDStatusOption false [] "away"),
        Call.UpdateMattermostUserStatus "u1" "dnd",
        Call.StoreUserActiveEvents "u1" []] ∧
    (freePassAfter exampleEnv true (exampleUser DNDStatusOption false [] "")
        ⟨StatusAway, true⟩
        [{ exampleEvent "m1" tenOClock (tenOClock + 30 * Minute) with IsCancelled := true }]).calls
      = [] := by
  decide

/-- C16, amended. A user configured for status updates, with no active events,
whose status is neither offline nor the busy status, a list of events of which
at least one is not cancelled, every call succeeding. Without confirmation
required, when the status was set by hand and is not empty: the first pass
leaves the busy status behind, and the pass with no events that follows at the
busy status sets the status back to exactly the status from before. With
confirmation required: the first pass leaves the stored last status as it was,
and the free transition asks for that last status when there is one and for
online otherwise. -/
theorem freePassAfter_restores (m : Env) (manual : Bool) (user : User) (status : Status)
    (events : List Event)
    (hcfg : user.IsConfiguredForStatusUpdates = true)
    (hact : user.ActiveEvents = [])
    (hoff : status.Status ≠ StatusOffline)
    (hbusy : status.Status ≠ busyStatusOf user)
    (hne : remoteHashes events ≠ [])
    (hok : m.StoreUserErr = none ∧ m.StoreUserActiveEventsErr = none ∧
      m.UpdateMattermostUserStatusErr = none ∧ m.DMWithAttachmentsErr = none) :
    (user.Settings.GetConfirmation = false → status.Manual = true → status.Status ≠ "" →
      statusAfter m manual status (setStatusFromCalendarView m user status events).calls
        = ⟨busyStatusOf user, manual⟩ ∧
      (freePassAfter m manual user status events).calls =
        [Call.StoreUser
            { user with ActiveEvents := remoteHashes events, LastStatus := "" },
          Call.UpdateMattermostUserStatus user.MattermostUserID status.Status,
          Call.StoreUserActiveEvents user.MattermostUserID []]) ∧
    (user.Settings.GetConfirmation = true →
      (persisted m user (setStatusFromCalendarView m user status events).calls).LastStatus
        = user.LastStatus ∧
      (freePassAfter m manual user status events).calls =
        [Call.StoreUser
            { user with ActiveEvents := remoteHashes events, LastStatus := "" },
          Call.DMWithAttachments user.MattermostUserID []
            (if user.LastStatus ≠ "" then user.LastStatus else StatusOnline)
            (m.PluginURLPath ++ m.PathPostAction ++ m.PathConfirmStatusChange),
          Call.StoreUserActiveEvents user.MattermostUserID []]) := by
  have hev : events ≠ [] := by
    intro h; rw [h] at hne; exact hne remoteHashes_nil
  have hemp : events.isEmpty = false := by simpa using hev
  have hatt : attemptsStatusChange user status events = true := by
    have h1 : (status.Status == StatusOffline) = false := by simpa using hoff
    have h2 : (status.Status == busyStatusOf user) = false := by simpa using hbusy
    simp [attemptsStatusChange, hcfg, h1, h2, hact, hemp, bne]
  obtain ⟨hS, -, hAE, hL, hst1, hst2⟩ := first_pass_attempt m manual user status events hok hatt
  rw [hemp, setStatusOrAskUser_busy_user] at hL
  have hid : (persisted m user (setStatusFromCalendarView m user status events).calls).MattermostUserID
      = user.MattermostUserID ∧
      (persisted m user (setStatusFromCalendarView m user status events).calls).RemoteID
        = user.RemoteID ∧
      (persisted m user (setStatusFromCalendarView m user status events).calls).IsCustomStatusSet
        = user.IsCustomStatusSet := by
    obtain ⟨-, -, hc2⟩ := setStatusFromCalendarView_attempt m user status events hatt
    obtain ⟨-, -, -, s4⟩ := setStatusOrAskUser_shape m user status events events.isEmpty
    have hcalls := setStatusOrAskUser_calls_ok m user status events events.isEmpty hok.1
    have hret : (setStatusOrAskUser m user status events events.isEmpty).ret = none := by
      rcases s4 with ⟨e1, -⟩ | ⟨-, a, ha, e2, e3⟩
      · exact absurd hok.1 e1
      · rw [e2]
        rw [hcalls] at e3
        simp only [List.cons.injEq, true_and, and_true] at e3
        rw [← e3]
        cases user.Settings.GetConfirmation <;> simp [Call.err, hok.2.2.1, hok.2.2.2]
    rw [(hc2 hret).1, hcalls, hemp, setStatusOrAskUser_busy_user]
    cases hc : user.Settings.GetConfirmation <;>
      simp [persisted, applyCall, hok.1, hok.2.1]
  have hfree := setStatusFromCalendarView_free_calls m
    (persisted m user (setStatusFromCalendarView m user status events).calls)
    ⟨busyStatusOf user, manual⟩
    (by rw [isConfigured_congr _ _ hS]; exact hcfg)
    (by rw [hAE]; exact hne)
    (by rw [busyStatusOf_congr _ _ hS])
    hok.1 hok.2.2.1 hok.2.2.2
  have hrec : ∀ l, ({ persisted m user (setStatusFromCalendarView m user status events).calls
      with LastStatus := l } : User)
      = { user with ActiveEvents := remoteHashes events, LastStatus := l } := by
    intro l
    rw [User.mk.injEq]
    exact ⟨hid.1, hid.2.1, hS, hAE, rfl, hid.2.2⟩
  unfold freePassAfter
  rw [hfree, hrec, hS, hid.1, hL]
  constructor
  · intro hc hman hnem
    refine ⟨by rw [hst2 hc, hemp]; simp, ?_⟩
    simp [hc, hman, hnem]
  · intro hc
    simp [hc]

/-- Witness of C16: a user on do-not-disturb mode without confirmation, away by
hand, one meeting at 10:00: the pass with no events that follows sets the
status back to away. -/
theorem freePassAfter_restores_witness :
    (exampleUser DNDStatusOption false [] "").IsConfiguredForStatusUpdates = true ∧
    remoteHashes [exampleEvent "m1" tenOClock (tenOClock + 30 * Minute)] ≠ [] ∧
    (freePassAfter exampleEnv false (exampleUser DNDStatusOption false [] "")
        ⟨StatusAway, true⟩ [exampleEvent "m1" tenOClock (tenOClock + 30 * Minute)]).calls =
      [Call.StoreUser
          { exampleUser DNDStatusOption false [] "" with
            ActiveEvents := remoteHashes [exampleEvent "m1" tenOClock (tenOClock + 30 * Minute)],
            LastStatus := "" },
        Call.UpdateMattermostUserStatus "u1" StatusAway,
        Call.StoreUserActiveEvents "u1" []] :=
  ⟨by decide, by decide,
    ((freePassAfter_restores exampleEnv false (exampleUser DNDStatusOption false [] "")
      ⟨StatusAway, true⟩ [exampleEvent "m1" tenOClock (tenOClock + 30 * Minute)]
      (by decide) (by decide) (by decide) (by decide) (by decide) (by decide)).1
        (by decide) (by decide) (by decide)).2⟩

/-! ## Properties of the custom-status decision engine -/

/-- C17. A user configured for custom-status updates whose flag
`IsCustomStatusSet` is true, and no event: the pass calls the removal of the
custom status and then stores the flag as false, whatever the removal returns;
the status is reported as unchanged. -/
theorem setCustomStatusFromCalendarView_clears (m : CustomStatusEnv) (user : User)
    (hcfg : user.IsConfiguredForCustomStatusUpdates = true)
    (hset : user.IsCustomStatusSet = true) :
    (setCustomStatusFromCalendarView m user []).calls =
      [CustomStatusCall.RemoveMattermostUserCustomStatus user.MattermostUserID,
        CustomStatusCall.StoreUserCustomStatusUpdates user.MattermostUserID false] ∧
    (setCustomStatusFromCalendarView m user []).ret.isStatusChanged = false ∧
    (setCustomStatusFromCalendarView m user []).ret.err = m.StoreUserCustomStatusUpdatesErr := by
  cases hs : m.StoreUserCustomStatusUpdatesErr <;>
    simp [setCustomStatusFromCalendarView, hcfg, hset, hs]

/-- Witness of C17. -/
theorem setCustomStatusFromCalendarView_clears_witness :
    (exampleCustomUser true).IsConfiguredForCustomStatusUpdates = true ∧
    (setCustomStatusFromCalendarView (exampleCustomEnv none) (exampleCustomUser true) []).calls =
      [CustomStatusCall.RemoveMattermostUserCustomStatus "u1",
        CustomStatusCall.StoreUserCustomStatusUpdates "u1" false] :=
  ⟨by decide,
    (setCustomStatusFromCalendarView_clears (exampleCustomEnv none) (exampleCustomUser true)
      (by decide) (by decide)).1⟩

/-- C18. A user whose flag `IsCustomStatusSet` is false and who has a custom
status of their own, any list of events: the pass makes no call that updates or
removes the custom status and no call that writes the flag (its only call, if
any, reads the user), and reports the status as unchanged. -/
theorem setCustomStatusFromCalendarView_keeps_own (m : CustomStatusEnv) (user : User)
    (events : List Event)
    (hset : user.IsCustomStatusSet = false)
    (hown : m.currentCustomStatus ≠ none) :
    (∀ c ∈ (setCustomStatusFromCalendarView m user events).calls,
      c = CustomStatusCall.GetMattermostUser user.MattermostUserID) ∧
    (events = [] → (setCustomStatusFromCalendarView m user events).calls = []) ∧
    (setCustomStatusFromCalendarView m user events).ret.isStatusChanged = false := by
  have hs : m.currentCustomStatus.isSome = true := by
    cases h : m.currentCustomStatus
    · exact absurd h hown
    · rfl
  cases hcfg : user.IsConfiguredForCustomStatusUpdates <;>
    rcases events with _ | ⟨e, es⟩ <;>
    cases hg : m.GetMattermostUserErr <;>
    simp [setCustomStatusFromCalendarView, hcfg, hset, hs, hg]

/-- Witness of C18: the user has a lunch status of their own. -/
theorem setCustomStatusFromCalendarView_keeps_own_witness :
    (exampleCustomEnv (some ⟨"pizza", "lunch", ⟨0, 0⟩, ""⟩)).currentCustomStatus ≠ none ∧
    (setCustomStatusFromCalendarView (exampleCustomEnv (some ⟨"pizza", "lunch", ⟨0, 0⟩, ""⟩))
        (exampleCustomUser false)
        [exampleEvent "m1" tenOClock (tenOClock + 30 * Minute)]).calls =
      [CustomStatusCall.GetMattermostUser "u1"] ∧
    (setCustomStatusFromCalendarView (exampleCustomEnv (some ⟨"pizza", "lunch", ⟨0, 0⟩, ""⟩))
        (exampleCustomUser false)
        [exampleEvent "m1" tenOClock (tenOClock + 30 * Minute)]).ret.isStatusChanged = false :=
  ⟨by decide, by decide,
    (setCustomStatusFromCalendarView_keeps_own
      (exampleCustomEnv (some ⟨"pizza", "lunch", ⟨0, 0⟩, ""⟩)) (exampleCustomUser false)
      [exampleEvent "m1" tenOClock (tenOClock + 30 * Minute)] (by decide) (by decide)).2.2⟩

/-- C19. A user configured for custom-status updates, a non-empty list of
events, no custom status of the user or one set by the plugin, the read of the
user and the update succeeding: the pass sets the calendar custom status
(emoji `calendar`, the fixed text) that expires at the end of the first event,
then stores the flag as true, and reports the status as changed. -/
theorem setCustomStatusFromCalendarView_sets (m : CustomStatusEnv) (user : User)
    (first : Event) (rest : List Event)
    (hcfg : user.IsConfiguredForCustomStatusUpdates = true)
    (hfree : m.currentCustomStatus = none ∨ user.IsCustomStatusSet = true)
    (hok : m.GetMattermostUserErr = none ∧ m.UpdateMattermostUserCustomStatusErr = none) :
    (setCustomStatusFromCalendarView m user (first :: rest)).calls =
      [CustomStatusCall.GetMattermostUser user.MattermostUserID,
        CustomStatusCall.UpdateMattermostUserCustomStatus user.MattermostUserID
          { Emoji := "calendar", Text := "회의 중", ExpiresAt := first.End,
            Duration := "date_and_time" },
        CustomStatusCall.StoreUserCustomStatusUpdates user.MattermostUserID true] ∧
    (setCustomStatusFromCalendarView m user (first :: rest)).ret.isStatusChanged = true ∧
    (setCustomStatusFromCalendarView m user (first :: rest)).ret.err
      = m.StoreUserCustomStatusUpdatesErr := by
  obtain ⟨h1, h2⟩ := hok
  have hg : (m.currentCustomStatus.isSome && !user.IsCustomStatusSet) = false := by
    rcases hfree with h | h
    · simp [h]
    · simp [h]
  cases hs : m.StoreUserCustomStatusUpdatesErr <;>
    simp [setCustomStatusFromCalendarView, hcfg, hg, h1, h2, hs]

/-- Witness of C19: one meeting from 10:00 to 10:30. -/
theorem setCustomStatusFromCalendarView_sets_witness :
    (exampleCustomUser false).IsConfiguredForCustomStatusUpdates = true ∧
    (setCustomStatusFromCalendarView (exampleCustomEnv none) (exampleCustomUser false)
        [exampleEvent "m1" tenOClock (tenOClock + 30 * Minute)]).ret.isStatusChanged = true ∧
    (setCustomStatusFromCalendarView (exampleCustomEnv none) (exampleCustomUser false)
        [exampleEvent "m1" tenOClock (tenOClock + 30 * Minute)]).calls =
      [CustomStatusCall.GetMattermostUser "u1",
        CustomStatusCall.UpdateMattermostUserCustomStatus "u1"
          ⟨"calendar", "회의 중", ⟨tenOClock + 30 * Minute, 0⟩, "date_and_time"⟩,
        CustomStatusCall.StoreUserCustomStatusUpdates "u1" true] :=
  ⟨by decide,
    (setCustomStatusFromCalendarView_sets (exampleCustomEnv none) (exampleCustomUser false)
      (exampleEvent "m1" tenOClock (tenOClock + 30 * Minute)) [] (by decide)
      (Or.inl (by decide)) (by decide)).2.1,
    by decide⟩

/-! ## Properties of the batch sync orchestrator -/

/-- The loop of `retrieveUsersToSync`: the users are the eligible users of the
index, in order; the failure counter grows by the number of failed loads and of
failed individual fetches; with `fetchIndividually` there is one view for each
user, without it no view is fetched in the loop. -/
theorem retrieve_foldl (b : BatchEnv) (fetchIndividually : Bool) (l : List UserShort)
    (acc : Retrieved) :
    (l.foldl (retrieveStep b fetchIndividually) acc).users =
      acc.users ++ l.filterMap (eligibleUser b fetchIndividually) ∧
    (l.foldl (retrieveStep b fetchIndividually) acc).failed =
      acc.failed + (l.filter (loadFails b)).length
        + (l.filter (fetchFails b fetchIndividually)).length ∧
    (l.foldl (retrieveStep b fetchIndividually) acc).calendarViews.length =
      acc.calendarViews.length +
        (if fetchIndividually then (l.filterMap (eligibleUser b fetchIndividually)).length
          else 0) := by
  induction l generalizing acc with
  | nil => simp
  | cons u l ih =>
    simp only [List.foldl_cons]
    obtain ⟨h1, h2, h3⟩ := ih (retrieveStep b fetchIndividually acc u)
    rw [h1, h2, h3]
    cases hl : b.LoadUser u.MattermostUserID with
    | error e =>
      simp [retrieveStep, List.filterMap_cons, List.filter_cons, eligibleUser, loadFails,
        fetchFails, hl]
      omega
    | ok user =>
      cases hn : needsSync user
      · simp [retrieveStep, List.filterMap_cons, List.filter_cons, eligibleUser, loadFails,
          fetchFails, hl, hn]
      · cases fetchIndividually
        · simp [retrieveStep, List.filterMap_cons, List.filter_cons, eligibleUser, loadFails,
            fetchFails, hl, hn]
        · cases hf : b.FilterCopyErr user.MattermostUserID
          · cases hg : b.GetCalendarEvents user
            · simp [retrieveStep, List.filterMap_cons, List.filter_cons, eligibleUser,
                loadFails, fetchFails, hl, hn, hf, hg]
              omega
            · simp [retrieveStep, List.filterMap_cons, List.filter_cons, eligibleUser,
                loadFails, fetchFails, hl, hn, hf, hg]
              omega
          · simp [retrieveStep, List.filterMap_cons, List.filter_cons, eligibleUser,
              loadFails, fetchFails, hl, hn, hf]

/-- What `retrieveUsersToSync` returns: the eligible users of the index, the
summary with the failed loads and failed individual fetches added, and an error
exactly when no user is eligible, the batched fetch fails, or the batched fetch
returns no view. -/
theorem retrieveUsersToSync_spec (b : BatchEnv) (userIndex : List UserShort)
    (s : StatusSyncJobSummary) (fetchIndividually : Bool) :
    (retrieveUsersToSync b userIndex s fetchIndividually).users =
      userIndex.filterMap (eligibleUser b fetchIndividually) ∧
    (retrieveUsersToSync b userIndex s fetchIndividually).summary =
      { s with NumberOfUsersFailedStatusChanged :=
          s.NumberOfUsersFailedStatusChanged + (userIndex.filter (loadFails b)).length
            + (userIndex.filter (fetchFails b fetchIndividually)).length } ∧
    ((retrieveUsersToSync b userIndex s fetchIndividually).err ≠ none ↔
      userIndex.filterMap (eligibleUser b fetchIndividually) = [] ∨
      (fetchIndividually = false ∧
        ((∃ e, b.GetCalendarViews (userIndex.filterMap (eligibleUser b false)) = .error e) ∨
          b.GetCalendarViews (userIndex.filterMap (eligibleUser b false)) = .ok []))) := by
  obtain ⟨h1, h2, h3⟩ := retrieve_foldl b fetchIndividually userIndex
    ⟨s.NumberOfUsersFailedStatusChanged, [], []⟩
  simp only [List.nil_append, List.length_nil, Nat.zero_add] at h1 h2 h3
  by_cases he : userIndex.filterMap (eligibleUser b fetchIndividually) = []
  · simp [retrieveUsersToSync, h1, h2, he]
  · cases fetchIndividually
    · cases hg : b.GetCalendarViews (userIndex.filterMap (eligibleUser b false)) with
      | error e => simp [retrieveUsersToSync, h1, h2, he, hg]
      | ok views =>
        cases views with
        | nil => simp [retrieveUsersToSync, h1, h2, he, hg]
        | cons v vs => simp [retrieveUsersToSync, h1, h2, he, hg]
    · have hv : (userIndex.foldl (retrieveStep b true) ⟨s.NumberOfUsersFailedStatusChanged,
          [], []⟩).calendarViews ≠ [] := by
        intro h
        rw [h] at h3
        simp at h3
        exact he (List.length_eq_zero.mp h3.symm)
      simp [retrieveUsersToSync, h1, h2, he, hv]

/-- An error of `setUserStatuses` is exactly a failed lookup of the chat statuses
of the users to update, when there are such users. -/
theorem setUserStatuses_err_iff (b : BatchEnv) (users : List User)
    (calendarViews : List ViewCalendarResponse) :
    (setUserStatuses b users calendarViews).err ≠ none ↔
      toUpdate users ≠ [] ∧
        ∃ e, b.GetMattermostUserStatusesByIds
          ((toUpdate users).map (fun u => u.MattermostUserID)) = .error e := by
  by_cases ht : toUpdate users = []
  · simp [setUserStatuses, ht]
  · cases hs : b.GetMattermostUserStatusesByIds
        ((toUpdate users).map (fun u => u.MattermostUserID)) with
    | error e => simp [setUserStatuses, ht, hs]
    | ok statuses =>
      simp only [setUserStatuses, hs]
      split_ifs <;> simp_all

/-- A calendar view that carries an error, for a user that `setUserStatuses`
knows, adds one to the failure counter and changes nothing else. -/
theorem setUserStatusesStep_view_error (b : BatchEnv) (statusMap : List (String × Status))
    (acc : StatusLoop) (view : ViewCalendarResponse) (user : User)
    (hu : mapLookup acc.usersByRemoteID view.RemoteUserID = some user)
    (he : view.Error ≠ none) :
    setUserStatusesStep b statusMap acc view =
      { acc with numberOfUserErrorInStatusChange := acc.numberOfUserErrorInStatusChange + 1 } := by
  cases hv : view.Error with
  | none => exact absurd hv he
  | some e => simp [setUserStatusesStep, hu, hv]

/-- C20, counterexample: one user is eligible and one calendar view is returned,
yet `syncUsers` returns an error, because the lookup of the chat statuses
fails. -/
theorem syncUsers_status_lookup_counterexample :
    (retrieveUsersToSync (exampleBatchEnv (.error "status lookup failed"))
        [⟨"u1", "r1", ""⟩] ⟨0, 0, 1⟩ true).users.length = 1 ∧
    (retrieveUsersToSync (exampleBatchEnv (.error "status lookup failed"))
        [⟨"u1", "r1", ""⟩] ⟨0, 0, 1⟩ true).calendarViews.length = 1 ∧
    (retrieveUsersToSync (exampleBatchEnv (.error "status lookup failed"))
        [⟨"u1", "r1", ""⟩] ⟨0, 0, 1⟩ true).err = none ∧
    (syncUsers (exampleBatchEnv (.error "status lookup failed")) [⟨"u1", "r1", ""⟩] true).err =
      some ("사용자 상태를 설정하는 중 오류 발생: " ++
        "연결된 사용자의 Mattermost 사용자 상태를 가져오는 중 오류 발생: status lookup failed") := by
  decide

/-- C20, amended: `syncUsers` returns an error exactly when the index is not
empty and no user is eligible, or the batched fetch of the calendar views fails
or returns no view, or the lookup of the chat statuses of the users to update
fails. Whenever it returns no error, the summary counts every entry of the
index as processed, and its failure counter is the number of failed loads plus
the number of failed individual fetches plus the failures counted by
`setUserStatuses`. -/
theorem syncUsers_err_iff (b : BatchEnv) (userIndex : List UserShort)
    (fetchIndividually : Bool) :
    ((syncUsers b userIndex fetchIndividually).err ≠ none ↔
      userIndex ≠ [] ∧
        (userIndex.filterMap (eligibleUser b fetchIndividually) = [] ∨
          (fetchIndividually = false ∧
            ((∃ e, b.GetCalendarViews (userIndex.filterMap (eligibleUser b false)) =
                .error e) ∨
              b.GetCalendarViews (userIndex.filterMap (eligibleUser b false)) = .ok [])) ∨
          (toUpdate (userIndex.filterMap (eligibleUser b fetchIndividually)) ≠ [] ∧
            ∃ e, b.GetMattermostUserStatusesByIds
              ((toUpdate (userIndex.filterMap (eligibleUser b fetchIndividually))).map
                (fun u => u.MattermostUserID)) = .error e))) ∧
    ((syncUsers b userIndex fetchIndividually).err = none →
      (syncUsers b userIndex fetchIndividually).summary.NumberOfUsersProcessed =
        userIndex.length ∧
      (syncUsers b userIndex fetchIndividually).summary.NumberOfUsersFailedStatusChanged =
        (userIndex.filter (loadFails b)).length
          + (userIndex.filter (fetchFails b fetchIndividually)).length
          + (setUserStatuses b (userIndex.filterMap (eligibleUser b fetchIndividually))
              (retrieveUsersToSync b userIndex ⟨0, 0, userIndex.length⟩
                fetchIndividually).calendarViews).numberOfUserErrorInStatusChange) := by
  obtain ⟨h1, h2, h3⟩ := retrieveUsersToSync_spec b userIndex ⟨0, 0, userIndex.length⟩
    fetchIndividually
  have h4 := setUserStatuses_err_iff b (userIndex.filterMap (eligibleUser b fetchIndividually))
    (retrieveUsersToSync b userIndex ⟨0, 0, userIndex.length⟩ fetchIndividually).calendarViews
  by_cases hi : userIndex = []
  · subst hi
    simp [syncUsers, setUserStatuses, toUpdate]
  · have hlen : (userIndex.length == 0) = false := by
      cases userIndex with
      | nil => exact absurd rfl hi
      | cons a l => simp
    cases hr : (retrieveUsersToSync b userIndex ⟨0, 0, userIndex.length⟩
        fetchIndividually).err with
    | some err =>
      have h3a := h3.mp (by rw [hr]; simp)
      refine ⟨?_, ?_⟩
      · simp only [syncUsers, hlen, hr]
        constructor
        · intro _
          exact ⟨hi, by rcases h3a with h | h
                        · exact Or.inl h
                        · exact Or.inr (Or.inl h)⟩
        · intro _
          simp
      · simp [syncUsers, hlen, hr]
    | none =>
      have h3b : ¬ (userIndex.filterMap (eligibleUser b fetchIndividually) = [] ∨
          (fetchIndividually = false ∧
            ((∃ e, b.GetCalendarViews (userIndex.filterMap (eligibleUser b false)) =
                .error e) ∨
              b.GetCalendarViews (userIndex.filterMap (eligibleUser b false)) = .ok []))) := by
        intro h
        exact (h3.mpr h) hr
      cases hs : (setUserStatuses b (userIndex.filterMap (eligibleUser b fetchIndividually))
          (retrieveUsersToSync b userIndex ⟨0, 0, userIndex.length⟩
            fetchIndividually).calendarViews).err with
      | some err =>
        have h4a := h4.mp (by rw [hs]; simp)
        refine ⟨?_, ?_⟩
        · simp only [syncUsers, hlen, hr, h1, hs]
          constructor
          · intro _
            exact ⟨hi, Or.inr (Or.inr h4a)⟩
          · intro _
            simp
        · simp [syncUsers, hlen, hr, h1, hs]
      | none =>
        have h4b : ¬ (toUpdate (userIndex.filterMap (eligibleUser b fetchIndividually)) ≠ [] ∧
            ∃ e, b.GetMattermostUserStatusesByIds
              ((toUpdate (userIndex.filterMap (eligibleUser b fetchIndividually))).map
                (fun u => u.MattermostUserID)) = .error e) := by
          intro h
          exact (h4.mpr h) hs
        refine ⟨?_, ?_⟩
        · simp only [syncUsers, hlen, hr, h1, hs]
          constructor
          · intro h
            exact absurd rfl h
          · rintro ⟨_, h | h | h⟩
            · exact absurd (Or.inl h) h3b
            · exact absurd (Or.inr h) h3b
            · exact absurd h h4b
        · intro _
          simp [syncUsers, hlen, hr, h1, hs, h2]

/-- C20, amended, at a one-user index where every collaborator succeeds: no
error, one entry processed and no failure counted. -/
theorem syncUsers_err_iff_witness :
    (syncUsers (exampleBatchEnv (.ok [("u1", ⟨"online", false⟩)])) [⟨"u1", "r1", ""⟩]
        true).err = none ∧
    (syncUsers (exampleBatchEnv (.ok [("u1", ⟨"online", false⟩)])) [⟨"u1", "r1", ""⟩]
        true).summary.NumberOfUsersProcessed = 1 := by
  have h := (syncUsers_err_iff (exampleBatchEnv (.ok [("u1", ⟨"online", false⟩)]))
    [⟨"u1", "r1", ""⟩] true).2 (by decide)
  exact ⟨by decide, h.1⟩

/-! ## Coverage of the merged events -/

/-- C28, failing input: a meeting from 10:00 to 11:40 and a meeting from 10:10
to 10:20 inside it, sorted by start, each with start before end.
`getMergedEvents` merges them and takes the end of the second: the one output
event ends at 10:20 and does not cover the first meeting. -/
theorem getMergedEvents_contained_event :
    SortedByStart [exampleEvent "m1" tenOClock (tenOClock + 100 * Minute),
      exampleEvent "m2" (tenOClock + 10 * Minute) (tenOClock + 20 * Minute)] ∧
    (∀ e ∈ [exampleEvent "m1" tenOClock (tenOClock + 100 * Minute),
        exampleEvent "m2" (tenOClock + 10 * Minute) (tenOClock + 20 * Minute)],
      e.Start.unixNano ≤ e.End.unixNano) ∧
    getMergedEvents [exampleEvent "m1" tenOClock (tenOClock + 100 * Minute),
        exampleEvent "m2" (tenOClock + 10 * Minute) (tenOClock + 20 * Minute)] =
      [exampleEvent "m1" tenOClock (tenOClock + 20 * Minute)] ∧
    ¬ ∃ o ∈ getMergedEvents [exampleEvent "m1" tenOClock (tenOClock + 100 * Minute),
        exampleEvent "m2" (tenOClock + 10 * Minute) (tenOClock + 20 * Minute)],
      o.Start.unixNano ≤ (exampleEvent "m1" tenOClock (tenOClock + 100 * Minute)).Start.unixNano ∧
      (exampleEvent "m1" tenOClock (tenOClock + 100 * Minute)).End.unixNano ≤ o.End.unixNano := by
  refine ⟨by unfold SortedByStart; decide, by decide, by decide, by decide⟩

/-! ## The reminder window between polls -/

/-- The test of `notifyUpcomingEvents` in plain arithmetic: the start of the
event is less than five and a half minutes away from ten minutes after `now`. -/
theorem isUpcoming_iff (now : Time) (event : Event) :
    isUpcoming now event = true ↔
      |event.Start.unixNano - (now.unixNano + 10 * Minute)| < 330 * 1000000000 := by
  simp only [isUpcoming, Time.Sub, Time.Add, upcomingEventNotificationTime,
    upcomingEventNotificationWindow, StatusSyncJobInterval, Minute, minDuration, maxDuration,
    Bool.and_eq_true, decide_eq_true_eq, abs_lt]
  split_ifs <;> omega

/-- C29. With passes at `t0`, `t0 + 5 min`, `t0 + 10 min`, ..., every event that
starts ten minutes after `t0` or later meets a pass at whose time its start is
inside the fetched calendar window and inside the reminder window of
`notifyUpcomingEvents`. -/
theorem isUpcoming_at_some_pass (t0 : Time) (event : Event)
    (h : t0.unixNano + 10 * Minute ≤ event.Start.unixNano) :
    ∃ k : Nat,
      (calendarViewWindow (t0.Add (k * StatusSyncJobInterval))).1.unixNano
        ≤ event.Start.unixNano ∧
      event.Start.unixNano
        ≤ (calendarViewWindow (t0.Add (k * StatusSyncJobInterval))).2.unixNano ∧
      isUpcoming (t0.Add (k * StatusSyncJobInterval)) event = true := by
  refine ⟨((event.Start.unixNano - t0.unixNano - 10 * Minute + 5 * Minute - 1) /
    (5 * Minute)).toNat, ?_⟩
  rw [isUpcoming_iff]
  simp only [calendarViewWindow, Time.UTC, Time.Add, calendarViewTimeWindowSize,
    StatusSyncJobInterval, Minute, abs_lt] at *
  omega

/-- Witness of C29: passes from 10:00 on and an event at 10:27; the pass at
10:20 sees it in both windows. -/
theorem isUpcoming_at_some_pass_witness :
    (⟨tenOClock, 0⟩ : Time).unixNano + 10 * Minute
      ≤ (exampleEvent "m1" (tenOClock + 27 * Minute) (tenOClock + 57 * Minute)).Start.unixNano ∧
    ∃ k : Nat,
      (calendarViewWindow ((⟨tenOClock, 0⟩ : Time).Add (k * StatusSyncJobInterval))).1.unixNano
        ≤ (exampleEvent "m1" (tenOClock + 27 * Minute) (tenOClock + 57 * Minute)).Start.unixNano ∧
      (exampleEvent "m1" (tenOClock + 27 * Minute) (tenOClock + 57 * Minute)).Start.unixNano
        ≤ (calendarViewWindow
            ((⟨tenOClock, 0⟩ : Time).Add (k * StatusSyncJobInterval))).2.unixNano ∧
      isUpcoming ((⟨tenOClock, 0⟩ : Time).Add (k * StatusSyncJobInterval))
        (exampleEvent "m1" (tenOClock + 27 * Minute) (tenOClock + 57 * Minute)) = true :=
  ⟨by decide,
    isUpcoming_at_some_pass ⟨tenOClock, 0⟩
      (exampleEvent "m1" (tenOClock + 27 * Minute) (tenOClock + 57 * Minute)) (by decide)⟩

/-! ## The notification queue -/

/-- What `Enqueue` leaves in the queue and what it returns: the notifications
that fit are appended in order, and the error is returned exactly when one does
not fit. -/
theorem Enqueue_eq (queue notifications : List Notification)
    (h : queue.length ≤ maxQueueSize) :
    Enqueue queue notifications =
      (queue ++ notifications.take (maxQueueSize - queue.length),
        if notifications.length ≤ maxQueueSize - queue.length then none
        else some errQueueFull) := by
  induction notifications generalizing queue with
  | nil => simp [Enqueue]
  | cons n ns ih =>
    unfold Enqueue
    by_cases hlt : queue.length < maxQueueSize
    · have hq : (queue ++ [n]).length ≤ maxQueueSize := by simp; omega
      rw [if_pos hlt, ih _ hq]
      have e1 : maxQueueSize - queue.length = (maxQueueSize - (queue ++ [n]).length) + 1 := by
        simp; omega
      rw [e1, List.take_succ_cons]
      simp only [List.append_assoc, List.singleton_append, List.length_cons,
        Nat.add_le_add_iff_right]
    · have e0 : maxQueueSize - queue.length = 0 := by omega
      rw [if_neg hlt, e0]
      simp

/-- C27. For every content of the queue within its capacity and every list of
notifications, `Enqueue` returns (it is a total function: the send never
waits), and it returns an error if and only if there are more notifications
than free places; on a full queue every non-empty `Enqueue` returns the error
and leaves the queue as it was. -/
theorem Enqueue_error_iff (queue notifications : List Notification)
    (h : queue.length ≤ maxQueueSize) :
    ((Enqueue queue notifications).2 ≠ none ↔
      notifications.length > maxQueueSize - queue.length) ∧
    (queue.length = maxQueueSize → notifications ≠ [] →
      Enqueue queue notifications = (queue, some errQueueFull)) := by
  rw [Enqueue_eq queue notifications h]
  refine ⟨?_, ?_⟩
  · by_cases hle : notifications.length ≤ maxQueueSize - queue.length
    · simp [hle]
    · simp [hle]
      omega
  · intro hfull hne
    have hpos : 0 < notifications.length := List.length_pos.mpr hne
    have hnot : ¬ notifications.length ≤ maxQueueSize - queue.length := by omega
    simp [hfull, hne]

/-- Witness of C27: one notification on an empty queue is accepted. -/
theorem Enqueue_error_iff_witness :
    ([] : List Notification).length ≤ maxQueueSize ∧
    ((Enqueue [] [exampleNotification "sub1" ""]).2 ≠ none ↔
      [exampleNotification "sub1" ""].length > maxQueueSize - ([] : List Notification).length) :=
  ⟨by decide, (Enqueue_error_iff [] [exampleNotification "sub1" ""] (by decide)).1⟩

/-! ## The status-change confirmation view -/

/-- With an event, both actions of `statusChangeAttachments` carry
`hasEvent = true` and the subject, the link and the start time of the event. -/
theorem statusChangeAttachments_some (v : ViewEnv) (e : Event) (status url : String) :
    ∀ a ∈ (statusChangeAttachments v (some e) status url).Actions,
      mapLookup a.Context "hasEvent" = some (.bool true) ∧
      mapLookup a.Context "subject" = some (.str e.Subject) ∧
      mapLookup a.Context "weblink" = some (.str e.Weblink) ∧
      mapLookup a.Context "startTime" = some (.str (v.MarshalTime e.Start)) := by
  intro a ha
  simp only [statusChangeAttachments, List.mem_cons, List.mem_singleton, List.not_mem_nil,
    or_false] at ha
  rcases ha with rfl | rfl <;>
    refine ⟨?_, ?_, ?_, ?_⟩ <;>
    simp [withEventContext, mapInsert, mapLookup, List.find?]

/-- The confirmation DM of a busy transition: `setStatusOrAskUser` passes the
events it was given and the busy status of the user to the view. -/
theorem setStatusOrAskUser_busy_dm (m : Env) (user : User) (status : Status)
    (events : List Event) (id : String) (evs : List Event) (st url : String)
    (h : Call.DMWithAttachments id evs st url ∈
      (setStatusOrAskUser m user status events false).calls) :
    evs = events ∧ st = busyStatusOf user := by
  cases hc : user.Settings.GetConfirmation <;> cases hs : m.StoreUserErr <;>
    simp [setStatusOrAskUser, hc, hs] at h
  obtain ⟨-, h2, h3, -⟩ := h
  refine ⟨h2, ?_⟩
  rw [h3]
  simp [busyStatusOf]

/-- Every confirmation DM of a pass with a non-empty list of events is built
from that list and from the busy status of the user, do-not-disturb or away:
this is what `RenderStatusChangeNotificationView` receives from its caller. -/
theorem setStatusFromCalendarView_dm_status (m : Env) (user : User) (status : Status)
    (events : List Event) (hev : events ≠ []) (id : String) (evs : List Event)
    (st url : String)
    (h : Call.DMWithAttachments id evs st url ∈
      (setStatusFromCalendarView m user status events).calls) :
    evs = events ∧ st = busyStatusOf user ∧ (st = StatusDnd ∨ st = StatusAway) := by
  have hemp : events.isEmpty = false := by simpa using hev
  have key : evs = events ∧ st = busyStatusOf user := by
    cases hatt : attemptsStatusChange user status events
    · obtain ⟨-, -, hsh⟩ := setStatusFromCalendarView_no_attempt m user status events hatt
      rcases hsh with h0 | ⟨-, hs, h0 | h0⟩ <;> rw [h0] at h <;> simp at h
    · obtain ⟨-, h1, h2⟩ := setStatusFromCalendarView_attempt m user status events hatt
      rw [hemp] at h1 h2
      cases hr : (setStatusOrAskUser m user status events false).ret with
      | some err =>
        rw [(h1 err hr).1] at h
        exact setStatusOrAskUser_busy_dm m user status events id evs st url h
      | none =>
        rw [(h2 hr).1] at h
        rcases List.mem_append.mp h with h | h
        · exact setStatusOrAskUser_busy_dm m user status events id evs st url h
        · simp at h
  refine ⟨key.1, key.2, ?_⟩
  rw [key.2]
  unfold busyStatusOf
  split_ifs
  · right; rfl
  · left; rfl

/-- C30, failing input: a user on the away option who wants to confirm status
changes, online, with a meeting that started at 10:00, and the clock at 10:10.
The pass asks for the busy status away with a DM built from the meeting; in
`RenderStatusChangeNotificationView` no event starts after now and the status
is not do-not-disturb, so the attachment is the one for no event: both actions
carry `hasEvent = false` and no subject, and the text says that there is no
upcoming event. For the do-not-disturb option the same meeting is referred
to. -/
theorem RenderStatusChangeNotificationView_away_in_progress :
    (setStatusFromCalendarView exampleEnv (exampleUser AwayStatusOption true [] "")
        ⟨StatusOnline, true⟩ [exampleEvent "m1" tenOClock (tenOClock + 30 * Minute)]).calls =
      [Call.StoreUser (exampleUser AwayStatusOption true [] ""),
        Call.DMWithAttachments "u1" [exampleEvent "m1" tenOClock (tenOClock + 30 * Minute)]
          StatusAway "/plugins/calendar/action/confirm",
        Call.StoreUserActiveEvents "u1" ["m1 2024-01-01T10:00:00Z"]] ∧
    RenderStatusChangeNotificationView (exampleViewEnv (tenOClock + 10 * Minute))
        [exampleEvent "m1" tenOClock (tenOClock + 30 * Minute)] StatusAway
        "/plugins/calendar/action/confirm" =
      statusChangeAttachments (exampleViewEnv (tenOClock + 10 * Minute)) none StatusAway
        "/plugins/calendar/action/confirm" ∧
    (∀ a ∈ (RenderStatusChangeNotificationView (exampleViewEnv (tenOClock + 10 * Minute))
        [exampleEvent "m1" tenOClock (tenOClock + 30 * Minute)] StatusAway
        "/plugins/calendar/action/confirm").Actions,
      mapLookup a.Context "hasEvent" = some (.bool false) ∧
      mapLookup a.Context "subject" = none) ∧
    (RenderStatusChangeNotificationView (exampleViewEnv (tenOClock + 10 * Minute))
        [exampleEvent "m1" tenOClock (tenOClock + 30 * Minute)] StatusAway
        "/plugins/calendar/action/confirm").Text =
      "예정된 이벤트가 없습니다.\n상태를 자리 비움로 다시 변경할까요?" ∧
    (∀ a ∈ (RenderStatusChangeNotificationView (exampleViewEnv (tenOClock + 10 * Minute))
        [exampleEvent "m1" tenOClock (tenOClock + 30 * Minute)] StatusDnd
        "/plugins/calendar/action/confirm").Actions,
      mapLookup a.Context "hasEvent" = some (.bool true) ∧
      mapLookup a.Context "subject" = some (.str "standup")) := by
  refine ⟨by decide, by decide, by decide, by decide, by decide⟩

/-- Which event the attachment refers to. When some event of the list starts
after the current time, the attachment is the one for the first such event,
whatever the target status. When none does, the list is not empty and the
target status is do-not-disturb, the attachment is the one for the last event
of the list. The attachment for an event carries, in both actions,
`hasEvent = true` and the subject, the link and the start time of that
event. -/
theorem RenderStatusChangeNotificationView_event (v : ViewEnv) (events : List Event)
    (status url : String) :
    (∀ e, events.find? (fun e => e.Start.After v.now) = some e →
      RenderStatusChangeNotificationView v events status url =
        statusChangeAttachments v (some e) status url) ∧
    (events.find? (fun e => e.Start.After v.now) = none → events ≠ [] → status = StatusDnd →
      ∃ e, events.getLast? = some e ∧
        RenderStatusChangeNotificationView v events status url =
          statusChangeAttachments v (some e) status url) ∧
    (∀ e, ∀ a ∈ (statusChangeAttachments v (some e) status url).Actions,
      mapLookup a.Context "hasEvent" = some (.bool true) ∧
      mapLookup a.Context "subject" = some (.str e.Subject) ∧
      mapLookup a.Context "weblink" = some (.str e.Weblink) ∧
      mapLookup a.Context "startTime" = some (.str (v.MarshalTime e.Start))) := by
  refine ⟨?_, ?_, fun e => statusChangeAttachments_some v e status url⟩
  · intro e he
    simp [RenderStatusChangeNotificationView, he]
  · intro hnone hne hdnd
    have hlen : 0 < events.length := List.length_pos.mpr hne
    cases hl : events.getLast? with
    | none => exact absurd (List.getLast?_eq_none_iff.mp hl) hne
    | some e =>
      refine ⟨e, rfl, ?_⟩
      simp [RenderStatusChangeNotificationView, hnone, hlen, hdnd, hl]

/-! ## The upcoming-event notifier -/

theorem sentDMs_append (xs ys : List NotifyCall) :
    sentDMs (xs ++ ys) = sentDMs xs ++ sentDMs ys := by
  simp [sentDMs]

theorem createdPosts_append (xs ys : List NotifyCall) :
    createdPosts (xs ++ ys) = createdPosts xs ++ createdPosts ys := by
  simp [createdPosts]

theorem sentDMs_channelPosts (m : NotifyEnv) (event : Event) (timezone : String)
    (channels : List String) : sentDMs (channelPosts m event timezone channels) = [] := by
  induction channels with
  | nil => simp [channelPosts, sentDMs]
  | cons c rest ih =>
    unfold channelPosts
    cases m.RenderEventAsAttachment event timezone with
    | error e => simpa using ih
    | ok a =>
      simp only [sentDMs, List.filterMap_cons] at ih ⊢
      exact ih

/-- The posts of the inner loop: one post in every linked channel when the
rendering succeeds, whatever `CreatePost` returns. -/
theorem createdPosts_channelPosts (m : NotifyEnv) (event : Event) (timezone : String)
    (channels : List String) :
    createdPosts (channelPosts m event timezone channels) =
      match m.RenderEventAsAttachment event timezone with
      | .error _ => []
      | .ok attachment => channels.map (fun c => ⟨c, "예정된 이벤트", [attachment]⟩) := by
  induction channels with
  | nil =>
    cases h : m.RenderEventAsAttachment event timezone <;> simp [channelPosts, createdPosts]
  | cons c rest ih =>
    unfold channelPosts
    cases h : m.RenderEventAsAttachment event timezone with
    | error e => simpa [h] using ih
    | ok a =>
      rw [h] at ih
      simp only [createdPosts, List.filterMap_cons, List.map_cons] at ih ⊢
      rw [ih]

/-- The DMs of one event: one DM when the rendering succeeds, none otherwise. -/
theorem sentDMs_notifyEvent (m : NotifyEnv) (mattermostUserID timezone : String)
    (event : Event) :
    sentDMs (notifyEvent m mattermostUserID timezone event) =
      match m.RenderUpcomingEventAsAttachment event timezone with
      | .error _ => []
      | .ok attachment => [attachment] := by
  cases hr : m.RenderUpcomingEventAsAttachment event timezone with
  | error e => simp [notifyEvent, hr, sentDMs]
  | ok a =>
    cases hd : m.DMWithAttachmentsErr mattermostUserID a with
    | some e => simp [notifyEvent, hr, hd, sentDMs]
    | none =>
      cases h : m.LoadEventMetadata event.ICalUID with
      | failed e => simp [notifyEvent, hr, hd, h, sentDMs]
      | notFound => simp [notifyEvent, hr, hd, h, sentDMs]
      | found md =>
        have := sentDMs_channelPosts m event timezone md.LinkedChannelIDs
        simp only [sentDMs] at this
        simp [notifyEvent, hr, hd, h, sentDMs, this]

/-- The calls of the loop when the timezone lookup succeeds, seen through a
selection of calls that leaves the lookups out: the calls of the events that
qualify, one event after the other. -/
theorem notifyLoop_filterMap {β : Type} (f : NotifyCall → Option β)
    (hf : ∀ id, f (NotifyCall.GetTimezoneByID id) = none)
    (m : NotifyEnv) (mattermostUserID tz : String)
    (hz : m.GetTimezoneByID mattermostUserID = .ok tz) (events : List Event) (z : String)
    (h : z = "" ∨ z = tz) :
    (notifyLoop m mattermostUserID z events).filterMap f =
      ((events.filter (qualifies m.now)).map
        (fun e => (notifyEvent m mattermostUserID tz e).filterMap f)).flatten := by
  induction events generalizing z with
  | nil => simp [notifyLoop]
  | cons e rest ih =>
    unfold notifyLoop
    cases hc : e.IsCancelled
    · cases hu : isUpcoming m.now e
      · simp [qualifies, hc, hu, ih z h]
      · by_cases hzz : z = ""
        · simp [qualifies, hc, hu, hzz, hz, hf, ih tz (Or.inr rfl)]
        · have hzt : z = tz := by
            rcases h with h | h
            · exact absurd h hzz
            · exact h
          rw [hzt] at hzz
          simp [qualifies, hc, hu, hzz, hzt, ih tz (Or.inr rfl)]
    · simp [qualifies, hc, ih z h]

/-- The test of the window, in plain arithmetic, with the cancellation flag. -/
theorem qualifies_eq (now : Time) :
    qualifies now = fun e : Event =>
      !e.IsCancelled &&
        decide (|e.Start.unixNano - (now.unixNano + 10 * Minute)| < (11 * (5 * Minute)) / 10) := by
  funext e
  have h1 := isUpcoming_iff now e
  have h2 : (11 * (5 * Minute)) / 10 = 330 * 1000000000 := by decide
  rw [h2]
  unfold qualifies
  cases hu : isUpcoming now e
  · have : ¬ |e.Start.unixNano - (now.unixNano + 10 * Minute)| < 330 * 1000000000 := by
      intro hlt
      rw [h1.mpr hlt] at hu
      exact absurd hu (by simp)
    rw [decide_eq_false this]
  · rw [decide_eq_true (h1.mp hu)]

/-- C22. With the timezone lookup and the rendering of the reminders
succeeding, for every list of events and every current time: the DMs that
`notifyUpcomingEvents` sends are the rendered reminders of the events that are
not cancelled and whose start is less than five and a half minutes away from
ten minutes after now, one DM for each such event of the list, in order. -/
theorem notifyUpcomingEvents_sentDMs (m : NotifyEnv) (mattermostUserID tz : String)
    (render : Event → SlackAttachment) (events : List Event)
    (hz : m.GetTimezoneByID mattermostUserID = .ok tz)
    (hr : ∀ e, m.RenderUpcomingEventAsAttachment e tz = .ok (render e)) :
    sentDMs (notifyUpcomingEvents m mattermostUserID events) =
      (events.filter (fun e =>
        !e.IsCancelled &&
          decide (|e.Start.unixNano - (m.now.unixNano + 10 * Minute)| <
            (11 * (5 * Minute)) / 10))).map render := by
  rw [← qualifies_eq]
  unfold notifyUpcomingEvents sentDMs
  rw [notifyLoop_filterMap _ (fun _ => rfl) m mattermostUserID tz hz events "" (Or.inl rfl)]
  have he : ∀ e, (notifyEvent m mattermostUserID tz e).filterMap (fun c =>
      match c with
      | NotifyCall.DMWithAttachments _ attachment => some attachment
      | _ => none) = [render e] := by
    intro e
    have := sentDMs_notifyEvent m mattermostUserID tz e
    rw [hr e] at this
    simpa [sentDMs] using this
  simp only [he]
  induction events.filter (qualifies m.now) with
  | nil => rfl
  | cons x xs ih => simp [ih]

/-- Witness of C22: the clock at 09:50, a meeting at 10:00, a cancelled meeting
at 10:00 and a meeting at 10:30: one DM, for the first meeting. -/
theorem notifyUpcomingEvents_sentDMs_witness :
    sentDMs (notifyUpcomingEvents (exampleNotifyEnv (tenOClock - 10 * Minute) none) "u1"
        [exampleEvent "m1" tenOClock (tenOClock + 30 * Minute),
          { exampleEvent "m2" tenOClock (tenOClock + 30 * Minute) with IsCancelled := true },
          exampleEvent "m3" (tenOClock + 30 * Minute) (tenOClock + 60 * Minute)]) =
      [exampleAttachment "standup"] := by
  rw [notifyUpcomingEvents_sentDMs (exampleNotifyEnv (tenOClock - 10 * Minute) none) "u1" "UTC"
    (fun e => exampleAttachment e.Subject) _ rfl (fun _ => rfl)]
  decide

/-- The posts of one event whose DM was sent and whose metadata was loaded:
one post in every linked channel, whatever `CreatePost` returns. -/
theorem createdPosts_notifyEvent (m : NotifyEnv) (mattermostUserID timezone : String)
    (event : Event) (a attachment : SlackAttachment) (md : EventMetadata)
    (hr : m.RenderUpcomingEventAsAttachment event timezone = .ok a)
    (hd : m.DMWithAttachmentsErr mattermostUserID a = none)
    (hl : m.LoadEventMetadata event.ICalUID = .found md)
    (hc : m.RenderEventAsAttachment event timezone = .ok attachment) :
    createdPosts (notifyEvent m mattermostUserID timezone event) =
      md.LinkedChannelIDs.map (fun c => ⟨c, "예정된 이벤트", [attachment]⟩) := by
  have h := createdPosts_channelPosts m event timezone md.LinkedChannelIDs
  rw [hc] at h
  simp only [notifyEvent, hr, hd, hl, createdPosts_append, h]
  simp [createdPosts]

/-- C23, as stated, fails: the clock at 09:50 and a meeting at 10:00 that is
linked to the channels `c1` and `c2`; the DM fails. The round for the event
ends with the failed DM: the metadata is not loaded and no post is created. -/
theorem notifyUpcomingEvents_dm_failure_counterexample :
    qualifies (exampleNotifyEnv (tenOClock - 10 * Minute) (some "dm failure")).now
        (exampleEvent "m1" tenOClock (tenOClock + 30 * Minute)) = true ∧
    (exampleNotifyEnv (tenOClock - 10 * Minute) (some "dm failure")).LoadEventMetadata "m1" =
      .found ⟨["c1", "c2"]⟩ ∧
    notifyUpcomingEvents (exampleNotifyEnv (tenOClock - 10 * Minute) (some "dm failure")) "u1"
        [exampleEvent "m1" tenOClock (tenOClock + 30 * Minute)] =
      [NotifyCall.GetTimezoneByID "u1",
        NotifyCall.DMWithAttachments "u1" (exampleAttachment "standup")] ∧
    createdPosts
        (notifyUpcomingEvents (exampleNotifyEnv (tenOClock - 10 * Minute) (some "dm failure"))
          "u1" [exampleEvent "m1" tenOClock (tenOClock + 30 * Minute)]) = [] := by
  decide

/-- C23, amended. With the timezone lookup succeeding, the posts and the DMs of
a call are the posts and the DMs of the events that qualify, each event on its
own: what fails for one event has no effect on the others. For an event whose
DM was rendered and sent, whose metadata was loaded and for which the channel
post is rendered, a post is created in every linked channel, whatever the posts
to other channels return. When the DM of an event fails, the round for that
event ends with the DM. -/
theorem notifyUpcomingEvents_createdPosts (m : NotifyEnv) (mattermostUserID tz : String)
    (events : List Event) (hz : m.GetTimezoneByID mattermostUserID = .ok tz) :
    createdPosts (notifyUpcomingEvents m mattermostUserID events) =
      ((events.filter (qualifies m.now)).map
        (fun e => createdPosts (notifyEvent m mattermostUserID tz e))).flatten ∧
    sentDMs (notifyUpcomingEvents m mattermostUserID events) =
      ((events.filter (qualifies m.now)).map
        (fun e => sentDMs (notifyEvent m mattermostUserID tz e))).flatten ∧
    (∀ e a attachment md,
      m.RenderUpcomingEventAsAttachment e tz = .ok a →
      m.DMWithAttachmentsErr mattermostUserID a = none →
      m.LoadEventMetadata e.ICalUID = .found md →
      m.RenderEventAsAttachment e tz = .ok attachment →
      createdPosts (notifyEvent m mattermostUserID tz e) =
        md.LinkedChannelIDs.map (fun c => ⟨c, "예정된 이벤트", [attachment]⟩)) ∧
    (∀ e a err,
      m.RenderUpcomingEventAsAttachment e tz = .ok a →
      m.DMWithAttachmentsErr mattermostUserID a = some err →
      notifyEvent m mattermostUserID tz e = [NotifyCall.DMWithAttachments mattermostUserID a]) := by
  refine ⟨?_, ?_, ?_, ?_⟩
  · exact notifyLoop_filterMap _ (fun _ => rfl) m mattermostUserID tz hz events "" (Or.inl rfl)
  · exact notifyLoop_filterMap _ (fun _ => rfl) m mattermostUserID tz hz events "" (Or.inl rfl)
  · intro e a attachment md hr hd hl hc
    exact createdPosts_notifyEvent m mattermostUserID tz e a attachment md hr hd hl hc
  · intro e a err hr hd
    simp [notifyEvent, hr, hd]

/-- Witness of C23: the clock at 09:50 and two meetings at 10:00, each linked to
the channels `c1` and `c2`; the post to `c1` fails. Both channels get a post
for both meetings. -/
theorem notifyUpcomingEvents_createdPosts_witness :
    (exampleNotifyEnv (tenOClock - 10 * Minute) none).GetTimezoneByID "u1" = .ok "UTC" ∧
    (exampleNotifyEnv (tenOClock - 10 * Minute) none).CreatePostErr
        ⟨"c1", "예정된 이벤트", [exampleAttachment "standup"]⟩ ≠ none ∧
    createdPosts (notifyUpcomingEvents (exampleNotifyEnv (tenOClock - 10 * Minute) none) "u1"
        [exampleEvent "m1" tenOClock (tenOClock + 30 * Minute),
          exampleEvent "m2" tenOClock (tenOClock + 30 * Minute)]) =
      [⟨"c1", "예정된 이벤트", [exampleAttachment "standup"]⟩,
        ⟨"c2", "예정된 이벤트", [exampleAttachment "standup"]⟩,
        ⟨"c1", "예정된 이벤트", [exampleAttachment "standup"]⟩,
        ⟨"c2", "예정된 이벤트", [exampleAttachment "standup"]⟩] := by
  refine ⟨rfl, by decide, ?_⟩
  rw [(notifyUpcomingEvents_createdPosts (exampleNotifyEnv (tenOClock - 10 * Minute) none) "u1"
    "UTC" _ rfl).1]
  decide

/-! ## The log of a batch pass -/

/-- The truncating pattern, continued from a state whose lines are not touched
any more: after the limit was passed, nothing is logged. -/
theorem logFailure_foldl_past (messages : List String) (st : LogState)
    (h : logTruncateLimit < st.numberOfLogs) :
    (messages.foldl logFailure st).lines = st.lines := by
  induction messages generalizing st with
  | nil => rfl
  | cons msg rest ih =>
    simp only [List.foldl_cons]
    rw [ih (logFailure st msg) (by simp only [logFailure]; omega)]
    have h1 : ¬ st.numberOfLogs < logTruncateLimit := by omega
    have h2 : (st.numberOfLogs == logTruncateLimit) = false := by
      simp only [beq_eq_false_iff_ne, ne_eq]; omega
    simp [logFailure, h1, h2]

/-- The truncating pattern from a fresh counter: the first `logTruncateLimit`
warnings are logged, followed by the marker exactly when there are more
failures than that. -/
theorem logFailure_foldl (messages : List String) (st : LogState)
    (h : st.numberOfLogs ≤ logTruncateLimit) :
    (messages.foldl logFailure st).lines =
      st.lines ++ messages.take (logTruncateLimit - st.numberOfLogs) ++
        (if logTruncateLimit - st.numberOfLogs < messages.length then [logTruncateMsg]
          else []) := by
  induction messages generalizing st with
  | nil => simp
  | cons msg rest ih =>
    simp only [List.foldl_cons]
    by_cases hlt : st.numberOfLogs < logTruncateLimit
    · rw [ih (logFailure st msg) (by simp only [logFailure]; omega)]
      have e1 : logTruncateLimit - st.numberOfLogs =
          (logTruncateLimit - (logFailure st msg).numberOfLogs) + 1 := by
        simp only [logFailure]; omega
      rw [e1, List.take_succ_cons]
      simp [logFailure, hlt]
    · have heq : st.numberOfLogs = logTruncateLimit := by omega
      rw [logFailure_foldl_past rest (logFailure st msg) (by simp only [logFailure]; omega)]
      simp [logFailure, heq]

/-- The sibling path in `retrieveUsersToSync`: six users whose load fails give
five warnings and the truncation marker. -/
theorem retrieveLog_load_failures :
    retrieveLog exampleBatchEnvLoadFails exampleIndex true =
      [ "사용자 인덱스에서 사용자 u1를 로드할 수 없습니다. err=load failure",
        "사용자 인덱스에서 사용자 u2를 로드할 수 없습니다. err=load failure",
        "사용자 인덱스에서 사용자 u3를 로드할 수 없습니다. err=load failure",
        "사용자 인덱스에서 사용자 u4를 로드할 수 없습니다. err=load failure",
        "사용자 인덱스에서 사용자 u5를 로드할 수 없습니다. err=load failure",
        logTruncateMsg ] := by
  decide

/-- C21, failing input: an index of six users, each loaded and with status
updates switched on, fetched one by one, the fetch of the events failing for
each. `retrieveUsersToSync` logs six warnings and no truncation marker: the
warning of a failed fetch does not go through the counter. -/
theorem retrieveLog_fetch_failures :
    retrieveLog exampleBatchEnvFetchFails exampleIndex true =
      List.replicate 6 "캘린더 이벤트를 가져올 수 없습니다" ∧
    logTruncateLimit <
      (retrieveLog exampleBatchEnvFetchFails exampleIndex true).length ∧
    logTruncateMsg ∉ retrieveLog exampleBatchEnvFetchFails exampleIndex true ∧
    (retrieveUsersToSync exampleBatchEnvFetchFails exampleIndex ⟨0, 0, 6⟩
      true).summary.NumberOfUsersFailedStatusChanged = 6 := by
  decide

/-! ## The webhook change detector -/

/-- The diff modelled from the spec reports no change only with three empty
lists. -/
theorem Diff_changed (prior new : Fields) :
    (Diff prior new).changed = false →
      (Diff prior new).added = [] ∧ (Diff prior new).updated = [] ∧
        (Diff prior new).deleted = [] := by
  intro h
  unfold Diff at h ⊢
  dsimp only at h ⊢
  generalize List.map (fun kv => kv.1)
    (List.filter (fun kv => (mapLookup prior kv.1).isNone) new) = a at h ⊢
  generalize List.map (fun kv => kv.1)
    (List.filter (fun kv =>
      match mapLookup new kv.1 with
      | some v => v != kv.2
      | none => false) prior) = u at h ⊢
  generalize List.map (fun kv => kv.1)
    (List.filter (fun kv => (mapLookup new kv.1).isNone) prior) = d at h ⊢
  cases a <;> cases u <;> cases d <;> simp_all

theorem isImportantChange_iff (k : String) :
    isImportantChange k = true ↔ k ∈ importantNotificationChanges := by
  unfold isImportantChange
  rw [List.any_eq_true]
  constructor
  · rintro ⟨x, hx, hxk⟩
    have : x = k := by simpa using hxk
    rw [← this]
    exact hx
  · intro h
    exact ⟨k, h, by simp⟩

/-- What `updatedEventSlackAttachment` reports, in terms of the diff: a change
that the diff reports and that touches an important field; the attachment is
returned exactly then. -/
theorem updatedEventSlackAttachment_fst (p : ProcessorEnv) (n : Notification)
    (prior : Event) (timezone : String) :
    (updatedEventSlackAttachment p n prior timezone).1 =
      ((p.Diff (eventToFields p prior timezone) (eventToFields p n.Event timezone)).changed &&
        ((p.Diff (eventToFields p prior timezone) (eventToFields p n.Event timezone)).added ++
          (p.Diff (eventToFields p prior timezone) (eventToFields p n.Event timezone)).updated ++
          (p.Diff (eventToFields p prior timezone)
            (eventToFields p n.Event timezone)).deleted).any isImportantChange) ∧
    (updatedEventSlackAttachment p n prior timezone).2.isSome =
      (updatedEventSlackAttachment p n prior timezone).1 := by
  unfold updatedEventSlackAttachment
  dsimp only
  generalize p.Diff (eventToFields p prior timezone) (eventToFields p n.Event timezone) = d
  cases hc : d.changed
  · simp
  · cases ha : (d.added ++ d.updated ++ d.deleted).any isImportantChange
    · simp
    · simp only [Bool.not_true, Bool.false_eq_true, if_false, Bool.and_self]
      split_ifs <;> simp

/-- C25. For every prior snapshot and every new event, with a field diff that
reports no change only when it reports no field: `updatedEventSlackAttachment`
reports a change if and only if at least one field that the diff reports as
added, updated or deleted is among the important ones, `Subject` and `When`;
it returns an attachment exactly when it reports a change. -/
theorem updatedEventSlackAttachment_changed_iff (p : ProcessorEnv) (n : Notification)
    (prior : Event) (timezone : String)
    (hd : ∀ a b, (p.Diff a b).changed = false →
      (p.Diff a b).added = [] ∧ (p.Diff a b).updated = [] ∧ (p.Diff a b).deleted = []) :
    ((updatedEventSlackAttachment p n prior timezone).1 = true ↔
      ∃ k ∈ (p.Diff (eventToFields p prior timezone) (eventToFields p n.Event timezone)).added ++
          (p.Diff (eventToFields p prior timezone) (eventToFields p n.Event timezone)).updated ++
          (p.Diff (eventToFields p prior timezone) (eventToFields p n.Event timezone)).deleted,
        k ∈ importantNotificationChanges) ∧
    importantNotificationChanges = ["Subject", "When"] ∧
    ((updatedEventSlackAttachment p n prior timezone).1 = false →
      (updatedEventSlackAttachment p n prior timezone).2 = none) ∧
    ((updatedEventSlackAttachment p n prior timezone).1 = true →
      ∃ sa, (updatedEventSlackAttachment p n prior timezone).2 = some sa) := by
  obtain ⟨h1, h2⟩ := updatedEventSlackAttachment_fst p n prior timezone
  refine ⟨?_, rfl, ?_, ?_⟩
  · rw [h1]
    have hd2 := hd (eventToFields p prior timezone) (eventToFields p n.Event timezone)
    revert hd2
    generalize p.Diff (eventToFields p prior timezone) (eventToFields p n.Event timezone) = d
    intro hd2
    rw [Bool.and_eq_true, List.any_eq_true]
    constructor
    · rintro ⟨-, k, hk, hki⟩
      exact ⟨k, hk, (isImportantChange_iff k).mp hki⟩
    · rintro ⟨k, hk, hki⟩
      refine ⟨?_, k, hk, (isImportantChange_iff k).mpr hki⟩
      cases hc : d.changed
      · obtain ⟨e1, e2, e3⟩ := hd2 hc
        rw [e1, e2, e3] at hk
        simp at hk
      · rfl
  · intro h
    rw [h] at h2
    cases hs : (updatedEventSlackAttachment p n prior timezone).2
    · rfl
    · rw [hs] at h2
      simp at h2
  · intro h
    rw [h] at h2
    cases hs : (updatedEventSlackAttachment p n prior timezone).2 with
    | none =>
      rw [hs] at h2
      simp at h2
    | some sa => exact ⟨sa, rfl⟩

/-- Witness of C25: the stored meeting and the same meeting with another
subject; the diff reports `Subject` as updated and a change is reported. -/
theorem updatedEventSlackAttachment_changed_iff_witness :
    (updatedEventSlackAttachment (exampleProcessorEnv "" "sub1" .notFound none)
        { exampleNotification "sub1" "" with
          Event := { exampleEvent "m1" tenOClock (tenOClock + 30 * Minute) with
            Subject := "retro" } }
        (exampleEvent "m1" tenOClock (tenOClock + 30 * Minute)) "UTC").1 = true ↔
      ∃ k ∈
          ((exampleProcessorEnv "" "sub1" .notFound none).Diff
            (eventToFields (exampleProcessorEnv "" "sub1" .notFound none)
              (exampleEvent "m1" tenOClock (tenOClock + 30 * Minute)) "UTC")
            (eventToFields (exampleProcessorEnv "" "sub1" .notFound none)
              { exampleNotification "sub1" "" with
                Event := { exampleEvent "m1" tenOClock (tenOClock + 30 * Minute) with
                  Subject := "retro" } }.Event "UTC")).added ++
          ((exampleProcessorEnv "" "sub1" .notFound none).Diff
            (eventToFields (exampleProcessorEnv "" "sub1" .notFound none)
              (exampleEvent "m1" tenOClock (tenOClock + 30 * Minute)) "UTC")
            (eventToFields (exampleProcessorEnv "" "sub1" .notFound none)
              { exampleNotification "sub1" "" with
                Event := { exampleEvent "m1" tenOClock (tenOClock + 30 * Minute) with
                  Subject := "retro" } }.Event "UTC")).updated ++
          ((exampleProcessorEnv "" "sub1" .notFound none).Diff
            (eventToFields (exampleProcessorEnv "" "sub1" .notFound none)
              (exampleEvent "m1" tenOClock (tenOClock + 30 * Minute)) "UTC")
            (eventToFields (exampleProcessorEnv "" "sub1" .notFound none)
              { exampleNotification "sub1" "" with
                Event := { exampleEvent "m1" tenOClock (tenOClock + 30 * Minute) with
                  Subject := "retro" } }.Event "UTC")).deleted,
        k ∈ importantNotificationChanges :=
  (updatedEventSlackAttachment_changed_iff (exampleProcessorEnv "" "sub1" .notFound none)
    { exampleNotification "sub1" "" with
      Event := { exampleEvent "m1" tenOClock (tenOClock + 30 * Minute) with
        Subject := "retro" } }
    (exampleEvent "m1" tenOClock (tenOClock + 30 * Minute)) "UTC"
    (fun a b => Diff_changed a b)).1

/-- The example of the spec: the stored meeting and the same meeting with
another body preview. The diff reports `BodyPreview` only, and no change is
reported. -/
theorem updatedEventSlackAttachment_bodyPreview :
    (Diff
      (eventToFields (exampleProcessorEnv "" "sub1" .notFound none)
        (exampleEvent "m1" tenOClock (tenOClock + 30 * Minute)) "UTC")
      (eventToFields (exampleProcessorEnv "" "sub1" .notFound none)
        { exampleEvent "m1" tenOClock (tenOClock + 30 * Minute) with
          BodyPreview := "agenda" } "UTC")) =
      ⟨true, [], ["BodyPreview"], []⟩ ∧
    updatedEventSlackAttachment (exampleProcessorEnv "" "sub1" .notFound none)
        { exampleNotification "sub1" "" with
          Event := { exampleEvent "m1" tenOClock (tenOClock + 30 * Minute) with
            BodyPreview := "agenda" } }
        (exampleEvent "m1" tenOClock (tenOClock + 30 * Minute)) "UTC" = (false, none) := by
  decide

/-- C24. When the subscription of a notification and the creator of the
subscription are loaded, and the remote id of the subscription is not the
`EventSubscriptionID` on record for the creator, or the subscription has a
non-empty client state that differs from the one of the notification:
`processNotification` returns an error, and its only calls are the two loads;
no DM is sent, nothing is renewed and nothing is written to the store. -/
theorem processNotification_rejects (p : ProcessorEnv) (n : Notification)
    (sub : Subscription) (creator : User)
    (hs : p.LoadSubscription n.SubscriptionID = .ok sub)
    (hc : p.LoadUser sub.MattermostCreatorID = .ok creator)
    (h : sub.Remote.ID ≠ creator.Settings.EventSubscriptionID ∨
      (sub.Remote.ClientState ≠ "" ∧ sub.Remote.ClientState ≠ n.ClientState)) :
    (processNotification p n).err ≠ none ∧
    (processNotification p n).calls =
      [NotificationCall.LoadSubscription n.SubscriptionID,
        NotificationCall.LoadUser sub.MattermostCreatorID] ∧
    (∀ c ∈ (processNotification p n).calls, c.isDM = false ∧ c.isWrite = false) := by
  have key : (processNotification p n).err ≠ none ∧
      (processNotification p n).calls =
        [NotificationCall.LoadSubscription n.SubscriptionID,
          NotificationCall.LoadUser sub.MattermostCreatorID] := by
    by_cases hid : sub.Remote.ID = creator.Settings.EventSubscriptionID
    · rcases h with h | ⟨h1, h2⟩
      · exact absurd hid h
      · simp [processNotification, hs, hc, hid, h1, h2]
    · simp [processNotification, hs, hc, hid]
  refine ⟨key.1, key.2, ?_⟩
  intro c hcm
  rw [key.2] at hcm
  simp only [List.mem_cons, List.mem_singleton, List.not_mem_nil, or_false] at hcm
  rcases hcm with rfl | rfl <;> simp [NotificationCall.isDM, NotificationCall.isWrite]

/-- Witness of C24: the subscription `sub1` is stored with the client state
`secret`, and the notification carries another client state. -/
theorem processNotification_rejects_witness :
    (exampleSubscription "secret").Remote.ClientState ≠ "" ∧
    (exampleSubscription "secret").Remote.ClientState ≠
      (exampleNotification "sub1" "guess").ClientState ∧
    (processNotification (exampleProcessorEnv "secret" "sub1" .notFound none)
        (exampleNotification "sub1" "guess")).calls =
      [NotificationCall.LoadSubscription "sub1", NotificationCall.LoadUser "u1"] :=
  ⟨by decide, by decide,
    (processNotification_rejects (exampleProcessorEnv "secret" "sub1" .notFound none)
      (exampleNotification "sub1" "guess") (exampleSubscription "secret")
      { exampleUser DNDStatusOption false [] "" with
        Settings := ⟨DNDStatusOption, false, false, false, "sub1"⟩ }
      rfl rfl (Or.inr ⟨by decide, by decide⟩)).2.1⟩

/-! ### The snapshot is written only after the DM -/

theorem snapshotShape_append (p : ProcessorEnv) (pre : List NotificationCall)
    (r : ProcessOutcome) (hpre : ∀ c ∈ pre, c.isDM = false ∧ c.isStoreUserEvent = false)
    (h : SnapshotShape p r) : SnapshotShape p ⟨r.err, pre ++ r.calls⟩ := by
  obtain ⟨q, hq, hcase⟩ := h
  refine ⟨pre ++ q, ?_, ?_⟩
  · intro c hc
    rcases List.mem_append.mp hc with hc | hc
    · exact hpre c hc
    · exact hq c hc
  · rcases hcase with h | ⟨id, sa, h, hd, he⟩ | ⟨id, sa, ev, h, hd⟩
    · left
      simp [h]
    · right; left
      exact ⟨id, sa, by simp [h], hd, he⟩
    · right; right
      exact ⟨id, sa, ev, by simp [h], hd⟩

theorem snapshotShape_of_clean (p : ProcessorEnv) (err : Option String)
    (calls : List NotificationCall)
    (h : ∀ c ∈ calls, c.isDM = false ∧ c.isStoreUserEvent = false) :
    SnapshotShape p ⟨err, calls⟩ :=
  ⟨calls, h, Or.inl rfl⟩

theorem sendAndStore_shape (p : ProcessorEnv) (creator : User) (n : Notification)
    (sa : Option SlackAttachment) (prior : StoredEvent) :
    SnapshotShape p (sendAndStore p creator n sa prior) := by
  refine ⟨[], by simp, ?_⟩
  cases hd : p.DMWithAttachmentsErr creator.MattermostUserID sa with
  | some err =>
    right; left
    exact ⟨creator.MattermostUserID, sa, by simp [sendAndStore, hd], by simp [hd],
      by simp [sendAndStore, hd]⟩
  | none =>
    right; right
    refine ⟨creator.MattermostUserID, sa, { prior with Remote := n.Event }, ?_, hd⟩
    cases hs : p.StoreUserEventErr creator.MattermostUserID { prior with Remote := n.Event } <;>
      simp [sendAndStore, hd, hs]

theorem diffAndNotify_shape (p : ProcessorEnv) (sub : Subscription) (creator : User)
    (n : Notification) : SnapshotShape p (diffAndNotify p sub creator n) := by
  have hclean2 : ∀ c ∈ [NotificationCall.LoadUserEvent creator.MattermostUserID n.Event.ICalUID,
      NotificationCall.GetMailboxSettings sub.Remote.CreatorID],
      c.isDM = false ∧ c.isStoreUserEvent = false := by
    intro c hc
    simp only [List.mem_cons, List.mem_singleton, List.not_mem_nil, or_false] at hc
    rcases hc with rfl | rfl <;> simp [NotificationCall.isDM, NotificationCall.isStoreUserEvent]
  have hclean1 : ∀ c ∈ [NotificationCall.LoadUserEvent creator.MattermostUserID n.Event.ICalUID],
      c.isDM = false ∧ c.isStoreUserEvent = false := by
    intro c hc
    simp only [List.mem_singleton] at hc
    rw [hc]
    simp [NotificationCall.isDM, NotificationCall.isStoreUserEvent]
  cases hl : p.LoadUserEvent creator.MattermostUserID n.Event.ICalUID with
  | failed err =>
    simp only [diffAndNotify, hl]
    exact snapshotShape_of_clean p _ _ hclean1
  | notFound =>
    cases hm : p.GetMailboxSettings sub.Remote.CreatorID with
    | error err =>
      simp only [diffAndNotify, hl, hm]
      exact snapshotShape_of_clean p _ _ hclean2
    | ok ms =>
      simp only [diffAndNotify, hl, hm]
      exact snapshotShape_append p _ _ hclean2 (sendAndStore_shape p creator n _ _)
  | found prior =>
    cases hm : p.GetMailboxSettings sub.Remote.CreatorID with
    | error err =>
      simp only [diffAndNotify, hl, hm]
      exact snapshotShape_of_clean p _ _ hclean2
    | ok ms =>
      simp only [diffAndNotify, hl, hm]
      cases hu : (updatedEventSlackAttachment p n prior.Remote ms.TimeZone).1
      · simp only [Bool.not_false, if_true]
        exact snapshotShape_of_clean p _ _ hclean2
      · simp only [Bool.not_true, Bool.false_eq_true, if_false]
        exact snapshotShape_append p _ _ hclean2 (sendAndStore_shape p creator n _ _)

theorem hydrateAndDiff_shape (p : ProcessorEnv) (sub : Subscription) (creator : User)
    (n : Notification) : SnapshotShape p (hydrateAndDiff p sub creator n) := by
  unfold hydrateAndDiff
  cases hb : n.IsBare
  · simpa using diffAndNotify_shape p sub creator n
  · have hclean : ∀ c ∈ [NotificationCall.GetNotificationData n],
        c.isDM = false ∧ c.isStoreUserEvent = false := by
      intro c hc
      simp only [List.mem_singleton] at hc
      rw [hc]
      simp [NotificationCall.isDM, NotificationCall.isStoreUserEvent]
    cases hg : p.GetNotificationData n with
    | error err =>
      simp only [if_true]
      exact snapshotShape_of_clean p _ _ hclean
    | ok n2 =>
      simp only [if_true]
      exact snapshotShape_append p [NotificationCall.GetNotificationData n] _ hclean
        (diffAndNotify_shape p sub creator n2)

theorem renewStep_clean (p : ProcessorEnv) (sub : Subscription) (creator : User)
    (n : Notification) :
    ∀ c ∈ (renewStep p sub creator n).calls, c.isDM = false ∧ c.isStoreUserEvent = false := by
  intro c hc
  unfold renewStep at hc
  cases hr : n.RecommendRenew
  · simp [hr] at hc
  · cases hn : p.RenewSubscription p.NotificationURL sub.Remote.CreatorID n.Subscription with
    | error err =>
      simp [hr, hn] at hc
      rw [hc]
      simp [NotificationCall.isDM, NotificationCall.isStoreUserEvent]
    | ok renewed =>
      cases hst : p.StoreUserSubscriptionErr creator
          { Remote := renewed, MattermostCreatorID := creator.MattermostUserID,
            PluginVersion := p.PluginVersion } <;>
        simp [hr, hn, hst] at hc <;>
        rcases hc with rfl | rfl <;>
        simp [NotificationCall.isDM, NotificationCall.isStoreUserEvent]

/-- The calls of `processNotification` have the shape of `SnapshotShape`. -/
theorem processNotification_shape (p : ProcessorEnv) (n : Notification) :
    SnapshotShape p (processNotification p n) := by
  have hclean1 : ∀ c ∈ [NotificationCall.LoadSubscription n.SubscriptionID],
      c.isDM = false ∧ c.isStoreUserEvent = false := by
    intro c hc
    simp only [List.mem_singleton] at hc
    rw [hc]
    simp [NotificationCall.isDM, NotificationCall.isStoreUserEvent]
  cases hs : p.LoadSubscription n.SubscriptionID with
  | error err =>
    simp only [processNotification, hs]
    exact snapshotShape_of_clean p _ _ hclean1
  | ok sub =>
    have hclean2 : ∀ c ∈ [NotificationCall.LoadSubscription n.SubscriptionID,
        NotificationCall.LoadUser sub.MattermostCreatorID],
        c.isDM = false ∧ c.isStoreUserEvent = false := by
      intro c hc
      simp only [List.mem_cons, List.mem_singleton, List.not_mem_nil, or_false] at hc
      rcases hc with rfl | rfl <;>
        simp [NotificationCall.isDM, NotificationCall.isStoreUserEvent]
    cases hc : p.LoadUser sub.MattermostCreatorID with
    | error err =>
      simp only [processNotification, hs, hc]
      exact snapshotShape_of_clean p _ _ hclean2
    | ok creator =>
      simp only [processNotification, hs, hc]
      split_ifs
      · exact snapshotShape_of_clean p _ _ hclean2
      · exact snapshotShape_of_clean p _ _ hclean2
      · have hclean3 : ∀ c ∈ [NotificationCall.LoadSubscription n.SubscriptionID,
            NotificationCall.LoadUser sub.MattermostCreatorID] ++
            (renewStep p sub creator { n with Subscription := some sub.Remote }).calls,
            c.isDM = false ∧ c.isStoreUserEvent = false := by
          intro c hcm
          rcases List.mem_append.mp hcm with h | h
          · exact hclean2 c h
          · exact renewStep_clean p sub creator _ c h
        cases hr : (renewStep p sub creator { n with Subscription := some sub.Remote }).err with
        | some err => exact snapshotShape_of_clean p _ _ hclean3
        | none =>
          exact snapshotShape_append p _ _ hclean3 (hydrateAndDiff_shape p sub creator _)

theorem snapshotAfter_clean (p : ProcessorEnv) (stored : Option StoredEvent)
    (calls : List NotificationCall) (h : ∀ c ∈ calls, c.isStoreUserEvent = false) :
    snapshotAfter p stored calls = stored := by
  unfold snapshotAfter
  induction calls generalizing stored with
  | nil => rfl
  | cons c rest ih =>
    simp only [List.foldl_cons]
    have hc := h c (List.mem_cons_self c rest)
    have hrest : ∀ c ∈ rest, c.isStoreUserEvent = false :=
      fun x hx => h x (List.mem_cons_of_mem c hx)
    cases c <;> simp [NotificationCall.isStoreUserEvent] at hc <;> exact ih _ hrest

/-- The path of a notification whose diff is suppressed: the subscription and
its creator are loaded, `n2` is the notification after the fetch of its data, a
snapshot exists and `updatedEventSlackAttachment` reports no change. No call of
`processNotification` is then a DM or a write of the snapshot. -/
theorem processNotification_suppressed (p : ProcessorEnv) (n n2 : Notification)
    (sub : Subscription) (creator : User) (prior : StoredEvent) (ms : MailboxSettings)
    (hs : p.LoadSubscription n.SubscriptionID = .ok sub)
    (hc : p.LoadUser sub.MattermostCreatorID = .ok creator)
    (hn : (n.IsBare = false ∧ n2 = { n with Subscription := some sub.Remote }) ∨
      (n.IsBare = true ∧
        p.GetNotificationData { n with Subscription := some sub.Remote } = .ok n2))
    (hl : p.LoadUserEvent creator.MattermostUserID n2.Event.ICalUID = .found prior)
    (hm : p.GetMailboxSettings sub.Remote.CreatorID = .ok ms)
    (hu : (updatedEventSlackAttachment p n2 prior.Remote ms.TimeZone).1 = false) :
    ∀ c ∈ (processNotification p n).calls, c.isDM = false ∧ c.isStoreUserEvent = false := by
  have hclean2 : ∀ c ∈ [NotificationCall.LoadSubscription n.SubscriptionID,
      NotificationCall.LoadUser sub.MattermostCreatorID],
      c.isDM = false ∧ c.isStoreUserEvent = false := by
    intro c hc
    simp only [List.mem_cons, List.mem_singleton, List.not_mem_nil, or_false] at hc
    rcases hc with rfl | rfl <;>
      simp [NotificationCall.isDM, NotificationCall.isStoreUserEvent]
  have hdiff : diffAndNotify p sub creator n2 =
      ⟨none, [NotificationCall.LoadUserEvent creator.MattermostUserID n2.Event.ICalUID,
        NotificationCall.GetMailboxSettings sub.Remote.CreatorID]⟩ := by
    simp [diffAndNotify, hl, hm, hu]
  have hhyd : ∀ c ∈ (hydrateAndDiff p sub creator
      { n with Subscription := some sub.Remote }).calls,
      c.isDM = false ∧ c.isStoreUserEvent = false := by
    intro c hcm
    rcases hn with ⟨hb, he⟩ | ⟨hb, hg⟩
    · rw [← he] at hcm
      have hb2 : n2.IsBare = false := by rw [he]; exact hb
      simp only [hydrateAndDiff, hb2, Bool.false_eq_true, if_false, hdiff, List.mem_cons,
        List.mem_singleton, List.not_mem_nil, or_false] at hcm
      rcases hcm with rfl | rfl <;>
        simp [NotificationCall.isDM, NotificationCall.isStoreUserEvent]
    · have hval : (hydrateAndDiff p sub creator { n with Subscription := some sub.Remote }).calls =
          [NotificationCall.GetNotificationData { n with Subscription := some sub.Remote },
            NotificationCall.LoadUserEvent creator.MattermostUserID n2.Event.ICalUID,
            NotificationCall.GetMailboxSettings sub.Remote.CreatorID] := by
        unfold hydrateAndDiff
        rw [if_pos (show ({ n with Subscription := some sub.Remote } : Notification).IsBare = true
          from hb)]
        simp only [hg, hdiff]
      rw [hval] at hcm
      simp only [List.mem_cons, List.mem_singleton, List.not_mem_nil, or_false] at hcm
      rcases hcm with rfl | rfl | rfl <;>
        simp [NotificationCall.isDM, NotificationCall.isStoreUserEvent]
  intro c hcm
  simp only [processNotification, hs, hc] at hcm
  split_ifs at hcm
  · exact hclean2 c hcm
  · exact hclean2 c hcm
  · cases hr : (renewStep p sub creator { n with Subscription := some sub.Remote }).err with
    | some err =>
      rw [hr] at hcm
      rcases List.mem_append.mp hcm with h | h
      · exact hclean2 c h
      · exact renewStep_clean p sub creator _ c h
    | none =>
      rw [hr] at hcm
      simp only [List.append_assoc] at hcm
      rcases List.mem_append.mp hcm with h | h
      · exact hclean2 c h
      · rcases List.mem_append.mp h with h | h
        · exact renewStep_clean p sub creator _ c h
        · exact hhyd c h

/-- C26. In every run of `processNotification`: a write of the snapshot
(`StoreUserEvent`) is the last call and comes right after a DM that was sent
without error; when a DM fails, an error is returned, `StoreUserEvent` is not
called and the stored snapshot stays as it was; and when a snapshot exists and
the diff is suppressed, no DM is sent, `StoreUserEvent` is not called and the
stored snapshot stays as it was. -/
theorem processNotification_snapshot (p : ProcessorEnv) (n : Notification) :
    (∀ id ev, NotificationCall.StoreUserEvent id ev ∈ (processNotification p n).calls →
      ∃ pre sa,
        (processNotification p n).calls =
          pre ++ [NotificationCall.DMWithAttachments id sa,
            NotificationCall.StoreUserEvent id ev] ∧
        p.DMWithAttachmentsErr id sa = none ∧
        ∀ c ∈ pre, c.isDM = false ∧ c.isStoreUserEvent = false) ∧
    (∀ id sa, NotificationCall.DMWithAttachments id sa ∈ (processNotification p n).calls →
      p.DMWithAttachmentsErr id sa ≠ none →
        (processNotification p n).err ≠ none ∧
        (∀ c ∈ (processNotification p n).calls, c.isStoreUserEvent = false) ∧
        ∀ stored, snapshotAfter p stored (processNotification p n).calls = stored) ∧
    (∀ n2 sub creator prior ms,
      p.LoadSubscription n.SubscriptionID = .ok sub →
      p.LoadUser sub.MattermostCreatorID = .ok creator →
      ((n.IsBare = false ∧ n2 = { n with Subscription := some sub.Remote }) ∨
        (n.IsBare = true ∧
          p.GetNotificationData { n with Subscription := some sub.Remote } = .ok n2)) →
      p.LoadUserEvent creator.MattermostUserID n2.Event.ICalUID = .found prior →
      p.GetMailboxSettings sub.Remote.CreatorID = .ok ms →
      (updatedEventSlackAttachment p n2 prior.Remote ms.TimeZone).1 = false →
        (∀ c ∈ (processNotification p n).calls, c.isDM = false ∧ c.isStoreUserEvent = false) ∧
        ∀ stored, snapshotAfter p stored (processNotification p n).calls = stored) := by
  obtain ⟨pre, hpre, hshape⟩ := processNotification_shape p n
  refine ⟨?_, ?_, ?_⟩
  · intro id ev hmem
    rcases hshape with h | ⟨id2, sa2, h, -, -⟩ | ⟨id2, sa2, ev2, h, hd⟩
    · rw [h] at hmem
      have := (hpre _ hmem).2
      simp [NotificationCall.isStoreUserEvent] at this
    · rw [h] at hmem
      rcases List.mem_append.mp hmem with hm | hm
      · have := (hpre _ hm).2
        simp [NotificationCall.isStoreUserEvent] at this
      · simp at hm
    · rw [h] at hmem
      rcases List.mem_append.mp hmem with hm | hm
      · have := (hpre _ hm).2
        simp [NotificationCall.isStoreUserEvent] at this
      · simp only [List.mem_cons, List.mem_singleton, List.not_mem_nil, or_false] at hm
        rcases hm with hm | hm
        · exact absurd hm (by simp)
        · injection hm with e1 e2
          subst e1 e2
          exact ⟨pre, sa2, h, hd, hpre⟩
  · intro id sa hmem hfail
    have key : (processNotification p n).err ≠ none ∧
        ∀ c ∈ (processNotification p n).calls, c.isStoreUserEvent = false := by
      rcases hshape with h | ⟨id2, sa2, h, -, he⟩ | ⟨id2, sa2, ev2, h, hd⟩
      · rw [h] at hmem
        have := (hpre _ hmem).1
        simp [NotificationCall.isDM] at this
      · refine ⟨he, ?_⟩
        intro c hc
        rw [h] at hc
        rcases List.mem_append.mp hc with hm | hm
        · exact (hpre _ hm).2
        · simp only [List.mem_singleton] at hm
          rw [hm]
          rfl
      · rw [h] at hmem
        rcases List.mem_append.mp hmem with hm | hm
        · have := (hpre _ hm).1
          simp [NotificationCall.isDM] at this
        · simp only [List.mem_cons, List.mem_singleton, List.not_mem_nil, or_false] at hm
          rcases hm with hm | hm
          · injection hm with e1 e2
            subst e1 e2
            exact absurd hd hfail
          · exact absurd hm (by simp)
    exact ⟨key.1, key.2, fun stored => snapshotAfter_clean p stored _ key.2⟩
  · intro n2 sub creator prior ms hs hc hn hl hm hu
    have h := processNotification_suppressed p n n2 sub creator prior ms hs hc hn hl hm hu
    exact ⟨h, fun stored => snapshotAfter_clean p stored _ (fun c hc => (h c hc).2)⟩

/-- The example of the spec, run: a snapshot of the meeting is stored and the
notification carries the same meeting with another body preview. The calls are
the four loads; no DM is sent and the snapshot is not written. -/
theorem processNotification_bodyPreview :
    processNotification
        (exampleProcessorEnv "" "sub1"
          (.found ⟨exampleEvent "m1" tenOClock (tenOClock + 30 * Minute), "1.0"⟩) none)
        { exampleNotification "sub1" "" with
          Event := { exampleEvent "m1" tenOClock (tenOClock + 30 * Minute) with
            BodyPreview := "agenda" } } =
      ⟨none,
        [NotificationCall.LoadSubscription "sub1", NotificationCall.LoadUser "u1",
          NotificationCall.LoadUserEvent "u1" "m1", NotificationCall.GetMailboxSettings "r1"]⟩ := by
  decide

end Calendar
